import Mathlib

/-!
# Order service: reservation, settlement, release and transfer of warehouse stock

A shallow embedding of the stock ledger of `order-service-sample`
(`repository/repository.go`, `repository/pay_repository.go`,
`repository/transfer_repository.go`, `handler.go`).

The record store is a value of type `DB`: one list of rows per table.  Every
SQL statement of the source is a function on `DB`; a Go function that runs
statements inside a transaction works on a copy `tx` of the store and the
caller keeps the copy on `Commit` and the original on the deferred `Rollback`.

Modelling conventions:
* column values are mathematical integers (`Int`): the arithmetic of the SQL
  statements is done by the store on columns whose widths are not declared in
  the repository; the arithmetic the Go code does itself, on values of `int`
  and `int64`, wraps around at 64 bits (`wrap64`);
* a store operation fails only with `sql.ErrNoRows`; connection and driver
  failures are outside the model;
* the clock is a parameter `now` (seconds), read once per transaction as
  `NOW()` is.
-/

namespace OrderService

/-! ## Tables -/

/-- Row of `warehouses`. -/
structure Warehouse where
  id : Int
  active : Bool
  deriving DecidableEq, Repr

/-- Row of `warehouse_stock`; the table is keyed by `(warehouse_id, product_id)`. -/
structure WarehouseStock where
  warehouse_id : Int
  product_id : Int
  quantity : Int
  reserved : Int
  deriving DecidableEq, Repr

/-- Row of `products`: the price is stored as a decimal string, `stock` is the
coarse per-product counter. -/
structure Product where
  id : Int
  price : String
  stock : Int
  deriving DecidableEq, Repr

/-- Row of `reservations`. -/
structure Reservation where
  order_id : Int
  product_id : Int
  warehouse_id : Int
  quantity : Int
  expires_at : Int
  deriving DecidableEq, Repr

/-- Row of `orders`. -/
structure Order where
  id : Int
  user_id : Int
  total_amount : Int
  status : String
  deriving DecidableEq, Repr

/-- The record store. -/
structure DB where
  warehouses : List Warehouse
  warehouse_stock : List WarehouseStock
  products : List Product
  reservations : List Reservation
  orders : List Order
  deriving DecidableEq, Repr

/-- Item of a checkout request (`model.CheckoutItem`). -/
structure CheckoutItem where
  ProductID : Int
  Qty : Int
  deriving DecidableEq, Repr

/-- Reservation row as read back by settlement and release
(`repository.ReservationItem`). -/
structure ReservationItem where
  ProductID : Int
  WarehouseID : Int
  Qty : Int
  deriving DecidableEq, Repr

/-- Statements issued to the store, with their positional arguments in the
order the source passes them. -/
inductive Stmt where
  | selectWarehouse (productID qty : Int)
  | updateReserved (qty warehouseID productID : Int)
  | updateProductStock (qty productID : Int)
  | insertReservation (orderID productID warehouseID qty : Int)
  | insertStockRow (warehouseID productID : Int)
  | selectStockForUpdate (warehouseID productID : Int)
  | updateQuantitySub (qty warehouseID productID : Int)
  | updateQuantityAdd (qty warehouseID productID : Int)
  | selectReservations (orderID : Int)
  | releaseReserved (qty productID warehouseID : Int)
  | deleteReservations (orderID : Int)
  | updateWarehouseActive (active : Bool) (warehouseID : Int)
  deriving DecidableEq, Repr

/-- What a transaction body leaves behind: the working copy of the store, the
statements it issued, and the error it returned (`none` is Go's `nil`). -/
structure TxResult where
  tx : DB
  log : List Stmt
  err : Option String
  deriving DecidableEq, Repr

/-- Length of the reservation window in seconds (`INTERVAL '5 minutes'`). -/
def reservationWindow : Int := 300

/-! ## Statements of `ReserveStockForOrder` -/

/-- The `WHERE` clause of the warehouse lookup, on one joined row:
`w.active = TRUE AND ws.product_id = $1 AND (ws.quantity - ws.reserved) >= $2`,
where `w` ranges over the warehouses with `w.id = ws.warehouse_id`. -/
def lookupMatches (db : DB) (productID qty : Int) (ws : WarehouseStock) : Bool :=
  db.warehouses.any (fun w => decide (w.id = ws.warehouse_id) && w.active)
    && decide (ws.product_id = productID)
    && decide (ws.quantity - ws.reserved ≥ qty)

/-- Clause `ORDER BY ws.warehouse_id LIMIT 1`: a row with the least warehouse id. -/
def firstByWarehouseID : List WarehouseStock → Option WarehouseStock
  | [] => none
  | r :: rs =>
    match firstByWarehouseID rs with
    | none => some r
    | some m => if r.warehouse_id ≤ m.warehouse_id then some r else some m

/-- The warehouse lookup of `ReserveStockForOrder`; `none` is `sql.ErrNoRows`. -/
def selectWarehouse (db : DB) (productID qty : Int) : Option WarehouseStock :=
  firstByWarehouseID (db.warehouse_stock.filter (lookupMatches db productID qty))

/-- Statement `UPDATE warehouse_stock SET reserved = reserved + $1
WHERE warehouse_id = $2 AND product_id = $3`. -/
def updateReserved (db : DB) (qty warehouseID productID : Int) : DB :=
  { db with warehouse_stock := db.warehouse_stock.map (fun r =>
      if r.warehouse_id = warehouseID ∧ r.product_id = productID
      then { r with reserved := r.reserved + qty } else r) }

/-- Statement `UPDATE products SET stock = stock - $1 WHERE id = $2`. -/
def updateProductStock (db : DB) (qty productID : Int) : DB :=
  { db with products := db.products.map (fun p =>
      if p.id = productID then { p with stock := p.stock - qty } else p) }

/-- Statement `INSERT INTO reservations (order_id, product_id, warehouse_id, quantity,
expires_at) VALUES ($1, $2, $3, $4, NOW() + INTERVAL '5 minutes')`. -/
def insertReservation (now : Int) (db : DB) (orderID productID warehouseID qty : Int) : DB :=
  { db with reservations := db.reservations ++
      [{ order_id := orderID, product_id := productID, warehouse_id := warehouseID,
         quantity := qty, expires_at := now + reservationWindow }] }

/-- Error of `ReserveStockForOrder` when the lookup finds no row. -/
def noWarehouseError (productID : Int) : String :=
  "no active warehouse has enough stock for product " ++ toString productID

/-- The loop of `ReserveStockForOrder` over the items, inside the transaction. -/
def reserveItems (now orderID : Int) : DB → List CheckoutItem → TxResult
  | tx, [] => { tx := tx, log := [], err := none }
  | tx, item :: rest =>
    match selectWarehouse tx item.ProductID item.Qty with
    | none =>
      { tx := tx, log := [Stmt.selectWarehouse item.ProductID item.Qty],
        err := some (noWarehouseError item.ProductID) }
    | some row =>
      let warehouseID := row.warehouse_id
      let tx1 := updateReserved tx item.Qty warehouseID item.ProductID
      let tx2 := updateProductStock tx1 item.Qty item.ProductID
      let tx3 := insertReservation now tx2 orderID item.ProductID warehouseID item.Qty
      let r := reserveItems now orderID tx3 rest
      { tx := r.tx,
        log := Stmt.selectWarehouse item.ProductID item.Qty
          :: Stmt.updateReserved item.Qty warehouseID item.ProductID
          :: Stmt.updateProductStock item.Qty item.ProductID
          :: Stmt.insertReservation orderID item.ProductID warehouseID item.Qty
          :: r.log,
        err := r.err }

/-- Result of a repository call that owns its transaction: the committed store,
the statements issued, the returned error. -/
structure CallResult where
  db : DB
  log : List Stmt
  err : Option String
  deriving DecidableEq, Repr

/-- Function `ReserveStockForOrder`: begin, run the loop, `Commit` when the loop ends
without error; on every early return the deferred `Rollback` discards the
working copy. -/
def ReserveStockForOrder (now : Int) (db : DB) (orderID : Int) (items : List CheckoutItem) :
    CallResult :=
  let r := reserveItems now orderID db items
  match r.err with
  | none => { db := r.tx, log := r.log, err := none }
  | some e => { db := db, log := r.log, err := some e }

/-! ## `ReleaseReservationByOrderID` -/

/-- Statement `SELECT product_id, warehouse_id, quantity FROM reservations
WHERE order_id = $1`, scanned into items. -/
def selectReservations (db : DB) (orderID : Int) : List ReservationItem :=
  (db.reservations.filter (fun r => decide (r.order_id = orderID))).map
    (fun r => { ProductID := r.product_id, WarehouseID := r.warehouse_id, Qty := r.quantity })

/-- Statement `UPDATE warehouse_stock SET reserved = GREATEST(reserved - $1, 0)
WHERE product_id = $2 AND warehouse_id = $3`. -/
def releaseReserved (db : DB) (qty productID warehouseID : Int) : DB :=
  { db with warehouse_stock := db.warehouse_stock.map (fun r =>
      if r.product_id = productID ∧ r.warehouse_id = warehouseID
      then { r with reserved := max (r.reserved - qty) 0 } else r) }

/-- Statement `DELETE FROM reservations WHERE order_id = $1`. -/
def deleteReservations (db : DB) (orderID : Int) : DB :=
  { db with reservations := db.reservations.filter (fun r => !decide (r.order_id = orderID)) }

/-- Step 2 of the release: one `UPDATE` per reservation item, in order. -/
def releaseItems : DB → List ReservationItem → DB
  | tx, [] => tx
  | tx, item :: rest =>
    releaseItems (releaseReserved tx item.Qty item.ProductID item.WarehouseID) rest

/-- Function `ReleaseReservationByOrderID`: load the rows of the order, lower `reserved`
for each, delete the rows, commit.  No step returns `sql.ErrNoRows`, so the call
ends in `Commit`. -/
def ReleaseReservationByOrderID (db : DB) (orderID : Int) : CallResult :=
  let items := selectReservations db orderID
  let tx := releaseItems db items
  let tx := deleteReservations tx orderID
  { db := tx,
    log := Stmt.selectReservations orderID
      :: (items.map (fun it => Stmt.releaseReserved it.Qty it.ProductID it.WarehouseID)
          ++ [Stmt.deleteReservations orderID]),
    err := none }

/-! ## Settlement: `pay_repository.go` and `PayHandler` -/

/-- Function `ValidateOrderOwnership`: the status of the order and the error. -/
def ValidateOrderOwnership (db : DB) (orderID userID : Int) : String × Option String :=
  match db.orders.find? (fun o => decide (o.id = orderID)) with
  | none => ("", some "order_not_found")
  | some o =>
    if o.user_id ≠ userID then ("", some "forbidden")
    else (o.status, none)

/-- Function `GetOrderReservationItems`: the same query as the release issues. -/
def GetOrderReservationItems (db : DB) (orderID : Int) : List ReservationItem :=
  selectReservations db orderID

/-- Statement `UPDATE warehouse_stock SET quantity = quantity - $1, reserved = reserved - $1,
updated_at = NOW() WHERE warehouse_id = $2 AND product_id = $3`. -/
def updateStockPaid (db : DB) (qty warehouseID productID : Int) : DB :=
  { db with warehouse_stock := db.warehouse_stock.map (fun r =>
      if r.warehouse_id = warehouseID ∧ r.product_id = productID
      then { r with quantity := r.quantity - qty, reserved := r.reserved - qty } else r) }

/-- Function `ApplyStockPayment`: one `UPDATE` per item, in order. -/
def ApplyStockPayment : DB → List ReservationItem → DB
  | tx, [] => tx
  | tx, it :: rest =>
    ApplyStockPayment (updateStockPaid tx it.Qty it.WarehouseID it.ProductID) rest

/-- Function `ClearReservation`. -/
def ClearReservation (tx : DB) (orderID : Int) : DB :=
  deleteReservations tx orderID

/-- Function `UpdateOrderPaid`: `UPDATE orders SET status = 'paid' WHERE id = $1`. -/
def UpdateOrderPaid (tx : DB) (orderID : Int) : DB :=
  { tx with orders := tx.orders.map (fun o =>
      if o.id = orderID then { o with status := "paid" } else o) }

/-- What a handler writes back: the HTTP status and, for `WriteErrorJSON`, the
message (`none` when the success payload is written). -/
structure Reply where
  status : Nat
  error : Option String
  deriving DecidableEq, Repr

/-- Function `PayHandler` for user `userID`; `req` is the decoded body (`none` when the
body does not decode), holding `order_id`.  Returns the committed store and the
reply. -/
def PayHandler (db : DB) (userID : Int) (req : Option Int) : DB × Reply :=
  match req with
  | none => (db, { status := 400, error := some "invalid json" })
  | some orderID =>
    if orderID = 0 then (db, { status := 400, error := some "order_id required" })
    else
      match ValidateOrderOwnership db orderID userID with
      | (_, some e) =>
        if e = "order_not_found" then (db, { status := 404, error := some "order not found" })
        else if e = "forbidden" then (db, { status := 403, error := some "forbidden" })
        else (db, { status := 500, error := some "internal error" })
      | (status, none) =>
        if status ≠ "pending" then (db, { status := 400, error := some "order cannot be paid" })
        else
          let items := GetOrderReservationItems db orderID
          let tx := ApplyStockPayment db items
          let tx := ClearReservation tx orderID
          let tx := UpdateOrderPaid tx orderID
          (tx, { status := 200, error := none })

/-! ## Arithmetic of Go's integers -/

/-- Arithmetic of `int` and `int64`, both 64 bits wide: the value wraps around
at 64 bits. -/
def wrap64 (x : Int) : Int :=
  (x + 2 ^ 63) % 2 ^ 64 - 2 ^ 63

/-! ## Transfer: `transfer_repository.go` -/

/-- Statement `INSERT INTO warehouse_stock (warehouse_id, product_id, quantity, reserved)
VALUES ($1, $2, 0, 0) ON CONFLICT (warehouse_id, product_id) DO NOTHING`. -/
def ensureStockRowExists (tx : DB) (warehouseID productID : Int) : DB :=
  if tx.warehouse_stock.any
      (fun r => decide (r.warehouse_id = warehouseID) && decide (r.product_id = productID))
  then tx
  else { tx with warehouse_stock := tx.warehouse_stock ++
      [{ warehouse_id := warehouseID, product_id := productID, quantity := 0, reserved := 0 }] }

/-- Statement `SELECT quantity, reserved FROM warehouse_stock
WHERE warehouse_id = $1 AND product_id = $2` (with or without `FOR UPDATE`);
`none` is `sql.ErrNoRows`. -/
def selectStock (db : DB) (warehouseID productID : Int) : Option WarehouseStock :=
  db.warehouse_stock.find?
    (fun r => decide (r.warehouse_id = warehouseID) && decide (r.product_id = productID))

/-- Statement `UPDATE warehouse_stock SET quantity = quantity - $1
WHERE warehouse_id = $2 AND product_id = $3`. -/
def updateQuantitySub (db : DB) (qty warehouseID productID : Int) : DB :=
  { db with warehouse_stock := db.warehouse_stock.map (fun r =>
      if r.warehouse_id = warehouseID ∧ r.product_id = productID
      then { r with quantity := r.quantity - qty } else r) }

/-- Statement `UPDATE warehouse_stock SET quantity = quantity + $1
WHERE warehouse_id = $2 AND product_id = $3`. -/
def updateQuantityAdd (db : DB) (qty warehouseID productID : Int) : DB :=
  { db with warehouse_stock := db.warehouse_stock.map (fun r =>
      if r.warehouse_id = warehouseID ∧ r.product_id = productID
      then { r with quantity := r.quantity + qty } else r) }

/-- Error of `TransferStock` when the source has too little available stock. -/
def notEnoughError (available : Int) : String :=
  "not enough available stock in source warehouse (available=" ++ toString available ++ ")"

/-- Function `TransferStock`, on the transaction `tx` of the caller.  The
available stock `srcQty - srcReserved` is computed on `int`. -/
def TransferStock (tx : DB) (fromWarehouseID toWarehouseID productID qty : Int) : TxResult :=
  if fromWarehouseID = toWarehouseID then
    { tx := tx, log := [], err := some "from and to warehouse must be different" }
  else if qty ≤ 0 then
    { tx := tx, log := [], err := some "quantity must be > 0" }
  else
    let tx1 := ensureStockRowExists tx toWarehouseID productID
    let log1 := [Stmt.insertStockRow toWarehouseID productID,
                 Stmt.selectStockForUpdate fromWarehouseID productID]
    match selectStock tx1 fromWarehouseID productID with
    | none => { tx := tx1, log := log1, err := some "source_stock_not_found" }
    | some src =>
      let available := wrap64 (src.quantity - src.reserved)
      if available < qty then
        { tx := tx1, log := log1, err := some (notEnoughError available) }
      else
        let log2 := log1 ++ [Stmt.selectStockForUpdate toWarehouseID productID]
        match selectStock tx1 toWarehouseID productID with
        | none => { tx := tx1, log := log2, err := some "sql: no rows in result set" }
        | some _ =>
          let tx2 := updateQuantitySub tx1 qty fromWarehouseID productID
          let tx3 := updateQuantityAdd tx2 qty toWarehouseID productID
          { tx := tx3,
            log := log2 ++ [Stmt.updateQuantitySub qty fromWarehouseID productID,
                            Stmt.updateQuantityAdd qty toWarehouseID productID],
            err := none }

/-- The transaction `TransferHandler` wraps around `TransferStock`: `Commit`
when it returns no error, the deferred `Rollback` otherwise. -/
def transferTx (db : DB) (fromWarehouseID toWarehouseID productID qty : Int) : CallResult :=
  let r := TransferStock db fromWarehouseID toWarehouseID productID qty
  match r.err with
  | none => { db := r.tx, log := r.log, err := none }
  | some e => { db := db, log := r.log, err := some e }

/-! ## Strings and numbers of the Go library

Strings are sequences of characters.  On the strings of Lean, which are valid
Unicode, the functions below return what `strings.TrimSpace`, `strings.Split`,
`strconv.ParseInt`, `strconv.Atoi` and `fmt.Sprintf("%d")` return; of an error
only its kind is kept.  Go's `int` and `int64` are 64 bits wide. -/

/-- White space in the sense of `unicode.IsSpace`, which `strings.TrimSpace`
trims. -/
def isSpace (c : Char) : Bool :=
  decide (9 ≤ c.toNat ∧ c.toNat ≤ 13) || decide (c.toNat = 32) || decide (c.toNat = 0x85)
    || decide (c.toNat = 0xA0) || decide (c.toNat = 0x1680)
    || decide (0x2000 ≤ c.toNat ∧ c.toNat ≤ 0x200A)
    || decide (c.toNat = 0x2028) || decide (c.toNat = 0x2029) || decide (c.toNat = 0x202F)
    || decide (c.toNat = 0x205F) || decide (c.toNat = 0x3000)

/-- Function `strings.TrimSpace`. -/
def trimSpace (s : List Char) : List Char :=
  ((s.dropWhile isSpace).reverse.dropWhile isSpace).reverse

/-- Function `strings.Split` with a one-character separator. -/
def splitOn (sep : Char) : List Char → List (List Char)
  | [] => [[]]
  | c :: cs =>
    if c = sep then [] :: splitOn sep cs
    else
      match splitOn sep cs with
      | [] => [[c]]
      | part :: parts => (c :: part) :: parts

/-- Value of a decimal digit character, if it is one. -/
def digitVal (c : Char) : Option Nat :=
  if 48 ≤ c.toNat ∧ c.toNat ≤ 57 then some (c.toNat - 48) else none

/-- Kinds of error of `strconv.ParseInt` (`strconv.ErrSyntax`,
`strconv.ErrRange`). -/
inductive NumError where
  | invalidSyntax
  | outOfRange
  deriving DecidableEq, Repr

/-- The digit loop of `strconv.ParseUint` in base 10 on 64 bits: the first
character that is no digit is a syntax error, the first step that leaves the
64 bits a range error. -/
def parseUintLoop : Nat → List Char → Except NumError Nat
  | acc, [] => .ok acc
  | acc, c :: cs =>
    match digitVal c with
    | none => .error NumError.invalidSyntax
    | some d =>
      if 2 ^ 64 ≤ acc * 10 + d then .error NumError.outOfRange
      else parseUintLoop (acc * 10 + d) cs

/-- Function `strconv.ParseInt(s, 10, 64)`: an optional sign, then at least one
digit; the value must fit in 64 bits. -/
def ParseInt (s : List Char) : Except NumError Int :=
  match s with
  | [] => .error NumError.invalidSyntax
  | c :: rest =>
    let neg : Bool := decide (c = '-')
    let body := if c = '+' ∨ c = '-' then rest else s
    match body with
    | [] => .error NumError.invalidSyntax
    | _ :: _ =>
      match parseUintLoop 0 body with
      | .error e => .error e
      | .ok un =>
        if neg = false ∧ 2 ^ 63 ≤ un then .error NumError.outOfRange
        else if neg = true ∧ 2 ^ 63 < un then .error NumError.outOfRange
        else .ok (if neg then -(un : Int) else (un : Int))

/-- Function `strconv.Atoi`: `ParseInt` at the width of `int`. -/
def Atoi (s : List Char) : Except NumError Int :=
  ParseInt s

/-- The character of a decimal digit. -/
def digitChar (d : Nat) : Char :=
  Char.ofNat (48 + d)

/-- The digit loop of `fmt` for `%d`: while the number is 10 or more its last
digit is written in front of the digits already produced and the number is
divided by 10; the remaining digit comes first.  `fuel` bounds the number of
rounds. -/
def formatNatLoop : Nat → Nat → List Char → List Char
  | 0, _, acc => acc
  | fuel + 1, n, acc =>
    if n < 10 then digitChar n :: acc
    else formatNatLoop fuel (n / 10) (digitChar (n % 10) :: acc)

/-- Decimal rendering of a natural number, most significant digit first. -/
def formatNat (n : Nat) : List Char :=
  formatNatLoop (n + 1) n []

/-- Rendering `fmt.Sprintf("%d", n)`. -/
def formatInt (n : Int) : List Char :=
  if n < 0 then '-' :: formatNat n.natAbs else formatNat n.natAbs

/-! ## Prices: `checkout_repository.go` -/

/-- Errors of `convertPriceToCents` and `GetProductPrice`, by the format string
that builds them. -/
inductive PriceError where
  | productNotFound
  | invalidPriceFormat
  | invalidDollarsPart (e : NumError)
  | invalidCentsPart (e : NumError)
  | convertFailed (e : PriceError)
  deriving DecidableEq, Repr

/-- The message of the errors whose text is fixed. -/
def PriceError.message : PriceError → String
  | .productNotFound => "product_not_found"
  | .invalidPriceFormat => "invalid price format"
  | .invalidDollarsPart _ => "invalid dollars part"
  | .invalidCentsPart _ => "invalid cents part"
  | .convertFailed _ => "failed to convert price to cents"

/-- The cents string after `Pad or truncate cents to 2 digits`. -/
def padOrTruncate (centsStr : List Char) : List Char :=
  if centsStr.length > 2 then centsStr.take 2
  else if centsStr.length < 2 then centsStr ++ List.replicate (2 - centsStr.length) '0'
  else centsStr

/-- Function `convertPriceToCents`. -/
def convertPriceToCents (priceStr : String) : Int × Option PriceError :=
  let priceStr := trimSpace priceStr.toList
  let parts := splitOn '.' priceStr
  if parts.length > 2 then (0, some PriceError.invalidPriceFormat)
  else
    match ParseInt (parts.getD 0 []) with
    | .error e => (0, some (PriceError.invalidDollarsPart e))
    | .ok dollars =>
      if parts.length = 2 then
        match ParseInt (padOrTruncate (parts.getD 1 [])) with
        | .error e => (0, some (PriceError.invalidCentsPart e))
        | .ok cents => (wrap64 (wrap64 (dollars * 100) + cents), none)
      else (wrap64 (wrap64 (dollars * 100) + 0), none)

/-- Function `GetProductPrice`: `SELECT price FROM products WHERE id=$1`, the
price scanned into a string and converted. -/
def GetProductPrice (db : DB) (productID : Int) : Int × Option PriceError :=
  match db.products.find? (fun p => decide (p.id = productID)) with
  | none => (0, some PriceError.productNotFound)
  | some p =>
    match convertPriceToCents p.price with
    | (_, some e) => (0, some (PriceError.convertFailed e))
    | (priceInCents, none) => (priceInCents, none)

/-! ## Warehouse status: `warehouse_repository.go` -/

/-- Statement `UPDATE warehouses SET active = $1 WHERE id = $2`. -/
def updateWarehouseActive (db : DB) (active : Bool) (warehouseID : Int) : DB :=
  { db with warehouses := db.warehouses.map (fun w =>
      if w.id = warehouseID then { w with active := active } else w) }

/-- Rows the statement of `updateWarehouseActive` affects. -/
def rowsAffected (db : DB) (warehouseID : Int) : Nat :=
  (db.warehouses.filter (fun w => decide (w.id = warehouseID))).length

/-- Function `UpdateWarehouseStatus`; the statement runs outside any
transaction, so what it wrote stays. -/
def UpdateWarehouseStatus (db : DB) (warehouseID : Int) (status : String) : CallResult :=
  if status = "active" ∨ status = "deactive" then
    let active : Bool := decide (status = "active")
    let db1 := updateWarehouseActive db active warehouseID
    let log := [Stmt.updateWarehouseActive active warehouseID]
    if rowsAffected db warehouseID = 0 then
      { db := db1, log := log, err := some "warehouse_not_found" }
    else { db := db1, log := log, err := none }
  else { db := db, log := [], err := some "invalid_status" }

/-- Decoded body of a transfer request (`model.TransferReq`). -/
structure TransferReq where
  ProductID : Int
  FromWarehouse : Int
  ToWarehouse : Int
  Quantity : Int
  deriving DecidableEq, Repr

/-- Function `CheckWarehouseActive`: `SELECT active FROM warehouses WHERE id = $1`;
no row gives `(false, warehouse_not_found)`. -/
def CheckWarehouseActive (db : DB) (warehouseID : Int) : Bool × Option String :=
  match db.warehouses.find? (fun w => decide (w.id = warehouseID)) with
  | none => (false, some "warehouse_not_found")
  | some w => (w.active, none)

/-- Function `GetAvailableStock`: `quantity - reserved` of the stock row,
computed on `int` and clamped at 0; no row gives `(0, stock_not_found)`. -/
def GetAvailableStock (db : DB) (warehouseID productID : Int) : Int × Option String :=
  match selectStock db warehouseID productID with
  | none => (0, some "stock_not_found")
  | some r =>
    let avail := wrap64 (r.quantity - r.reserved)
    (if avail < 0 then 0 else avail, none)

/-- Function `TransferHandler`; `req` is the decoded body (`none` when the body
does not decode).  Returns the committed store and the reply. -/
def TransferHandler (db : DB) (req : Option TransferReq) : DB × Reply :=
  match req with
  | none => (db, { status := 400, error := some "invalid json" })
  | some req =>
    if req.ProductID = 0 ∨ req.FromWarehouse = 0 ∨ req.ToWarehouse = 0 ∨ req.Quantity ≤ 0 then
      (db, { status := 400, error := some "missing or invalid fields" })
    else if (CheckWarehouseActive db req.FromWarehouse).2 ≠ none then
      (db, { status := 500, error := some "failed to validate source warehouse" })
    else if (CheckWarehouseActive db req.FromWarehouse).1 = false then
      (db, { status := 400, error := some "source warehouse not active or not found" })
    else if (CheckWarehouseActive db req.ToWarehouse).2 ≠ none then
      (db, { status := 500, error := some "failed to validate destination warehouse" })
    else if (CheckWarehouseActive db req.ToWarehouse).1 = false then
      (db, { status := 400, error := some "destination warehouse not active or not found" })
    else if (GetAvailableStock db req.FromWarehouse req.ProductID).2 ≠ none then
      (db, { status := 500, error := some "failed to check stock" })
    else if (GetAvailableStock db req.FromWarehouse req.ProductID).1 < req.Quantity then
      (db, { status := 400, error := some "not enough available stock in source warehouse" })
    else
      let r := TransferStock db req.FromWarehouse req.ToWarehouse req.ProductID req.Quantity
      match r.err with
      | some e => (db, { status := 400, error := some e })
      | none => (r.tx, { status := 200, error := none })

/-! ## Order creation: `checkout_repository.go` -/

/-- Function `CreateOrder`: `INSERT INTO orders (user_id, total_amount, status)
VALUES ($1, $2, 'pending') RETURNING id`.  The id is generated by the store; it
is the parameter `newID`. -/
def CreateOrder (db : DB) (newID userID totalAmount : Int) : DB × Int :=
  ({ db with orders := db.orders ++
      [{ id := newID, user_id := userID, total_amount := totalAmount, status := "pending" }] },
   newID)

/-- Row of `order_items`.  The repository only ever inserts into this table;
the rows a handler inserts are part of its outcome. -/
structure OrderItem where
  order_id : Int
  product_id : Int
  quantity : Int
  price : Int
  deriving DecidableEq, Repr

/-- The key armed in the expiring-key store: its name, its value and its time
to live in seconds (`rdb.SetEx`). -/
structure Notification where
  key : List Char
  value : Int
  ttl : Int
  deriving DecidableEq, Repr

/-- Prefix of the notification keys. -/
def keyPrefix : List Char := "reservation:".toList

/-- Value of `helper.ReservationTTLMinutesDefault`. -/
def ReservationTTLMinutesDefault : Int := 5

/-- Step 3 of `CheckoutHandler`: the total price, or `none` when the price of a
product cannot be read. -/
def checkoutTotal (db : DB) : Int → List CheckoutItem → Option Int
  | totalAmount, [] => some totalAmount
  | totalAmount, item :: rest =>
    match GetProductPrice db item.ProductID with
    | (_, some _) => none
    | (price, none) => checkoutTotal db (wrap64 (totalAmount + wrap64 (price * item.Qty))) rest

/-- Step 5 of `CheckoutHandler`: one row of `order_items` per item, at the
price read again (an error of that read is ignored). -/
def checkoutOrderItems (db : DB) (orderID : Int) (items : List CheckoutItem) : List OrderItem :=
  items.map (fun item =>
    { order_id := orderID, product_id := item.ProductID, quantity := item.Qty,
      price := (GetProductPrice db item.ProductID).1 })

/-- What `CheckoutHandler` did: the committed store, the rows inserted into
`order_items`, the arguments of its call of `ReserveStockForOrder` if it made
one, the key it armed if it armed one, the id of the order it created if it
created one, and the reply. -/
structure CheckoutOutcome where
  db : DB
  orderItems : List OrderItem
  reserveCall : Option (Int × List CheckoutItem)
  notification : Option Notification
  created : Option Int
  reply : Reply
  deriving DecidableEq, Repr

/-- Function `CheckoutHandler` for user `userID`; `req` is the decoded body
(`none` when the body does not decode), holding `items`; `newID` is the id the
store gives the order. -/
def CheckoutHandler (now : Int) (db : DB) (userID newID : Int)
    (req : Option (List CheckoutItem)) : CheckoutOutcome :=
  match req with
  | none =>
    { db := db, orderItems := [], reserveCall := none, notification := none, created := none,
      reply := { status := 400, error := some "invalid request body" } }
  | some items =>
    if items.length = 0 then
      { db := db, orderItems := [], reserveCall := none, notification := none,
        created := none, reply := { status := 400, error := some "items cannot be empty" } }
    else
      match checkoutTotal db 0 items with
      | none =>
        { db := db, orderItems := [], reserveCall := none, notification := none,
          created := none, reply := { status := 400, error := some "invalid product_id" } }
      | some totalAmount =>
        let created := CreateOrder db newID userID totalAmount
        let orderID := created.2
        let rows := checkoutOrderItems created.1 orderID items
        let r := ReserveStockForOrder now created.1 orderID items
        match r.err with
        | some e =>
          { db := r.db, orderItems := rows, reserveCall := some (orderID, items),
            notification := none, created := some orderID,
            reply := { status := 400, error := some e } }
        | none =>
          { db := r.db, orderItems := rows, reserveCall := some (orderID, items),
            notification := some
              { key := keyPrefix ++ formatInt orderID, value := orderID,
                ttl := ReservationTTLMinutesDefault * 60 },
            created := some orderID,
            reply := { status := 201, error := none } }

/-! ## Expiry worker: `main.go` -/

/-- Function `strings.HasPrefix`. -/
def startsWith (pre s : List Char) : Bool :=
  decide (s.take pre.length = pre)

/-- Function `strings.TrimPrefix`. -/
def dropStart (pre s : List Char) : List Char :=
  if startsWith pre s then s.drop pre.length else s

/-- What the worker did with one expired key: the committed store and the
order id it called `ReleaseReservationByOrderID` with, if it called it. -/
structure WorkerOutcome where
  db : DB
  released : Option Int
  deriving DecidableEq, Repr

/-- The body of the loop of `runWorker` for one message with payload `key`. -/
def workerHandle (db : DB) (key : List Char) : WorkerOutcome :=
  if startsWith keyPrefix key then
    let idStr := dropStart keyPrefix key
    match Atoi idStr with
    | .error _ => { db := db, released := none }
    | .ok id => { db := (ReleaseReservationByOrderID db id).db, released := some id }
  else { db := db, released := none }

/-! ## Runs of the ledger operations -/

/-- The four operations on the ledger. -/
inductive Op where
  | reserve (now orderID : Int) (items : List CheckoutItem)
  | settle (userID orderID : Int)
  | release (orderID : Int)
  | transfer (fromWarehouseID toWarehouseID productID qty : Int)
  deriving DecidableEq, Repr

/-- The committed store after one operation. -/
def step (db : DB) : Op → DB
  | .reserve now orderID items => (ReserveStockForOrder now db orderID items).db
  | .settle userID orderID => (PayHandler db userID (some orderID)).1
  | .release orderID => (ReleaseReservationByOrderID db orderID).db
  | .transfer f t p qty => (transferTx db f t p qty).db

/-- The committed store after a sequence of operations. -/
def run (db : DB) (ops : List Op) : DB :=
  ops.foldl step db

/-- Items of a reservation request all have a positive quantity. -/
def positiveItems : Op → Prop
  | .reserve _ _ items => ∀ it ∈ items, 0 < it.Qty
  | _ => True

/-- The key of `warehouse_stock`: no two rows share `(warehouse_id, product_id)`,
which is what the `ON CONFLICT (warehouse_id, product_id)` clause of
`ensureStockRowExists` relies on. -/
def stockKeyed (db : DB) : Prop :=
  (db.warehouse_stock.map (fun r => (r.warehouse_id, r.product_id))).Nodup

/-- The stock invariant on every row: `0 ≤ reserved ≤ quantity`. -/
def stockInvariant (db : DB) : Prop :=
  ∀ r ∈ db.warehouse_stock, 0 ≤ r.reserved ∧ r.reserved ≤ r.quantity

/-! ## Specification vocabulary -/

/-- Warehouse `w` qualifies for `qty` units of product `p`: it is active and
its stock row for `p` has `quantity - reserved ≥ qty`. -/
def qualifies (db : DB) (p qty w : Int) : Prop :=
  (∃ wh ∈ db.warehouses, wh.id = w ∧ wh.active = true) ∧
  ∃ r ∈ db.warehouse_stock,
    r.warehouse_id = w ∧ r.product_id = p ∧ r.quantity - r.reserved ≥ qty

/-- First fit by ascending warehouse id: `w` qualifies and no qualifying
warehouse has a smaller id. -/
def firstFit (db : DB) (p qty w : Int) : Prop :=
  qualifies db p qty w ∧ ∀ w2, qualifies db p qty w2 → w ≤ w2

/-- A reservation row as the item the settlement and the release read. -/
def Reservation.toItem (r : Reservation) : ReservationItem :=
  { ProductID := r.product_id, WarehouseID := r.warehouse_id, Qty := r.quantity }

/-- Total quantity of the items that name the stock row `(w, p)`. -/
def itemQty : List ReservationItem → Int → Int → Int
  | [], _, _ => 0
  | it :: rest, w, p =>
    (if it.WarehouseID = w ∧ it.ProductID = p then it.Qty else 0) + itemQty rest w p

/-- Total quantity a checkout item list orders of product `p`. -/
def orderedQty : List CheckoutItem → Int → Int
  | [], _ => 0
  | it :: rest, p => (if it.ProductID = p then it.Qty else 0) + orderedQty rest p

/-- The reservation row inserted for `item` at warehouse `w`. -/
def reservationRow (now orderID : Int) (item : CheckoutItem) (w : Int) : Reservation :=
  { order_id := orderID, product_id := item.ProductID, warehouse_id := w,
    quantity := item.Qty, expires_at := now + reservationWindow }

/-- Value of `reserved` on the row `(w, p)` after the release has processed
`items` in order, starting from `r`. -/
def releasedTo : List ReservationItem → Int → Int → Int → Int
  | [], _, _, r => r
  | it :: rest, w, p, r =>
    releasedTo rest w p (if it.ProductID = p ∧ it.WarehouseID = w then max (r - it.Qty) 0 else r)

/-- Quantity outstanding in reservation rows on the stock row `(w, p)`. -/
def outstanding (db : DB) (w p : Int) : Int :=
  itemQty (db.reservations.map Reservation.toItem) w p

/-- The ledger is consistent: the stock table is keyed, every row holds at
least the quantity outstanding in reservations and at most its quantity, every
reservation row has a non-negative quantity and names an existing stock row. -/
structure Consistent (db : DB) : Prop where
  keyed : stockKeyed db
  bounds : ∀ r ∈ db.warehouse_stock,
    outstanding db r.warehouse_id r.product_id ≤ r.reserved ∧ r.reserved ≤ r.quantity
  nonneg : ∀ res ∈ db.reservations, 0 ≤ res.quantity
  named : ∀ res ∈ db.reservations, ∃ r ∈ db.warehouse_stock,
    r.warehouse_id = res.warehouse_id ∧ r.product_id = res.product_id

/-- Stock row `r` after the reservation rows `rows` have been booked on it:
`reserved` grows by the quantity of the rows that name `r`. -/
def bookedRow (rows : List ReservationItem) (r : WarehouseStock) : WarehouseStock :=
  { r with reserved := r.reserved + itemQty rows r.warehouse_id r.product_id }

/-- Product row after the items have been ordered: the counter drops by the
quantity ordered of that product. -/
def orderedProduct (items : List CheckoutItem) (pr : Product) : Product :=
  { pr with stock := pr.stock - orderedQty items pr.id }

/-- The reservation rows a successful call inserts for `items` when the
warehouses chosen are `ws`, item by item. -/
def reservationRows (now orderID : Int) (items : List CheckoutItem) (ws : List Int) :
    List Reservation :=
  List.zipWith (reservationRow now orderID) items ws

/-- Stock row `r` after the settlement has applied `items`: `quantity` and
`reserved` both drop by the quantity of the items that name `r`. -/
def paidRow (items : List ReservationItem) (r : WarehouseStock) : WarehouseStock :=
  { r with quantity := r.quantity - itemQty items r.warehouse_id r.product_id,
           reserved := r.reserved - itemQty items r.warehouse_id r.product_id }

/-- The order row a pay request for `orderID` is checked against. -/
def findOrder (db : DB) (orderID : Int) : Option Order :=
  db.orders.find? (fun o => decide (o.id = orderID))

/-- Stock row `r` after the release has processed `items`. -/
def releasedRow (items : List ReservationItem) (r : WarehouseStock) : WarehouseStock :=
  { r with reserved := releasedTo items r.warehouse_id r.product_id r.reserved }

/-- Total of `quantity` over the stock rows of product `p` in a list of rows. -/
def quantitySum : List WarehouseStock → Int → Int
  | [], _ => 0
  | r :: rs, p => (if r.product_id = p then r.quantity else 0) + quantitySum rs p

/-- Total physical quantity of product `p` across all warehouses. -/
def totalQuantity (db : DB) (p : Int) : Int :=
  quantitySum db.warehouse_stock p

/-- Total quantity of the items for product `p`. -/
def itemTotal : List ReservationItem → Int → Int
  | [], _ => 0
  | it :: rest, p => (if it.ProductID = p then it.Qty else 0) + itemTotal rest p

/-- Every reservation row names an existing stock row. -/
def reservationsNamed (db : DB) : Prop :=
  ∀ res ∈ db.reservations, ∃ r ∈ db.warehouse_stock,
    r.warehouse_id = res.warehouse_id ∧ r.product_id = res.product_id

/-- The key of `orders`: no two rows share an id (ids come from the store,
`RETURNING id`). -/
def ordersKeyed (db : DB) : Prop :=
  (db.orders.map (fun o => o.id)).Nodup

/-- The only change of an order row a settlement of `orderID` may make: none,
or from `pending` to `paid` on the row of that id. -/
def statusStep (orderID : Int) (before after : Order) : Prop :=
  after = before ∨
    (before.id = orderID ∧ before.status = "pending" ∧
      after = { before with status := "paid" })

/-- Warehouse ids of the `SELECT ... FOR UPDATE` statements of a log, in the
order they were issued. -/
def lockOrder : List Stmt → List Int
  | [] => []
  | Stmt.selectStockForUpdate w _ :: rest => w :: lockOrder rest
  | _ :: rest => lockOrder rest

/-- Stock row `r` after `qty` units of product `p` have moved from warehouse `f`
to warehouse `t`: the source row loses `qty`, the destination row gains it. -/
def movedRow (f t p qty : Int) (r : WarehouseStock) : WarehouseStock :=
  if r.warehouse_id = f ∧ r.product_id = p then { r with quantity := r.quantity - qty }
  else if r.warehouse_id = t ∧ r.product_id = p then { r with quantity := r.quantity + qty }
  else r

/-- Warehouse `w` exists and is active. -/
def warehouseActive (db : DB) (w : Int) : Prop :=
  ∃ wh, db.warehouses.find? (fun x => decide (x.id = w)) = some wh ∧ wh.active = true

/-- Sum of `q` over the rows of a list that have the key `(w, p)`. -/
def hitSum : List WarehouseStock → Int → Int → Int → Int
  | [], _, _, _ => 0
  | r :: rs, w, p, q =>
    (if r.warehouse_id = w ∧ r.product_id = p then q else 0) + hitSum rs w p q

/-- Total, over the rows of product `p` in a list, of the quantity of the items
that name the row. -/
def namedQty : List WarehouseStock → List ReservationItem → Int → Int
  | [], _, _ => 0
  | r :: rs, items, p =>
    (if r.product_id = p then itemQty items r.warehouse_id r.product_id else 0) +
      namedQty rs items p

/-- The stock table is keyed and every reservation row names one of its rows. -/
def wellNamed (db : DB) : Prop :=
  stockKeyed db ∧ reservationsNamed db

/-- A decimal digit, `0` to `9`. -/
def isDecimalDigit (c : Char) : Bool :=
  decide (c ∈ "0123456789".toList)

/-- The number a string of decimal digits denotes, continuing from `acc`. -/
def decimalValueFrom (acc : Nat) (ds : List Char) : Nat :=
  ds.foldl (fun a c => a * 10 + (c.toNat - 48)) acc

/-- The number a string of decimal digits denotes. -/
def decimalValue (ds : List Char) : Nat :=
  decimalValueFrom 0 ds

/-- The cents a fraction `fs` stands for: the number formed by its first two
digits, the fraction being padded on the right with zeros when shorter. -/
def centsOf (fs : List Char) : Nat :=
  decimalValue ((fs ++ ['0', '0']).take 2)

/-- A decimal integer: an optional sign followed by at least one decimal
digit. -/
def isDecimalInteger (s : List Char) : Bool :=
  match s with
  | [] => false
  | c :: rest =>
    if c = '+' ∨ c = '-' then !rest.isEmpty && rest.all isDecimalDigit
    else s.all isDecimalDigit

/-- The values of Go's `int` and `int64`. -/
def isInt64 (n : Int) : Prop :=
  -(2 ^ 63) ≤ n ∧ n < 2 ^ 63

/-- Items of a reservation request all have a non-negative quantity. -/
def nonnegItems : Op → Prop
  | .reserve _ _ items => ∀ it ∈ items, 0 ≤ it.Qty
  | _ => True

/-- Every stock row has `reserved` equal to the quantity outstanding in the
reservation rows that name it. -/
def balanced (db : DB) : Prop :=
  ∀ r ∈ db.warehouse_stock, r.reserved = outstanding db r.warehouse_id r.product_id

/-- The ledger is exact: it is balanced, every reservation row has a
non-negative quantity and names an existing stock row. -/
structure Exact (db : DB) : Prop where
  balance : balanced db
  nonneg : ∀ res ∈ db.reservations, 0 ≤ res.quantity
  named : reservationsNamed db

/-- The clamp of the release is idle on the row `(w, p)` holding `r`: at every
statement of the loop over `items` that touches the row, `reserved - qty` is
not negative. -/
def clampIdle : List ReservationItem → Int → Int → Int → Prop
  | [], _, _, _ => True
  | it :: rest, w, p, r =>
    if it.ProductID = p ∧ it.WarehouseID = w then 0 ≤ r - it.Qty ∧ clampIdle rest w p (r - it.Qty)
    else clampIdle rest w p r

/-- Stock row `r` after a release without clamp: `reserved` drops by the
quantity of the items that name `r`. -/
def unclampedRow (items : List ReservationItem) (r : WarehouseStock) : WarehouseStock :=
  { r with reserved := r.reserved - itemQty items r.warehouse_id r.product_id }

/-- The release of every order leaves the clamp idle on every stock row and
subtracts exactly. -/
def releaseUnclamped (db : DB) : Prop :=
  ∀ orderID : Int,
    (∀ r ∈ db.warehouse_stock,
      clampIdle (selectReservations db orderID) r.warehouse_id r.product_id r.reserved) ∧
    (ReleaseReservationByOrderID db orderID).db.warehouse_stock =
      db.warehouse_stock.map (unclampedRow (selectReservations db orderID))

/-- No settlement leaves a negative `reserved` on a stock row. -/
def settleKeepsNonneg (db : DB) : Prop :=
  ∀ (userID orderID : Int),
    ∀ r ∈ (PayHandler db userID (some orderID)).1.warehouse_stock, 0 ≤ r.reserved

/-! ### Concurrent reservations

A single-item reservation touches the store twice: the lookup, and the three
writes followed by `Commit`.  Between the two nothing of the row is locked,
since the lookup has no `FOR UPDATE`.  A schedule in which the writes and the
commit of each call run without another call in between is one every isolation
level admits that lets the lookup read committed data. -/

/-- The lookup of a single-item call: the warehouse chosen, if any. -/
def lookupPhase (db : DB) (item : CheckoutItem) : Option Int :=
  (selectWarehouse db item.ProductID item.Qty).map (fun row => row.warehouse_id)

/-- The writes of a single-item call that chose warehouse `w`, committed. -/
def writePhase (now : Int) (db : DB) (orderID : Int) (item : CheckoutItem) (w : Int) : DB :=
  insertReservation now
    (updateProductStock (updateReserved db item.Qty w item.ProductID) item.Qty item.ProductID)
    orderID item.ProductID w item.Qty

/-- Outcome of a set of concurrent calls: the committed store, the number of
calls that returned no error and the number that returned the
no-warehouse error. -/
structure Tally where
  db : DB
  succeeded : Nat
  failed : Nat
  deriving DecidableEq, Repr

/-- The writes of the calls, one call after the other, each with the warehouse
its lookup returned. -/
def commitWrites (now : Int) : Tally → List ((Int × CheckoutItem) × Option Int) → Tally
  | t, [] => t
  | t, ((_, _), none) :: rest => commitWrites now { t with failed := t.failed + 1 } rest
  | t, ((orderID, item), some w) :: rest =>
    commitWrites now
      { t with db := writePhase now t.db orderID item w, succeeded := t.succeeded + 1 } rest

/-- The schedule in which every call runs its lookup before any call writes. -/
def lookupsThenWrites (now : Int) (db : DB) (calls : List (Int × CheckoutItem)) : Tally :=
  commitWrites now { db := db, succeeded := 0, failed := 0 }
    (calls.map (fun c => (c, lookupPhase db c.2)))

/-- The schedule in which the calls run one after the other. -/
def oneAfterTheOther (now : Int) : Tally → List (Int × CheckoutItem) → Tally
  | t, [] => t
  | t, (orderID, item) :: rest =>
    match (ReserveStockForOrder now t.db orderID [item]).err with
    | none =>
      oneAfterTheOther now
        { t with db := (ReserveStockForOrder now t.db orderID [item]).db,
                 succeeded := t.succeeded + 1 } rest
    | some _ => oneAfterTheOther now { t with failed := t.failed + 1 } rest

/-! ## Example stores -/

/-- One active warehouse `1` holding 10 units of product `7`, none reserved;
one pending order `1` of user `42`. -/
def storeW1 : DB :=
  { warehouses := [⟨1, true⟩]
    warehouse_stock := [⟨1, 7, 10, 0⟩]
    products := [⟨7, "700000.00", 10⟩]
    reservations := []
    orders := [⟨1, 42, 490000000, "pending"⟩] }

/-- The store of `TestReserveStockForOrder_Success`: warehouse `10` holds 100
units of product `101`, 5 of them reserved. -/
def storeTest : DB :=
  { warehouses := [⟨10, true⟩]
    warehouse_stock := [⟨10, 101, 100, 5⟩]
    products := [⟨101, "2999", 95⟩]
    reservations := []
    orders := [] }

/-- A store with one paid order: order `1` of user `42`, already settled. -/
def storePaid : DB :=
  { warehouses := [⟨1, true⟩]
    warehouse_stock := [⟨1, 7, 3, 0⟩]
    products := [⟨7, "700000.00", 3⟩]
    reservations := []
    orders := [⟨1, 42, 490000000, "paid"⟩] }

/-- The store `storeW1` after order `1` has reserved 7 units of product `7`. -/
def storeReserved : DB :=
  { warehouses := [⟨1, true⟩]
    warehouse_stock := [⟨1, 7, 10, 7⟩]
    products := [⟨7, "700000.00", 3⟩]
    reservations := [⟨1, 7, 1, 7, 300⟩]
    orders := [⟨1, 42, 490000000, "pending"⟩] }

/-- A run on `storeW1`: order 1 reserves 7 units, 2 units move to warehouse 2,
the order is paid, then released. -/
def exampleRun : List Op :=
  [Op.reserve 0 1 [⟨7, 7⟩], Op.transfer 1 2 7 2, Op.settle 42 1, Op.release 1]

/-- Two active warehouses; warehouse `1` holds 10 units of product `7`, 8 of
them reserved; warehouse `2` holds 4 units, none reserved. -/
def storeTwo : DB :=
  { warehouses := [⟨1, true⟩, ⟨2, true⟩]
    warehouse_stock := [⟨1, 7, 10, 8⟩, ⟨2, 7, 4, 0⟩]
    products := [⟨7, "700000.00", 6⟩]
    reservations := [⟨1, 7, 1, 8, 300⟩]
    orders := [⟨1, 42, 560000000, "pending"⟩] }

/-- One active warehouse `1` holding 5 units of product `7`, none reserved. -/
def storeFive : DB :=
  { warehouses := [⟨1, true⟩]
    warehouse_stock := [⟨1, 7, 5, 0⟩]
    products := [⟨7, "700000.00", 5⟩]
    reservations := []
    orders := [] }

/-- Ten calls, orders `1` to `10`, each for one unit of product `7`. -/
def tenCalls : List (Int × CheckoutItem) :=
  [(1, ⟨7, 1⟩), (2, ⟨7, 1⟩), (3, ⟨7, 1⟩), (4, ⟨7, 1⟩), (5, ⟨7, 1⟩),
   (6, ⟨7, 1⟩), (7, ⟨7, 1⟩), (8, ⟨7, 1⟩), (9, ⟨7, 1⟩), (10, ⟨7, 1⟩)]

/-- Two active warehouses; warehouse `1` holds the largest quantity of an `int`
of product `7` with `reserved = -1`, and a quantity of `-2` of product `8` with
the largest `reserved` of an `int`. -/
def storeWide : DB :=
  { warehouses := [⟨1, true⟩, ⟨2, true⟩]
    warehouse_stock := [⟨1, 7, 9223372036854775807, -1⟩, ⟨1, 8, -2, 9223372036854775807⟩]
    products := [⟨7, "700000.00", 10⟩, ⟨8, "1.00", 10⟩]
    reservations := []
    orders := [] }

/-! ## The warehouse lookup -/

theorem firstByWarehouseID_none (l : List WarehouseStock) :
    firstByWarehouseID l = none ↔ l = [] := by
  induction l with
  | nil => simp [firstByWarehouseID]
  | cons r rs ih =>
    simp only [firstByWarehouseID]
    cases h : firstByWarehouseID rs with
    | none => simp
    | some m => by_cases hle : r.warehouse_id ≤ m.warehouse_id <;> simp [hle]

theorem firstByWarehouseID_some (l : List WarehouseStock) (m : WarehouseStock)
    (h : firstByWarehouseID l = some m) :
    m ∈ l ∧ ∀ r ∈ l, m.warehouse_id ≤ r.warehouse_id := by
  induction l generalizing m with
  | nil => simp [firstByWarehouseID] at h
  | cons r rs ih =>
    simp only [firstByWarehouseID] at h
    cases h2 : firstByWarehouseID rs with
    | none =>
      rw [h2] at h
      have hnil := (firstByWarehouseID_none rs).1 h2
      simp only [Option.some.injEq] at h
      subst h; subst hnil
      simp
    | some m2 =>
      rw [h2] at h
      obtain ⟨hm2, hmin⟩ := ih m2 h2
      by_cases hle : r.warehouse_id ≤ m2.warehouse_id
      · simp only [hle, if_true, Option.some.injEq] at h
        subst h
        refine ⟨List.mem_cons_self _ _, ?_⟩
        intro x hx
        rcases List.mem_cons.1 hx with rfl | hx
        · exact le_refl _
        · exact le_trans hle (hmin x hx)
      · simp only [hle, if_false, Option.some.injEq] at h
        subst h
        refine ⟨List.mem_cons_of_mem _ hm2, ?_⟩
        intro x hx
        rcases List.mem_cons.1 hx with rfl | hx
        · omega
        · exact hmin x hx

theorem lookupMatches_iff (db : DB) (p qty : Int) (r : WarehouseStock) :
    lookupMatches db p qty r = true ↔
      (∃ wh ∈ db.warehouses, wh.id = r.warehouse_id ∧ wh.active = true) ∧
        r.product_id = p ∧ r.quantity - r.reserved ≥ qty := by
  simp [lookupMatches, List.any_eq_true, and_assoc]

theorem qualifies_iff (db : DB) (p qty w : Int) :
    qualifies db p qty w ↔
      ∃ r ∈ db.warehouse_stock, lookupMatches db p qty r = true ∧ r.warehouse_id = w := by
  constructor
  · rintro ⟨hw, r, hr, h1, h2, h3⟩
    exact ⟨r, hr, (lookupMatches_iff db p qty r).2 ⟨by rw [h1]; exact hw, h2, h3⟩, h1⟩
  · rintro ⟨r, hr, hm, h1⟩
    obtain ⟨hw, h2, h3⟩ := (lookupMatches_iff db p qty r).1 hm
    exact ⟨by rw [← h1]; exact hw, r, hr, h1, h2, h3⟩

theorem selectWarehouse_some (db : DB) (p qty : Int) (row : WarehouseStock)
    (h : selectWarehouse db p qty = some row) :
    row ∈ db.warehouse_stock ∧ row.product_id = p ∧ row.quantity - row.reserved ≥ qty ∧
      firstFit db p qty row.warehouse_id := by
  obtain ⟨hmem, hmin⟩ := firstByWarehouseID_some _ _ h
  obtain ⟨hrow, hmatch⟩ := List.mem_filter.1 hmem
  obtain ⟨_, h2, h3⟩ := (lookupMatches_iff db p qty row).1 hmatch
  refine ⟨hrow, h2, h3, (qualifies_iff db p qty _).2 ⟨row, hrow, hmatch, rfl⟩, ?_⟩
  intro w2 hq
  obtain ⟨r, hr, hm, h1⟩ := (qualifies_iff db p qty w2).1 hq
  rw [← h1]
  exact hmin r (List.mem_filter.2 ⟨hr, hm⟩)

theorem selectWarehouse_none (db : DB) (p qty : Int) :
    selectWarehouse db p qty = none ↔ ¬ ∃ w, qualifies db p qty w := by
  unfold selectWarehouse
  rw [firstByWarehouseID_none]
  constructor
  · rintro h ⟨w, hq⟩
    obtain ⟨r, hr, hm, _⟩ := (qualifies_iff db p qty w).1 hq
    have : r ∈ db.warehouse_stock.filter (lookupMatches db p qty) := List.mem_filter.2 ⟨hr, hm⟩
    rw [h] at this
    simp at this
  · intro h
    apply List.eq_nil_iff_forall_not_mem.2
    intro r hr
    obtain ⟨hr1, hm⟩ := List.mem_filter.1 hr
    exact h ⟨r.warehouse_id, (qualifies_iff db p qty _).2 ⟨r, hr1, hm, rfl⟩⟩

theorem firstFit_unique (db : DB) (p qty w1 w2 : Int)
    (h1 : firstFit db p qty w1) (h2 : firstFit db p qty w2) : w1 = w2 :=
  le_antisymm (h1.2 w2 h2.1) (h2.2 w1 h1.1)

/-! ## The reservation loop -/

theorem itemQty_append (a b : List ReservationItem) (w p : Int) :
    itemQty (a ++ b) w p = itemQty a w p + itemQty b w p := by
  induction a with
  | nil => simp [itemQty]
  | cons x xs ih =>
    rw [List.cons_append]
    simp only [itemQty]
    rw [ih]
    omega

theorem itemQty_nonneg (l : List ReservationItem) (w p : Int)
    (h : ∀ it ∈ l, 0 ≤ it.Qty) : 0 ≤ itemQty l w p := by
  induction l with
  | nil => simp [itemQty]
  | cons x xs ih =>
    have hx := h x (List.mem_cons_self _ _)
    have hxs := ih (fun it hit => h it (List.mem_cons_of_mem _ hit))
    simp only [itemQty]
    split <;> omega

/-- The step of the loop on one item when the lookup finds `row`. -/
theorem reserveItems_cons_some (now orderID : Int) (tx : DB) (item : CheckoutItem)
    (rest : List CheckoutItem) (row : WarehouseStock)
    (h : selectWarehouse tx item.ProductID item.Qty = some row) :
    reserveItems now orderID tx (item :: rest) =
      { tx := (reserveItems now orderID
            (insertReservation now
              (updateProductStock (updateReserved tx item.Qty row.warehouse_id item.ProductID)
                item.Qty item.ProductID)
              orderID item.ProductID row.warehouse_id item.Qty) rest).tx,
        log := Stmt.selectWarehouse item.ProductID item.Qty
          :: Stmt.updateReserved item.Qty row.warehouse_id item.ProductID
          :: Stmt.updateProductStock item.Qty item.ProductID
          :: Stmt.insertReservation orderID item.ProductID row.warehouse_id item.Qty
          :: (reserveItems now orderID
            (insertReservation now
              (updateProductStock (updateReserved tx item.Qty row.warehouse_id item.ProductID)
                item.Qty item.ProductID)
              orderID item.ProductID row.warehouse_id item.Qty) rest).log,
        err := (reserveItems now orderID
            (insertReservation now
              (updateProductStock (updateReserved tx item.Qty row.warehouse_id item.ProductID)
                item.Qty item.ProductID)
              orderID item.ProductID row.warehouse_id item.Qty) rest).err } := by
  simp only [reserveItems, h]

theorem reserveItems_cons_none (now orderID : Int) (tx : DB) (item : CheckoutItem)
    (rest : List CheckoutItem)
    (h : selectWarehouse tx item.ProductID item.Qty = none) :
    reserveItems now orderID tx (item :: rest) =
      { tx := tx, log := [Stmt.selectWarehouse item.ProductID item.Qty],
        err := some (noWarehouseError item.ProductID) } := by
  simp only [reserveItems, h]

/-- Running the loop over `pre ++ post` is running it over `pre` and, when that
ends without error, over `post` from the state `pre` left. -/
theorem reserveItems_append (now orderID : Int) (tx : DB) (pre post : List CheckoutItem)
    (h : (reserveItems now orderID tx pre).err = none) :
    reserveItems now orderID tx (pre ++ post) =
      { tx := (reserveItems now orderID (reserveItems now orderID tx pre).tx post).tx,
        log := (reserveItems now orderID tx pre).log ++
          (reserveItems now orderID (reserveItems now orderID tx pre).tx post).log,
        err := (reserveItems now orderID (reserveItems now orderID tx pre).tx post).err } := by
  induction pre generalizing tx with
  | nil => simp [reserveItems]
  | cons item rest ih =>
    cases hs : selectWarehouse tx item.ProductID item.Qty with
    | none =>
      rw [reserveItems_cons_none now orderID tx item rest hs] at h
      simp at h
    | some row =>
      rw [reserveItems_cons_some now orderID tx item rest row hs] at h
      simp only at h
      rw [List.cons_append, reserveItems_cons_some now orderID tx item (rest ++ post) row hs,
        reserveItems_cons_some now orderID tx item rest row hs, ih _ h]
      simp

/-- An error of the loop is the lookup failing on some item, in the state the
items before it left. -/
theorem reserveItems_err_iff (now orderID : Int) (tx : DB) (items : List CheckoutItem)
    (e : String) :
    (reserveItems now orderID tx items).err = some e ↔
      ∃ pre item post, items = pre ++ item :: post ∧
        (reserveItems now orderID tx pre).err = none ∧
        (¬ ∃ w, qualifies (reserveItems now orderID tx pre).tx item.ProductID item.Qty w) ∧
        e = noWarehouseError item.ProductID := by
  induction items generalizing tx with
  | nil =>
    constructor
    · intro h; simp [reserveItems] at h
    · rintro ⟨pre, item, post, h, _⟩; simp at h
  | cons item rest ih =>
    cases hs : selectWarehouse tx item.ProductID item.Qty with
    | none =>
      rw [reserveItems_cons_none now orderID tx item rest hs]
      constructor
      · intro h
        simp only [Option.some.injEq] at h
        refine ⟨[], item, rest, rfl, by simp [reserveItems], ?_, h.symm⟩
        simpa [reserveItems] using (selectWarehouse_none tx _ _).1 hs
      · rintro ⟨pre, item2, post, hsplit, hpre, hno, he⟩
        cases pre with
        | nil =>
          simp only [List.nil_append, List.cons.injEq] at hsplit
          obtain ⟨rfl, rfl⟩ := hsplit
          simp [he]
        | cons a pre2 =>
          simp only [List.cons_append, List.cons.injEq] at hsplit
          obtain ⟨rfl, rfl⟩ := hsplit
          rw [reserveItems_cons_none now orderID tx item pre2 hs] at hpre
          simp at hpre
    | some row =>
      rw [reserveItems_cons_some now orderID tx item rest row hs]
      simp only
      rw [ih]
      constructor
      · rintro ⟨pre, item2, post, hsplit, hpre, hno, he⟩
        refine ⟨item :: pre, item2, post, by simp [hsplit], ?_, ?_, he⟩
        · rw [reserveItems_cons_some now orderID tx item pre row hs]; exact hpre
        · rw [reserveItems_cons_some now orderID tx item pre row hs]; exact hno
      · rintro ⟨pre, item2, post, hsplit, hpre, hno, he⟩
        cases pre with
        | nil =>
          simp only [List.nil_append, List.cons.injEq] at hsplit
          obtain ⟨rfl, rfl⟩ := hsplit
          exfalso
          apply hno
          simp only [reserveItems]
          exact ⟨row.warehouse_id, (selectWarehouse_some tx _ _ row hs).2.2.2.1⟩
        | cons a pre2 =>
          simp only [List.cons_append, List.cons.injEq] at hsplit
          obtain ⟨rfl, rfl⟩ := hsplit
          rw [reserveItems_cons_some now orderID tx item pre2 row hs] at hpre hno
          exact ⟨pre2, item2, post, rfl, hpre, hno, he⟩

theorem bookedRow_nil (r : WarehouseStock) : bookedRow [] r = r := by
  simp [bookedRow, itemQty]

theorem orderedProduct_nil (pr : Product) : orderedProduct [] pr = pr := by
  simp [orderedProduct, orderedQty]

/-- What the loop leaves in the transaction when it ends without error. -/
theorem reserveItems_effect (now orderID : Int) (tx : DB) (items : List CheckoutItem)
    (h : (reserveItems now orderID tx items).err = none) :
    ∃ ws : List Int, ws.length = items.length ∧
      (reserveItems now orderID tx items).tx.reservations =
        tx.reservations ++ reservationRows now orderID items ws ∧
      (reserveItems now orderID tx items).tx.warehouse_stock =
        tx.warehouse_stock.map
          (bookedRow ((reservationRows now orderID items ws).map Reservation.toItem)) ∧
      (reserveItems now orderID tx items).tx.products =
        tx.products.map (orderedProduct items) ∧
      (reserveItems now orderID tx items).tx.warehouses = tx.warehouses ∧
      (reserveItems now orderID tx items).tx.orders = tx.orders := by
  induction items generalizing tx with
  | nil =>
    refine ⟨[], rfl, ?_, ?_, ?_, rfl, rfl⟩
    · simp [reserveItems, reservationRows]
    · simp only [reserveItems, reservationRows, List.zipWith_nil_left, List.map_nil]
      rw [List.map_congr_left (fun r _ => bookedRow_nil r)]
      simp
    · simp only [reserveItems]
      rw [List.map_congr_left (fun r _ => orderedProduct_nil r)]
      simp
  | cons item rest ih =>
    cases hs : selectWarehouse tx item.ProductID item.Qty with
    | none =>
      rw [reserveItems_cons_none now orderID tx item rest hs] at h
      simp at h
    | some row =>
      rw [reserveItems_cons_some now orderID tx item rest row hs] at h ⊢
      simp only at h ⊢
      obtain ⟨ws, hlen, hres, hstock, hprod, hwh, hord⟩ := ih _ h
      refine ⟨row.warehouse_id :: ws, by simp [hlen], ?_, ?_, ?_, ?_, ?_⟩
      · rw [hres]
        simp [insertReservation, updateProductStock, updateReserved, reservationRows,
          reservationRow]
      · rw [hstock]
        simp only [insertReservation, updateProductStock, updateReserved, List.map_map]
        apply List.map_congr_left
        intro r _
        simp only [Function.comp, reservationRows, List.zipWith_cons_cons, List.map_cons,
          bookedRow, itemQty, reservationRow, Reservation.toItem]
        by_cases hk : r.warehouse_id = row.warehouse_id ∧ r.product_id = item.ProductID
        · have hk2 : row.warehouse_id = r.warehouse_id ∧ item.ProductID = r.product_id :=
            ⟨hk.1.symm, hk.2.symm⟩
          rw [if_pos hk, if_pos hk2]
          simp only [WarehouseStock.mk.injEq, true_and]
          omega
        · have hk2 : ¬ (row.warehouse_id = r.warehouse_id ∧ item.ProductID = r.product_id) :=
            fun hh => hk ⟨hh.1.symm, hh.2.symm⟩
          rw [if_neg hk, if_neg hk2]
          simp
      · rw [hprod]
        simp only [insertReservation, updateProductStock, updateReserved, List.map_map]
        apply List.map_congr_left
        intro pr _
        simp only [Function.comp, orderedProduct, orderedQty]
        by_cases hk : pr.id = item.ProductID
        · have hk2 : item.ProductID = pr.id := hk.symm
          rw [if_pos hk, if_pos hk2]
          simp only [Product.mk.injEq, true_and]
          omega
        · have hk2 : ¬ item.ProductID = pr.id := fun hh => hk hh.symm
          rw [if_neg hk, if_neg hk2]
          simp
      · rw [hwh]; rfl
      · rw [hord]; rfl

theorem reserveItems_prefix_ok (now orderID : Int) (tx : DB) (pre post : List CheckoutItem)
    (h : (reserveItems now orderID tx (pre ++ post)).err = none) :
    (reserveItems now orderID tx pre).err = none := by
  cases hp : (reserveItems now orderID tx pre).err with
  | none => rfl
  | some e =>
    obtain ⟨a, item, b, hsplit, ha, hno, he⟩ :=
      (reserveItems_err_iff now orderID tx pre e).1 hp
    have : (reserveItems now orderID tx (pre ++ post)).err = some e :=
      (reserveItems_err_iff now orderID tx (pre ++ post) e).2
        ⟨a, item, b ++ post, by simp [hsplit], ha, hno, he⟩
    rw [h] at this
    simp at this

theorem ReserveStockForOrder_err (now : Int) (db : DB) (orderID : Int)
    (items : List CheckoutItem) :
    (ReserveStockForOrder now db orderID items).err = (reserveItems now orderID db items).err := by
  unfold ReserveStockForOrder
  cases h : (reserveItems now orderID db items).err <;> simp [h]

theorem ReserveStockForOrder_log (now : Int) (db : DB) (orderID : Int)
    (items : List CheckoutItem) :
    (ReserveStockForOrder now db orderID items).log = (reserveItems now orderID db items).log := by
  unfold ReserveStockForOrder
  cases h : (reserveItems now orderID db items).err <;> simp [h]

theorem ReserveStockForOrder_db_ok (now : Int) (db : DB) (orderID : Int)
    (items : List CheckoutItem) (h : (reserveItems now orderID db items).err = none) :
    (ReserveStockForOrder now db orderID items).db = (reserveItems now orderID db items).tx := by
  unfold ReserveStockForOrder
  simp [h]

theorem ReserveStockForOrder_db_err (now : Int) (db : DB) (orderID : Int)
    (items : List CheckoutItem) (h : (reserveItems now orderID db items).err ≠ none) :
    (ReserveStockForOrder now db orderID items).db = db := by
  unfold ReserveStockForOrder
  cases h2 : (reserveItems now orderID db items).err with
  | none => exact absurd h2 h
  | some e => simp [h2]

/-- Booking reservation rows of non-negative quantity never makes a warehouse
qualify that did not qualify before. -/
theorem qualifies_of_booked (db tx : DB) (rows : List ReservationItem) (p qty w : Int)
    (hrows : ∀ it ∈ rows, 0 ≤ it.Qty)
    (hwh : tx.warehouses = db.warehouses)
    (hstock : tx.warehouse_stock = db.warehouse_stock.map (bookedRow rows))
    (h : qualifies tx p qty w) : qualifies db p qty w := by
  obtain ⟨hact, r2, hr2, h1, h2, h3⟩ := h
  rw [hwh] at hact
  rw [hstock] at hr2
  obtain ⟨r, hr, rfl⟩ := List.mem_map.1 hr2
  refine ⟨hact, r, hr, h1, h2, ?_⟩
  have := itemQty_nonneg rows r.warehouse_id r.product_id hrows
  simp only [bookedRow] at h3
  omega

theorem reservationRows_items_nonneg (now orderID : Int) (items : List CheckoutItem)
    (ws : List Int) (h : ∀ it ∈ items, 0 ≤ it.Qty) :
    ∀ it ∈ (reservationRows now orderID items ws).map Reservation.toItem, 0 ≤ it.Qty := by
  induction items generalizing ws with
  | nil => simp [reservationRows]
  | cons x xs ih =>
    cases ws with
    | nil => simp [reservationRows]
    | cons w ws =>
      intro it hit
      simp only [reservationRows, List.zipWith_cons_cons, List.map_cons, List.mem_cons] at hit
      rcases hit with rfl | hit
      · simpa [Reservation.toItem, reservationRow] using h x (List.mem_cons_self _ _)
      · exact ih ws (fun it hit => h it (List.mem_cons_of_mem _ hit)) it hit

/-! ## Claims on `ReserveStockForOrder` -/

theorem reserveItems_single_some (now orderID : Int) (tx : DB) (item : CheckoutItem)
    (row : WarehouseStock) (h : selectWarehouse tx item.ProductID item.Qty = some row) :
    (reserveItems now orderID tx [item]).err = none ∧
      (reserveItems now orderID tx [item]).tx.reservations =
        tx.reservations ++ [reservationRow now orderID item row.warehouse_id] := by
  rw [reserveItems_cons_some now orderID tx item [] row h]
  simp [reserveItems, insertReservation, updateProductStock, updateReserved, reservationRow]

/-- C2: every item processed by `ReserveStockForOrder` is booked on the
warehouse of smallest id among the active warehouses whose stock row for the
product has `quantity - reserved ≥ qty`, evaluated on the state the previous
items left; the call fails with the "no active warehouse has enough stock"
error exactly when some item has no such warehouse; and with warehouse 1 at
quantity 10, reserved 0, reserving 7 succeeds leaving reserved 7 and a following
reservation of 5 fails. -/
theorem reserve_first_fit (now orderID : Int) (db : DB) (items : List CheckoutItem) :
    (∀ pre item post, items = pre ++ item :: post →
      (reserveItems now orderID db pre).err = none →
      ∀ w, firstFit (reserveItems now orderID db pre).tx item.ProductID item.Qty w ↔
        ((reserveItems now orderID db (pre ++ [item])).err = none ∧
          (reserveItems now orderID db (pre ++ [item])).tx.reservations =
            (reserveItems now orderID db pre).tx.reservations ++
              [reservationRow now orderID item w])) ∧
    (∀ e, (ReserveStockForOrder now db orderID items).err = some e ↔
      ∃ pre item post, items = pre ++ item :: post ∧
        (reserveItems now orderID db pre).err = none ∧
        (¬ ∃ w, qualifies (reserveItems now orderID db pre).tx item.ProductID item.Qty w) ∧
        e = noWarehouseError item.ProductID) ∧
    ((ReserveStockForOrder now storeW1 1 [⟨7, 7⟩]).err = none ∧
      (ReserveStockForOrder now storeW1 1 [⟨7, 7⟩]).db.warehouse_stock = [⟨1, 7, 10, 7⟩] ∧
      (ReserveStockForOrder now (ReserveStockForOrder now storeW1 1 [⟨7, 7⟩]).db 2
        [⟨7, 5⟩]).err = some (noWarehouseError 7)) := by
  refine ⟨?_, ?_, ?_⟩
  · intro pre item post _ hpre w
    rw [reserveItems_append now orderID db pre [item] hpre]
    simp only
    cases hs : selectWarehouse (reserveItems now orderID db pre).tx item.ProductID item.Qty with
    | none =>
      have hno := (selectWarehouse_none _ _ _).1 hs
      rw [reserveItems_cons_none now orderID _ item [] hs]
      constructor
      · intro hf; exact absurd ⟨w, hf.1⟩ hno
      · intro hr; simp at hr
    | some row =>
      obtain ⟨hok, hres⟩ := reserveItems_single_some now orderID _ item row hs
      have hfit := (selectWarehouse_some _ _ _ row hs).2.2.2
      rw [hres]
      constructor
      · intro hf
        rw [firstFit_unique _ _ _ _ _ hf hfit]
        exact ⟨hok, rfl⟩
      · rintro ⟨_, heq⟩
        have hrow := List.append_cancel_left heq
        simp only [reservationRow, List.cons.injEq, Reservation.mk.injEq, and_true,
          true_and] at hrow
        rw [← hrow]
        exact hfit
  · intro e
    rw [ReserveStockForOrder_err]
    exact reserveItems_err_iff now orderID db items e
  · refine ⟨?_, ?_, ?_⟩ <;>
      simp [ReserveStockForOrder, reserveItems, selectWarehouse, lookupMatches, storeW1,
        firstByWarehouseID, updateReserved, updateProductStock, insertReservation]

/-- Witness of C2 on the store `storeW1`: the two items of `[(7, 7), (7, 5)]`. -/
theorem reserve_first_fit_witness :
    (firstFit (reserveItems 0 1 storeW1 []).tx 7 7 1 ↔
      ((reserveItems 0 1 storeW1 ([] ++ [⟨7, 7⟩])).err = none ∧
        (reserveItems 0 1 storeW1 ([] ++ [⟨7, 7⟩])).tx.reservations =
          (reserveItems 0 1 storeW1 []).tx.reservations ++ [reservationRow 0 1 ⟨7, 7⟩ 1])) ∧
    ((ReserveStockForOrder 0 storeW1 1 [⟨7, 7⟩, ⟨7, 5⟩]).err = some (noWarehouseError 7) ↔
      ∃ pre item post, [(⟨7, 7⟩ : CheckoutItem), ⟨7, 5⟩] = pre ++ item :: post ∧
        (reserveItems 0 1 storeW1 pre).err = none ∧
        (¬ ∃ w, qualifies (reserveItems 0 1 storeW1 pre).tx item.ProductID item.Qty w) ∧
        noWarehouseError 7 = noWarehouseError item.ProductID) :=
  ⟨(reserve_first_fit 0 1 storeW1 [⟨7, 7⟩, ⟨7, 5⟩]).1 [] ⟨7, 7⟩ [⟨7, 5⟩] rfl (by decide) 1,
   (reserve_first_fit 0 1 storeW1 [⟨7, 7⟩, ⟨7, 5⟩]).2.1 (noWarehouseError 7)⟩

/-- C3: the reservation is all-or-nothing over the whole item list.  Whenever
the call returns an error the committed store is the store before the call; it
returns the error as soon as some item has no qualifying warehouse in the state
the items before it left, also when those items were booked; and with
non-negative quantities an item that has no qualifying warehouse before the
call makes the call fail. -/
theorem reserve_all_or_nothing (now orderID : Int) (db : DB) (items : List CheckoutItem) :
    ((ReserveStockForOrder now db orderID items).err ≠ none →
      (ReserveStockForOrder now db orderID items).db = db) ∧
    (∀ pre item post, items = pre ++ item :: post →
      (reserveItems now orderID db pre).err = none →
      (¬ ∃ w, qualifies (reserveItems now orderID db pre).tx item.ProductID item.Qty w) →
      (ReserveStockForOrder now db orderID items).err = some (noWarehouseError item.ProductID) ∧
        (ReserveStockForOrder now db orderID items).db = db) ∧
    ((∀ it ∈ items, 0 ≤ it.Qty) → ∀ item ∈ items,
      (¬ ∃ w, qualifies db item.ProductID item.Qty w) →
      (ReserveStockForOrder now db orderID items).err ≠ none ∧
        (ReserveStockForOrder now db orderID items).db = db) := by
  have hroll : (ReserveStockForOrder now db orderID items).err ≠ none →
      (ReserveStockForOrder now db orderID items).db = db := by
    intro h
    rw [ReserveStockForOrder_err] at h
    exact ReserveStockForOrder_db_err now db orderID items h
  refine ⟨hroll, ?_, ?_⟩
  · intro pre item post hsplit hpre hno
    have herr : (ReserveStockForOrder now db orderID items).err =
        some (noWarehouseError item.ProductID) := by
      rw [ReserveStockForOrder_err]
      exact (reserveItems_err_iff now orderID db items _).2
        ⟨pre, item, post, hsplit, hpre, hno, rfl⟩
    exact ⟨herr, hroll (by rw [herr]; simp)⟩
  · intro hpos item hitem hno
    have herr : (ReserveStockForOrder now db orderID items).err ≠ none := by
      intro hok
      rw [ReserveStockForOrder_err] at hok
      obtain ⟨pre, post, hsplit⟩ := List.append_of_mem hitem
      rw [hsplit] at hok
      have hpre := reserveItems_prefix_ok now orderID db pre (item :: post) hok
      rw [reserveItems_append now orderID db pre (item :: post) hpre] at hok
      simp only at hok
      cases hs : selectWarehouse (reserveItems now orderID db pre).tx item.ProductID item.Qty with
      | none =>
        rw [reserveItems_cons_none now orderID _ item post hs] at hok
        simp at hok
      | some row =>
        have hq := (selectWarehouse_some _ _ _ row hs).2.2.2.1
        obtain ⟨ws, _, _, hstock, _, hwh, _⟩ := reserveItems_effect now orderID db pre hpre
        have hprepos : ∀ it ∈ pre, 0 ≤ it.Qty := fun it hit =>
          hpos it (by rw [hsplit]; exact List.mem_append_left _ hit)
        exact hno ⟨row.warehouse_id,
          qualifies_of_booked db _ _ item.ProductID item.Qty row.warehouse_id
            (reservationRows_items_nonneg now orderID pre ws hprepos) hwh hstock hq⟩
    exact ⟨herr, hroll herr⟩

/-- Witness of C3 on `storeW1`: the first item is booked, the second has no
warehouse left, and the store comes back unchanged. -/
theorem reserve_all_or_nothing_witness :
    (ReserveStockForOrder 0 storeW1 1 [⟨7, 7⟩, ⟨7, 5⟩]).err = some (noWarehouseError 7) ∧
      (ReserveStockForOrder 0 storeW1 1 [⟨7, 7⟩, ⟨7, 5⟩]).db = storeW1 :=
  (reserve_all_or_nothing 0 1 storeW1 [⟨7, 7⟩, ⟨7, 5⟩]).2.1 [⟨7, 7⟩] ⟨7, 5⟩ [] rfl
    (by decide)
    (by
      rw [← selectWarehouse_none]
      decide)

theorem reservationRows_length (now orderID : Int) (items : List CheckoutItem) (ws : List Int)
    (h : ws.length = items.length) : (reservationRows now orderID items ws).length = items.length := by
  simp [reservationRows, h]

theorem reservationRows_mem (now orderID : Int) (items : List CheckoutItem) (ws : List Int)
    (r : Reservation) (h : r ∈ reservationRows now orderID items ws) :
    r.order_id = orderID ∧ r.expires_at = now + 300 ∧
      ∃ it ∈ items, r.product_id = it.ProductID ∧ r.quantity = it.Qty := by
  induction items generalizing ws with
  | nil => simp [reservationRows] at h
  | cons x xs ih =>
    cases ws with
    | nil => simp [reservationRows] at h
    | cons w ws =>
      simp only [reservationRows, List.zipWith_cons_cons, List.mem_cons] at h
      rcases h with rfl | h
      · exact ⟨rfl, rfl, x, List.mem_cons_self _ _, rfl, rfl⟩
      · obtain ⟨h1, h2, it, hit, h3, h4⟩ := ih ws h
        exact ⟨h1, h2, it, List.mem_cons_of_mem _ hit, h3, h4⟩

/-- C4: when `ReserveStockForOrder` succeeds for order `orderID`, there is one
chosen warehouse per item such that exactly the rows
`(orderID, p_i, w_i, q_i, now + 5 minutes)` are appended to the reservations,
one per item; every stock row's `reserved` grows by the quantities of the rows
that name it; every product counter drops by the quantity ordered of that
product; warehouses and orders are untouched. -/
theorem reserve_success_effect (now orderID : Int) (db : DB) (items : List CheckoutItem)
    (h : (ReserveStockForOrder now db orderID items).err = none) :
    ∃ ws : List Int, ws.length = items.length ∧
      (ReserveStockForOrder now db orderID items).db.reservations =
        db.reservations ++ List.zipWith (reservationRow now orderID) items ws ∧
      (∀ r ∈ List.zipWith (reservationRow now orderID) items ws,
        r.order_id = orderID ∧ r.expires_at = now + 300) ∧
      (ReserveStockForOrder now db orderID items).db.reservations.length =
        db.reservations.length + items.length ∧
      (ReserveStockForOrder now db orderID items).db.warehouse_stock =
        db.warehouse_stock.map
          (bookedRow ((List.zipWith (reservationRow now orderID) items ws).map
            Reservation.toItem)) ∧
      (ReserveStockForOrder now db orderID items).db.products =
        db.products.map (orderedProduct items) ∧
      (ReserveStockForOrder now db orderID items).db.warehouses = db.warehouses ∧
      (ReserveStockForOrder now db orderID items).db.orders = db.orders := by
  rw [ReserveStockForOrder_err] at h
  rw [ReserveStockForOrder_db_ok now db orderID items h]
  obtain ⟨ws, hlen, hres, hstock, hprod, hwh, hord⟩ := reserveItems_effect now orderID db items h
  refine ⟨ws, hlen, hres, ?_, ?_, hstock, hprod, hwh, hord⟩
  · intro r hr
    exact ⟨(reservationRows_mem now orderID items ws r hr).1,
      (reservationRows_mem now orderID items ws r hr).2.1⟩
  · rw [hres, List.length_append, reservationRows_length now orderID items ws hlen]

/-- Witness of C4: order 1 for 7 units of product 7 on `storeW1`. -/
theorem reserve_success_effect_witness :
    ∃ ws : List Int, ws.length = [(⟨7, 7⟩ : CheckoutItem)].length ∧
      (ReserveStockForOrder 0 storeW1 1 [⟨7, 7⟩]).db.reservations =
        storeW1.reservations ++ List.zipWith (reservationRow 0 1) [⟨7, 7⟩] ws ∧
      (∀ r ∈ List.zipWith (reservationRow 0 1) [⟨7, 7⟩] ws,
        r.order_id = 1 ∧ r.expires_at = 0 + 300) ∧
      (ReserveStockForOrder 0 storeW1 1 [⟨7, 7⟩]).db.reservations.length =
        storeW1.reservations.length + [(⟨7, 7⟩ : CheckoutItem)].length ∧
      (ReserveStockForOrder 0 storeW1 1 [⟨7, 7⟩]).db.warehouse_stock =
        storeW1.warehouse_stock.map
          (bookedRow ((List.zipWith (reservationRow 0 1) [⟨7, 7⟩] ws).map
            Reservation.toItem)) ∧
      (ReserveStockForOrder 0 storeW1 1 [⟨7, 7⟩]).db.products =
        storeW1.products.map (orderedProduct [⟨7, 7⟩]) ∧
      (ReserveStockForOrder 0 storeW1 1 [⟨7, 7⟩]).db.warehouses = storeW1.warehouses ∧
      (ReserveStockForOrder 0 storeW1 1 [⟨7, 7⟩]).db.orders = storeW1.orders :=
  reserve_success_effect 0 1 storeW1 [⟨7, 7⟩] (by decide)

/-- C5 (as the code behaves): for a single-item order for which the lookup finds
a warehouse, `ReserveStockForOrder` issues four statements, not three: the
lookup, the `reserved` increment, an `UPDATE products SET stock = stock - qty`,
and the reservation insert; then it commits and returns no error. -/
theorem reserve_single_item_statements (now orderID : Int) (db : DB) (item : CheckoutItem)
    (row : WarehouseStock) (h : selectWarehouse db item.ProductID item.Qty = some row) :
    (ReserveStockForOrder now db orderID [item]).err = none ∧
      (ReserveStockForOrder now db orderID [item]).log =
        [Stmt.selectWarehouse item.ProductID item.Qty,
         Stmt.updateReserved item.Qty row.warehouse_id item.ProductID,
         Stmt.updateProductStock item.Qty item.ProductID,
         Stmt.insertReservation orderID item.ProductID row.warehouse_id item.Qty] ∧
      (ReserveStockForOrder now db orderID [item]).db.products =
        db.products.map (fun p =>
          if p.id = item.ProductID then { p with stock := p.stock - item.Qty } else p) := by
  have hok : (reserveItems now orderID db [item]).err = none :=
    (reserveItems_single_some now orderID db item row h).1
  rw [ReserveStockForOrder_err, ReserveStockForOrder_log,
    ReserveStockForOrder_db_ok now db orderID [item] hok,
    reserveItems_cons_some now orderID db item [] row h]
  simp [reserveItems, insertReservation, updateProductStock, updateReserved]

/-- The call of `TestReserveStockForOrder_Success`: order 5000 for 2 units of
product 101, found in warehouse 10.  The log has four statements and the
product counter has dropped from 95 to 93. -/
theorem reserve_single_item_statements_witness :
    (ReserveStockForOrder 0 storeTest 5000 [⟨101, 2⟩]).err = none ∧
      (ReserveStockForOrder 0 storeTest 5000 [⟨101, 2⟩]).log =
        [Stmt.selectWarehouse 101 2, Stmt.updateReserved 2 10 101,
         Stmt.updateProductStock 2 101, Stmt.insertReservation 5000 101 10 2] ∧
      (ReserveStockForOrder 0 storeTest 5000 [⟨101, 2⟩]).db.products = [⟨101, "2999", 93⟩] := by
  have h := reserve_single_item_statements 0 5000 storeTest ⟨101, 2⟩ ⟨10, 101, 100, 5⟩
    (by decide)
  refine ⟨h.1, h.2.1, ?_⟩
  rw [h.2.2]
  decide

/-! ## Settlement -/

theorem ValidateOrderOwnership_eq (db : DB) (orderID userID : Int) :
    ValidateOrderOwnership db orderID userID =
      match findOrder db orderID with
      | none => ("", some "order_not_found")
      | some o => if o.user_id ≠ userID then ("", some "forbidden") else (o.status, none) := by
  rfl

theorem ApplyStockPayment_effect (tx : DB) (items : List ReservationItem) :
    (ApplyStockPayment tx items).warehouse_stock = tx.warehouse_stock.map (paidRow items) ∧
      (ApplyStockPayment tx items).warehouses = tx.warehouses ∧
      (ApplyStockPayment tx items).products = tx.products ∧
      (ApplyStockPayment tx items).reservations = tx.reservations ∧
      (ApplyStockPayment tx items).orders = tx.orders := by
  induction items generalizing tx with
  | nil =>
    refine ⟨?_, rfl, rfl, rfl, rfl⟩
    simp only [ApplyStockPayment]
    have : ∀ r ∈ tx.warehouse_stock, paidRow [] r = r := by
      intro r _; simp [paidRow, itemQty]
    rw [List.map_congr_left this]
    simp
  | cons it rest ih =>
    obtain ⟨h1, h2, h3, h4, h5⟩ := ih (updateStockPaid tx it.Qty it.WarehouseID it.ProductID)
    simp only [ApplyStockPayment]
    refine ⟨?_, by rw [h2]; rfl, by rw [h3]; rfl, by rw [h4]; rfl, by rw [h5]; rfl⟩
    rw [h1]
    simp only [updateStockPaid, List.map_map]
    apply List.map_congr_left
    intro r _
    simp only [Function.comp, paidRow, itemQty]
    by_cases hk : r.warehouse_id = it.WarehouseID ∧ r.product_id = it.ProductID
    · have hk2 : it.WarehouseID = r.warehouse_id ∧ it.ProductID = r.product_id :=
        ⟨hk.1.symm, hk.2.symm⟩
      rw [if_pos hk, if_pos hk2]
      simp only [WarehouseStock.mk.injEq, true_and]
      omega
    · have hk2 : ¬ (it.WarehouseID = r.warehouse_id ∧ it.ProductID = r.product_id) :=
        fun hh => hk ⟨hh.1.symm, hh.2.symm⟩
      rw [if_neg hk, if_neg hk2]
      simp

/-- The four ways `PayHandler` answers a decoded request with a non-zero id. -/
theorem PayHandler_cases (db : DB) (userID orderID : Int) (h0 : orderID ≠ 0) :
    PayHandler db userID (some orderID) =
      match findOrder db orderID with
      | none => (db, { status := 404, error := some "order not found" })
      | some o =>
        if o.user_id ≠ userID then (db, { status := 403, error := some "forbidden" })
        else if o.status ≠ "pending" then
          (db, { status := 400, error := some "order cannot be paid" })
        else
          (UpdateOrderPaid (ClearReservation
              (ApplyStockPayment db (GetOrderReservationItems db orderID)) orderID) orderID,
            { status := 200, error := none }) := by
  simp only [PayHandler, if_neg h0, ValidateOrderOwnership_eq]
  cases hf : findOrder db orderID with
  | none => simp
  | some o =>
    by_cases hu : o.user_id = userID
    · by_cases hs : o.status = "pending" <;> simp [hu, hs]
    · simp [hu]

theorem PayHandler_zero (db : DB) (userID : Int) :
    PayHandler db userID (some 0) = (db, { status := 400, error := some "order_id required" }) := by
  simp [PayHandler]

theorem findOrder_UpdateOrderPaid (tx : DB) (orderID : Int) :
    findOrder (UpdateOrderPaid tx orderID) orderID =
      (findOrder tx orderID).map (fun o => { o with status := "paid" }) := by
  unfold findOrder UpdateOrderPaid
  simp only
  induction tx.orders with
  | nil => simp
  | cons o os ih =>
    by_cases hk : o.id = orderID
    · simp [List.find?, hk]
    · rw [List.map_cons, if_neg hk, List.find?_cons_of_neg _ (by simpa using hk),
        List.find?_cons_of_neg _ (by simpa using hk)]
      exact ih

theorem findOrder_settled (db : DB) (orderID : Int) :
    findOrder (UpdateOrderPaid (ClearReservation
        (ApplyStockPayment db (GetOrderReservationItems db orderID)) orderID) orderID) orderID =
      (findOrder db orderID).map (fun o => { o with status := "paid" }) := by
  rw [findOrder_UpdateOrderPaid]
  have : findOrder (ClearReservation
      (ApplyStockPayment db (GetOrderReservationItems db orderID)) orderID) orderID =
      findOrder db orderID := by
    unfold findOrder ClearReservation deleteReservations
    simp only
    rw [(ApplyStockPayment_effect db _).2.2.2.2]
  rw [this]

/-- A failed settlement leaves the store as it was. -/
theorem PayHandler_failed (db : DB) (userID : Int) (req : Option Int)
    (h : (PayHandler db userID req).2.status ≠ 200) : (PayHandler db userID req).1 = db := by
  cases req with
  | none => simp [PayHandler]
  | some orderID =>
    by_cases h0 : orderID = 0
    · subst h0; rw [PayHandler_zero]
    · rw [PayHandler_cases db userID orderID h0] at h ⊢
      cases hf : findOrder db orderID with
      | none => simp
      | some o =>
        rw [hf] at h
        simp only at h ⊢
        by_cases hu : o.user_id = userID
        · by_cases hs : o.status = "pending"
          · simp [hu, hs] at h
          · simp [hu, hs]
        · simp [hu]

theorem itemQty_eq_zero (l : List ReservationItem) (w p : Int)
    (h : ∀ it ∈ l, ¬ (it.WarehouseID = w ∧ it.ProductID = p)) : itemQty l w p = 0 := by
  induction l with
  | nil => rfl
  | cons x xs ih =>
    simp only [itemQty]
    rw [if_neg (h x (List.mem_cons_self _ _)),
      ih (fun it hit => h it (List.mem_cons_of_mem _ hit))]
    rfl

theorem mem_selectReservations (db : DB) (orderID : Int) (it : ReservationItem)
    (h : it ∈ selectReservations db orderID) :
    ∃ res ∈ db.reservations, res.order_id = orderID ∧ res.toItem = it := by
  unfold selectReservations at h
  obtain ⟨res, hres, rfl⟩ := List.mem_map.1 h
  obtain ⟨hmem, hord⟩ := List.mem_filter.1 hres
  exact ⟨res, hmem, by simpa using hord, rfl⟩

/-- C6: settlement checks existence before ownership.  `ValidateOrderOwnership`
returns `order_not_found` with empty status when no order has the id,
`forbidden` with empty status when the order exists and belongs to another
user, and the stored status with no error when the owner matches; whenever it
returns an error, `PayHandler` fails and leaves the whole store (stock rows,
reservation rows, order statuses) unchanged. -/
theorem settle_existence_before_ownership (db : DB) (orderID userID : Int) :
    ((∀ o ∈ db.orders, o.id ≠ orderID) →
      ValidateOrderOwnership db orderID userID = ("", some "order_not_found")) ∧
    (∀ o, findOrder db orderID = some o → o.user_id ≠ userID →
      ValidateOrderOwnership db orderID userID = ("", some "forbidden")) ∧
    (∀ o, findOrder db orderID = some o → o.user_id = userID →
      ValidateOrderOwnership db orderID userID = (o.status, none)) ∧
    ((ValidateOrderOwnership db orderID userID).2 ≠ none →
      (PayHandler db userID (some orderID)).1 = db ∧
        (PayHandler db userID (some orderID)).2.status ≠ 200) := by
  refine ⟨?_, ?_, ?_, ?_⟩
  · intro h
    have hf : findOrder db orderID = none := by
      unfold findOrder
      rw [List.find?_eq_none]
      intro o ho
      simpa using h o ho
    rw [ValidateOrderOwnership_eq, hf]
  · intro o hf hu
    rw [ValidateOrderOwnership_eq, hf]
    simp [hu]
  · intro o hf hu
    rw [ValidateOrderOwnership_eq, hf]
    simp [hu]
  · intro h
    have hfail : (PayHandler db userID (some orderID)).2.status ≠ 200 := by
      by_cases h0 : orderID = 0
      · subst h0; rw [PayHandler_zero]; simp
      · rw [PayHandler_cases db userID orderID h0]
        rw [ValidateOrderOwnership_eq] at h
        cases hf : findOrder db orderID with
        | none => simp
        | some o =>
          rw [hf] at h
          by_cases hu : o.user_id = userID
          · simp [hu] at h
          · simp [hu]
    exact ⟨PayHandler_failed db userID (some orderID) hfail, hfail⟩

/-- Witness of C6: user 43 asks to pay order 1 of user 42 on `storeReserved`. -/
theorem settle_existence_before_ownership_witness :
    ValidateOrderOwnership storeReserved 1 43 = ("", some "forbidden") ∧
      (PayHandler storeReserved 43 (some 1)).1 = storeReserved ∧
      (PayHandler storeReserved 43 (some 1)).2.status ≠ 200 :=
  ⟨(settle_existence_before_ownership storeReserved 1 43).2.1 ⟨1, 42, 490000000, "pending"⟩
      (by decide) (by decide),
   (settle_existence_before_ownership storeReserved 1 43).2.2.2 (by decide)⟩

/-- C7: double settlement is rejected without a second deduction.  A pay
request by the owner of an order whose status is not `pending` is answered
`order cannot be paid` and leaves the store unchanged; and paying twice in a
row leaves the store the first payment left, the second call failing. -/
theorem settle_rejects_non_pending (db : DB) (userID orderID : Int) :
    (orderID ≠ 0 → ∀ o, findOrder db orderID = some o → o.user_id = userID →
      o.status ≠ "pending" →
      PayHandler db userID (some orderID) =
        (db, { status := 400, error := some "order cannot be paid" })) ∧
    (PayHandler (PayHandler db userID (some orderID)).1 userID (some orderID)).1 =
      (PayHandler db userID (some orderID)).1 ∧
    (PayHandler (PayHandler db userID (some orderID)).1 userID (some orderID)).2.status ≠ 200 := by
  have hrej : ∀ d : DB, orderID ≠ 0 → ∀ o, findOrder d orderID = some o → o.user_id = userID →
      o.status ≠ "pending" →
      PayHandler d userID (some orderID) =
        (d, { status := 400, error := some "order cannot be paid" }) := by
    intro d h0 o hf hu hs
    rw [PayHandler_cases d userID orderID h0, hf]
    simp [hu, hs]
  refine ⟨hrej db, ?_⟩
  by_cases hok : (PayHandler db userID (some orderID)).2.status = 200
  · by_cases h0 : orderID = 0
    · subst h0
      rw [PayHandler_zero] at hok
      simp at hok
    · have hcase := PayHandler_cases db userID orderID h0
      cases hf : findOrder db orderID with
      | none =>
        rw [hf] at hcase
        rw [hcase] at hok
        simp at hok
      | some o =>
        rw [hf] at hcase
        by_cases hu : o.user_id = userID
        · by_cases hs : o.status = "pending"
          · simp only [hu, hs, ne_eq, not_true_eq_false, if_false] at hcase
            have hf2 := findOrder_settled db orderID
            rw [hf] at hf2
            have hrej2 := hrej _ h0 _ hf2 hu (by simp)
            rw [hcase]
            simp only
            rw [hrej2]
            simp
          · simp only [hu, hs, ne_eq, not_true_eq_false, not_false_eq_true, if_false,
              if_true] at hcase
            rw [hcase] at hok
            simp at hok
        · simp only [hu, ne_eq, not_false_eq_true, if_true] at hcase
          rw [hcase] at hok
          simp at hok
  · have hsame := PayHandler_failed db userID (some orderID) hok
    rw [hsame]
    exact ⟨hsame, hok⟩

/-- Witness of C7: the owner pays order 1 of `storePaid`, which is paid. -/
theorem settle_rejects_non_pending_witness :
    PayHandler storePaid 42 (some 1) =
      (storePaid, { status := 400, error := some "order cannot be paid" }) :=
  (settle_rejects_non_pending storePaid 42 1).1 (by decide) ⟨1, 42, 490000000, "paid"⟩
    (by decide) (by decide) (by decide)

/-- C8: when the owner pays a pending order, the request succeeds; every stock
row loses, in `quantity` and in `reserved`, the total quantity of the order's
reservation rows that name it, so a row named by none of them is unchanged;
the reservation rows left are exactly those of other orders; the order's
status is `paid`; warehouses and products are untouched. -/
theorem settle_success_effect (db : DB) (userID orderID : Int) (o : Order)
    (h0 : orderID ≠ 0) (hf : findOrder db orderID = some o) (hu : o.user_id = userID)
    (hs : o.status = "pending") :
    (PayHandler db userID (some orderID)).2 = { status := 200, error := none } ∧
    (PayHandler db userID (some orderID)).1.warehouse_stock =
      db.warehouse_stock.map (paidRow (selectReservations db orderID)) ∧
    (∀ r : WarehouseStock,
      (∀ res ∈ db.reservations, res.order_id = orderID →
        ¬ (res.warehouse_id = r.warehouse_id ∧ res.product_id = r.product_id)) →
      paidRow (selectReservations db orderID) r = r) ∧
    (PayHandler db userID (some orderID)).1.reservations =
      db.reservations.filter (fun r => !decide (r.order_id = orderID)) ∧
    (∀ r ∈ (PayHandler db userID (some orderID)).1.reservations, r.order_id ≠ orderID) ∧
    (∀ r ∈ db.reservations, r.order_id ≠ orderID →
      r ∈ (PayHandler db userID (some orderID)).1.reservations) ∧
    findOrder (PayHandler db userID (some orderID)).1 orderID =
      some { o with status := "paid" } ∧
    (PayHandler db userID (some orderID)).1.orders =
      db.orders.map (fun x => if x.id = orderID then { x with status := "paid" } else x) ∧
    (PayHandler db userID (some orderID)).1.warehouses = db.warehouses ∧
    (PayHandler db userID (some orderID)).1.products = db.products := by
  have hcase := PayHandler_cases db userID orderID h0
  rw [hf] at hcase
  simp only [hu, hs, ne_eq, not_true_eq_false, if_false] at hcase
  obtain ⟨e1, e2, e3, e4, e5⟩ := ApplyStockPayment_effect db (GetOrderReservationItems db orderID)
  have hres : (PayHandler db userID (some orderID)).1.reservations =
      db.reservations.filter (fun r => !decide (r.order_id = orderID)) := by
    rw [hcase]
    simp only [UpdateOrderPaid, ClearReservation, deleteReservations]
    rw [e4]
  refine ⟨by rw [hcase], ?_, ?_, hres, ?_, ?_, ?_, ?_, ?_, ?_⟩
  · rw [hcase]
    simp only [UpdateOrderPaid, ClearReservation, deleteReservations]
    rw [e1]
    rfl
  · intro r hr
    have hz : itemQty (selectReservations db orderID) r.warehouse_id r.product_id = 0 := by
      apply itemQty_eq_zero
      intro it hit
      obtain ⟨res, hmem, hord, rfl⟩ := mem_selectReservations db orderID it hit
      exact hr res hmem hord
    simp [paidRow, hz]
  · intro r hr
    rw [hres] at hr
    simpa using (List.mem_filter.1 hr).2
  · intro r hr hne
    rw [hres]
    exact List.mem_filter.2 ⟨hr, by simpa using hne⟩
  · rw [hcase]
    simp only
    rw [findOrder_settled, hf]
    rfl
  · rw [hcase]
    simp only [UpdateOrderPaid, ClearReservation, deleteReservations]
    rw [e5]
  · rw [hcase]
    simp only [UpdateOrderPaid, ClearReservation, deleteReservations]
    rw [e2]
  · rw [hcase]
    simp only [UpdateOrderPaid, ClearReservation, deleteReservations]
    rw [e3]

/-- Witness of C8: user 42 pays order 1 on `storeReserved`; the stock row
goes from (10, 7) to (3, 0). -/
theorem settle_success_effect_witness :
    (PayHandler storeReserved 42 (some 1)).2 = { status := 200, error := none } ∧
      (PayHandler storeReserved 42 (some 1)).1.warehouse_stock = [⟨1, 7, 3, 0⟩] ∧
      (PayHandler storeReserved 42 (some 1)).1.reservations = [] := by
  have h := settle_success_effect storeReserved 42 1 ⟨1, 42, 490000000, "pending"⟩
    (by decide) (by decide) (by decide) (by decide)
  refine ⟨h.1, ?_, ?_⟩
  · rw [h.2.1]; decide
  · rw [h.2.2.2.1]; decide

/-- Stock and reservation tables after a successful settlement. -/
theorem PayHandler_success_tables (db : DB) (userID orderID : Int) (o : Order)
    (h0 : orderID ≠ 0) (hf : findOrder db orderID = some o) (hu : o.user_id = userID)
    (hs : o.status = "pending") :
    (PayHandler db userID (some orderID)).1.warehouse_stock =
      db.warehouse_stock.map (paidRow (selectReservations db orderID)) ∧
    (PayHandler db userID (some orderID)).1.reservations =
      db.reservations.filter (fun r => !decide (r.order_id = orderID)) := by
  have hcase := PayHandler_cases db userID orderID h0
  rw [hf] at hcase
  simp only [hu, hs, ne_eq, not_true_eq_false, if_false] at hcase
  obtain ⟨e1, _, _, e4, _⟩ := ApplyStockPayment_effect db (GetOrderReservationItems db orderID)
  rw [hcase]
  simp only [UpdateOrderPaid, ClearReservation, deleteReservations]
  rw [e1, e4]
  exact ⟨rfl, rfl⟩

/-- Reply and stock table of a successful settlement. -/
theorem settle_pay_tables (db : DB) (userID orderID : Int) (o : Order)
    (h0 : orderID ≠ 0) (hf : findOrder db orderID = some o) (hu : o.user_id = userID)
    (hs : o.status = "pending") :
    (PayHandler db userID (some orderID)).2 = { status := 200, error := none } ∧
    (PayHandler db userID (some orderID)).1.warehouse_stock =
      db.warehouse_stock.map (paidRow (selectReservations db orderID)) := by
  have hcase := PayHandler_cases db userID orderID h0
  rw [hf] at hcase
  simp only [hu, hs, ne_eq, not_true_eq_false, if_false] at hcase
  refine ⟨by rw [hcase], (PayHandler_success_tables db userID orderID o h0 hf hu hs).1⟩

/-! ## Consistency of the ledger -/

theorem stockKeyed_unique (db : DB) (h : stockKeyed db) (r1 r2 : WarehouseStock)
    (h1 : r1 ∈ db.warehouse_stock) (h2 : r2 ∈ db.warehouse_stock)
    (hw : r1.warehouse_id = r2.warehouse_id) (hp : r1.product_id = r2.product_id) : r1 = r2 :=
  List.inj_on_of_nodup_map h h1 h2 (by simp [hw, hp])

theorem itemQty_split_order (l : List Reservation) (orderID w p : Int) :
    itemQty (l.map Reservation.toItem) w p =
      itemQty ((l.filter (fun r => decide (r.order_id = orderID))).map Reservation.toItem) w p +
      itemQty ((l.filter (fun r => !decide (r.order_id = orderID))).map Reservation.toItem) w p := by
  induction l with
  | nil => simp [itemQty]
  | cons x xs ih =>
    by_cases hx : x.order_id = orderID
    · simp only [List.map_cons, itemQty, List.filter_cons, hx, decide_True, if_true,
        Bool.not_true, Bool.false_eq_true, if_false]
      rw [ih]
      omega
    · simp only [List.map_cons, itemQty, List.filter_cons, hx, decide_False, if_true,
        Bool.not_false, Bool.false_eq_true, if_false]
      rw [ih]
      omega

theorem selectReservations_eq (db : DB) (orderID : Int) :
    selectReservations db orderID =
      (db.reservations.filter (fun r => decide (r.order_id = orderID))).map Reservation.toItem :=
  rfl

theorem outstanding_nonneg (db : DB) (w p : Int) (h : ∀ res ∈ db.reservations, 0 ≤ res.quantity) :
    0 ≤ outstanding db w p := by
  apply itemQty_nonneg
  intro it hit
  obtain ⟨res, hres, rfl⟩ := List.mem_map.1 hit
  exact h res hres

theorem consistent_stockInvariant {db : DB} (h : Consistent db) : stockInvariant db := by
  intro r hr
  have h1 := h.bounds r hr
  have h2 := outstanding_nonneg db r.warehouse_id r.product_id h.nonneg
  omega

theorem consistent_of_initial (db : DB) (hk : stockKeyed db) (hi : stockInvariant db)
    (hr : db.reservations = []) : Consistent db where
  keyed := hk
  bounds := by
    intro r hmem
    have := hi r hmem
    simp only [outstanding, hr, List.map_nil, itemQty]
    omega
  nonneg := by simp [hr]
  named := by simp [hr]

/-- Consistency carries over to a store whose stock table is the old one mapped
by a function that keeps the keys, as soon as the new rows respect the bounds
against the new reservations. -/
theorem consistent_of_map {db db2 : DB} (f : WarehouseStock → WarehouseStock)
    (hc : Consistent db)
    (hstock : db2.warehouse_stock = db.warehouse_stock.map f)
    (hkey : ∀ r, (f r).warehouse_id = r.warehouse_id ∧ (f r).product_id = r.product_id)
    (hbounds : ∀ r ∈ db.warehouse_stock,
      outstanding db2 r.warehouse_id r.product_id ≤ (f r).reserved ∧
        (f r).reserved ≤ (f r).quantity)
    (hnonneg : ∀ res ∈ db2.reservations, 0 ≤ res.quantity)
    (hnamed : ∀ res ∈ db2.reservations, ∃ r ∈ db.warehouse_stock,
      r.warehouse_id = res.warehouse_id ∧ r.product_id = res.product_id) :
    Consistent db2 where
  keyed := by
    unfold stockKeyed
    rw [hstock, List.map_map]
    have : ((fun r : WarehouseStock => (r.warehouse_id, r.product_id)) ∘ f) =
        (fun r : WarehouseStock => (r.warehouse_id, r.product_id)) := by
      funext r
      simp [Function.comp, (hkey r).1, (hkey r).2]
    rw [this]
    exact hc.keyed
  bounds := by
    intro r2 hr2
    rw [hstock] at hr2
    obtain ⟨r, hr, rfl⟩ := List.mem_map.1 hr2
    rw [(hkey r).1, (hkey r).2]
    exact hbounds r hr
  nonneg := hnonneg
  named := by
    intro res hres
    obtain ⟨r, hr, h1, h2⟩ := hnamed res hres
    refine ⟨f r, ?_, ?_, ?_⟩
    · rw [hstock]; exact List.mem_map_of_mem f hr
    · rw [(hkey r).1, h1]
    · rw [(hkey r).2, h2]

/-- One iteration of the reservation loop keeps the ledger consistent. -/
theorem consistent_reserve_step (now orderID : Int) {tx : DB} (item : CheckoutItem)
    (row : WarehouseStock) (hc : Consistent tx) (hq : 0 ≤ item.Qty)
    (hs : selectWarehouse tx item.ProductID item.Qty = some row) :
    Consistent (insertReservation now
      (updateProductStock (updateReserved tx item.Qty row.warehouse_id item.ProductID)
        item.Qty item.ProductID)
      orderID item.ProductID row.warehouse_id item.Qty) := by
  obtain ⟨hrow, hprod, havail, _⟩ := selectWarehouse_some tx _ _ row hs
  apply consistent_of_map
    (fun r => if r.warehouse_id = row.warehouse_id ∧ r.product_id = item.ProductID
      then { r with reserved := r.reserved + item.Qty } else r) hc
  · rfl
  · intro r
    by_cases hk : r.warehouse_id = row.warehouse_id ∧ r.product_id = item.ProductID
    · rw [if_pos hk]; exact ⟨rfl, rfl⟩
    · rw [if_neg hk]; exact ⟨rfl, rfl⟩
  · intro r hr
    have hb := hc.bounds r hr
    have hout : outstanding (insertReservation now
        (updateProductStock (updateReserved tx item.Qty row.warehouse_id item.ProductID)
          item.Qty item.ProductID)
        orderID item.ProductID row.warehouse_id item.Qty) r.warehouse_id r.product_id =
        outstanding tx r.warehouse_id r.product_id +
          (if row.warehouse_id = r.warehouse_id ∧ item.ProductID = r.product_id
            then item.Qty else 0) := by
      simp only [outstanding, insertReservation, updateProductStock, updateReserved,
        List.map_append, itemQty_append, List.map_cons, List.map_nil, itemQty,
        Reservation.toItem]
      omega
    rw [hout]
    by_cases hk : r.warehouse_id = row.warehouse_id ∧ r.product_id = item.ProductID
    · have hk2 : row.warehouse_id = r.warehouse_id ∧ item.ProductID = r.product_id :=
        ⟨hk.1.symm, hk.2.symm⟩
      have hrr : r = row :=
        stockKeyed_unique tx hc.keyed r row hr hrow hk.1 (by rw [hk.2, hprod])
      rw [if_pos hk, if_pos hk2]
      subst hrr
      simp only
      omega
    · have hk2 : ¬ (row.warehouse_id = r.warehouse_id ∧ item.ProductID = r.product_id) :=
        fun hh => hk ⟨hh.1.symm, hh.2.symm⟩
      rw [if_neg hk, if_neg hk2]
      omega
  · intro res hres
    simp only [insertReservation, updateProductStock, updateReserved, List.mem_append,
      List.mem_singleton] at hres
    rcases hres with hres | rfl
    · exact hc.nonneg res hres
    · exact hq
  · intro res hres
    simp only [insertReservation, updateProductStock, updateReserved, List.mem_append,
      List.mem_singleton] at hres
    rcases hres with hres | rfl
    · exact hc.named res hres
    · exact ⟨row, hrow, rfl, hprod⟩

theorem consistent_reserveItems (now orderID : Int) {tx : DB} (items : List CheckoutItem)
    (hc : Consistent tx) (hq : ∀ it ∈ items, 0 ≤ it.Qty) :
    Consistent (reserveItems now orderID tx items).tx := by
  induction items generalizing tx with
  | nil => exact hc
  | cons item rest ih =>
    cases hs : selectWarehouse tx item.ProductID item.Qty with
    | none =>
      rw [reserveItems_cons_none now orderID tx item rest hs]
      exact hc
    | some row =>
      rw [reserveItems_cons_some now orderID tx item rest row hs]
      exact ih (consistent_reserve_step now orderID item row hc
        (hq item (List.mem_cons_self _ _)) hs)
        (fun it hit => hq it (List.mem_cons_of_mem _ hit))

theorem consistent_reserve (now orderID : Int) {db : DB} (items : List CheckoutItem)
    (hc : Consistent db) (hq : ∀ it ∈ items, 0 ≤ it.Qty) :
    Consistent (ReserveStockForOrder now db orderID items).db := by
  cases h : (reserveItems now orderID db items).err with
  | none =>
    rw [ReserveStockForOrder_db_ok now db orderID items h]
    exact consistent_reserveItems now orderID items hc hq
  | some e =>
    rw [ReserveStockForOrder_db_err now db orderID items (by rw [h]; simp)]
    exact hc

theorem outstanding_after_delete (db db2 : DB) (orderID w p : Int)
    (h : db2.reservations = db.reservations.filter (fun r => !decide (r.order_id = orderID))) :
    outstanding db2 w p = outstanding db w p - itemQty (selectReservations db orderID) w p := by
  unfold outstanding
  rw [h, selectReservations_eq, itemQty_split_order db.reservations orderID w p]
  omega

theorem consistent_pay {db : DB} (userID : Int) (req : Option Int) (hc : Consistent db) :
    Consistent (PayHandler db userID req).1 := by
  by_cases hok : (PayHandler db userID req).2.status = 200
  · cases req with
    | none => simp [PayHandler] at hok
    | some orderID =>
      by_cases h0 : orderID = 0
      · subst h0; rw [PayHandler_zero] at hok; simp at hok
      · have hcase := PayHandler_cases db userID orderID h0
        cases hf : findOrder db orderID with
        | none => rw [hf] at hcase; rw [hcase] at hok; simp at hok
        | some o =>
          have heff := PayHandler_success_tables db userID orderID o h0 hf
          by_cases hu : o.user_id = userID
          · by_cases hs : o.status = "pending"
            · obtain ⟨hstock, hres⟩ := heff hu hs
              apply consistent_of_map (paidRow (selectReservations db orderID)) hc hstock
              · intro r; exact ⟨rfl, rfl⟩
              · intro r hr
                have hb := hc.bounds r hr
                rw [outstanding_after_delete db _ orderID _ _ hres]
                simp only [paidRow]
                omega
              · intro res hmem
                rw [hres] at hmem
                exact hc.nonneg res (List.mem_filter.1 hmem).1
              · intro res hmem
                rw [hres] at hmem
                exact hc.named res (List.mem_filter.1 hmem).1
            · rw [hf] at hcase
              simp only [hu, hs, ne_eq, not_true_eq_false, not_false_eq_true, if_false,
                if_true] at hcase
              rw [hcase] at hok
              simp at hok
          · rw [hf] at hcase
            simp only [hu, ne_eq, not_false_eq_true, if_true] at hcase
            rw [hcase] at hok
            simp at hok
  · rw [PayHandler_failed db userID req hok]
    exact hc

/-! ## Release -/

theorem releaseItems_effect (tx : DB) (items : List ReservationItem) :
    (releaseItems tx items).warehouse_stock = tx.warehouse_stock.map (releasedRow items) ∧
      (releaseItems tx items).warehouses = tx.warehouses ∧
      (releaseItems tx items).products = tx.products ∧
      (releaseItems tx items).reservations = tx.reservations ∧
      (releaseItems tx items).orders = tx.orders := by
  induction items generalizing tx with
  | nil =>
    refine ⟨?_, rfl, rfl, rfl, rfl⟩
    simp only [releaseItems]
    have : ∀ r ∈ tx.warehouse_stock, releasedRow [] r = r := by
      intro r _; simp [releasedRow, releasedTo]
    rw [List.map_congr_left this]
    simp
  | cons it rest ih =>
    obtain ⟨h1, h2, h3, h4, h5⟩ := ih (releaseReserved tx it.Qty it.ProductID it.WarehouseID)
    simp only [releaseItems]
    refine ⟨?_, by rw [h2]; rfl, by rw [h3]; rfl, by rw [h4]; rfl, by rw [h5]; rfl⟩
    rw [h1]
    simp only [releaseReserved, List.map_map]
    apply List.map_congr_left
    intro r _
    simp only [Function.comp, releasedRow, releasedTo]
    by_cases hk : r.product_id = it.ProductID ∧ r.warehouse_id = it.WarehouseID
    · have hk2 : it.ProductID = r.product_id ∧ it.WarehouseID = r.warehouse_id :=
        ⟨hk.1.symm, hk.2.symm⟩
      rw [if_pos hk, if_pos hk2]
    · have hk2 : ¬ (it.ProductID = r.product_id ∧ it.WarehouseID = r.warehouse_id) :=
        fun hh => hk ⟨hh.1.symm, hh.2.symm⟩
      rw [if_neg hk, if_neg hk2]

/-- Tables after `ReleaseReservationByOrderID`. -/
theorem Release_tables (db : DB) (orderID : Int) :
    (ReleaseReservationByOrderID db orderID).db.warehouse_stock =
      db.warehouse_stock.map (releasedRow (selectReservations db orderID)) ∧
    (ReleaseReservationByOrderID db orderID).db.reservations =
      db.reservations.filter (fun r => !decide (r.order_id = orderID)) ∧
    (ReleaseReservationByOrderID db orderID).db.warehouses = db.warehouses ∧
    (ReleaseReservationByOrderID db orderID).db.products = db.products ∧
    (ReleaseReservationByOrderID db orderID).db.orders = db.orders := by
  obtain ⟨h1, h2, h3, h4, h5⟩ := releaseItems_effect db (selectReservations db orderID)
  simp only [ReleaseReservationByOrderID, deleteReservations]
  rw [h1, h2, h3, h4, h5]
  exact ⟨rfl, rfl, rfl, rfl, rfl⟩

/-- The clamp never takes the value below what plain subtraction gives. -/
theorem releasedTo_ge (items : List ReservationItem) (w p r : Int) :
    r - itemQty items w p ≤ releasedTo items w p r := by
  induction items generalizing r with
  | nil => simp [releasedTo, itemQty]
  | cons it rest ih =>
    simp only [releasedTo, itemQty]
    by_cases hk : it.ProductID = p ∧ it.WarehouseID = w
    · have hk2 : it.WarehouseID = w ∧ it.ProductID = p := ⟨hk.2, hk.1⟩
      rw [if_pos hk, if_pos hk2]
      have := ih (max (r - it.Qty) 0)
      have := le_max_left (r - it.Qty) 0
      omega
    · have hk2 : ¬ (it.WarehouseID = w ∧ it.ProductID = p) := fun hh => hk ⟨hh.2, hh.1⟩
      rw [if_neg hk, if_neg hk2]
      have := ih r
      omega

/-- Releasing non-negative quantities from a non-negative `reserved` never
raises it and never makes it negative. -/
theorem releasedTo_le (items : List ReservationItem) (w p r : Int)
    (hq : ∀ it ∈ items, 0 ≤ it.Qty) (hr : 0 ≤ r) :
    0 ≤ releasedTo items w p r ∧ releasedTo items w p r ≤ r := by
  induction items generalizing r with
  | nil => simp [releasedTo, hr]
  | cons it rest ih =>
    have hit := hq it (List.mem_cons_self _ _)
    have hrest : ∀ x ∈ rest, 0 ≤ x.Qty := fun x hx => hq x (List.mem_cons_of_mem _ hx)
    simp only [releasedTo]
    by_cases hk : it.ProductID = p ∧ it.WarehouseID = w
    · rw [if_pos hk]
      have h0 : 0 ≤ max (r - it.Qty) 0 := le_max_right _ _
      have h1 := ih (max (r - it.Qty) 0) hrest h0
      have h2 : max (r - it.Qty) 0 ≤ r := max_le (by omega) hr
      omega
    · rw [if_neg hk]
      exact ih r hrest hr

/-- When the quantities are non-negative and `reserved` covers them, the clamp
is idle: the release subtracts exactly. -/
theorem releasedTo_exact (items : List ReservationItem) (w p r : Int)
    (hq : ∀ it ∈ items, 0 ≤ it.Qty) (hr : itemQty items w p ≤ r) :
    releasedTo items w p r = r - itemQty items w p := by
  induction items generalizing r with
  | nil => simp [releasedTo, itemQty]
  | cons it rest ih =>
    have hit := hq it (List.mem_cons_self _ _)
    have hrest : ∀ x ∈ rest, 0 ≤ x.Qty := fun x hx => hq x (List.mem_cons_of_mem _ hx)
    have hnn := itemQty_nonneg rest w p hrest
    simp only [releasedTo, itemQty] at hr ⊢
    by_cases hk : it.ProductID = p ∧ it.WarehouseID = w
    · have hk2 : it.WarehouseID = w ∧ it.ProductID = p := ⟨hk.2, hk.1⟩
      rw [if_pos hk, if_pos hk2] at *
      have hm : max (r - it.Qty) 0 = r - it.Qty := max_eq_left (by omega)
      rw [hm, ih (r - it.Qty) hrest (by omega)]
      omega
    · have hk2 : ¬ (it.WarehouseID = w ∧ it.ProductID = p) := fun hh => hk ⟨hh.2, hh.1⟩
      rw [if_neg hk]
      rw [if_neg hk2] at hr ⊢
      rw [ih r hrest (by omega)]
      omega

theorem selectReservations_nonneg (db : DB) (orderID : Int)
    (h : ∀ res ∈ db.reservations, 0 ≤ res.quantity) :
    ∀ it ∈ selectReservations db orderID, 0 ≤ it.Qty := by
  intro it hit
  obtain ⟨res, hmem, _, rfl⟩ := mem_selectReservations db orderID it hit
  exact h res hmem

theorem consistent_release {db : DB} (orderID : Int) (hc : Consistent db) :
    Consistent (ReleaseReservationByOrderID db orderID).db := by
  obtain ⟨hstock, hres, _, _, _⟩ := Release_tables db orderID
  apply consistent_of_map (releasedRow (selectReservations db orderID)) hc hstock
  · intro r; exact ⟨rfl, rfl⟩
  · intro r hr
    have hb := hc.bounds r hr
    have hnn := selectReservations_nonneg db orderID hc.nonneg
    have hout := outstanding_nonneg db r.warehouse_id r.product_id hc.nonneg
    have hge := releasedTo_ge (selectReservations db orderID) r.warehouse_id r.product_id
      r.reserved
    have hle := releasedTo_le (selectReservations db orderID) r.warehouse_id r.product_id
      r.reserved hnn (by omega)
    rw [outstanding_after_delete db _ orderID _ _ hres]
    simp only [releasedRow]
    omega
  · intro res hmem
    rw [hres] at hmem
    exact hc.nonneg res (List.mem_filter.1 hmem).1
  · intro res hmem
    rw [hres] at hmem
    exact hc.named res (List.mem_filter.1 hmem).1

/-! ## Transfer -/

/-- Wrapping a non-negative value never raises it. -/
theorem wrap64_le_self (x : Int) (h : 0 ≤ x) : wrap64 x ≤ x := by
  unfold wrap64
  omega

/-- A value within the range of `int` is not changed by the wrap. -/
theorem wrap64_of_range (x : Int) (h : isInt64 x) : wrap64 x = x := by
  obtain ⟨h1, h2⟩ := h
  unfold wrap64
  rw [Int.emod_eq_of_lt (by omega) (by omega)]
  omega

/-- A transfer that returns no error has passed both validations, found the
source row with enough available stock, and applied the two updates. -/
theorem TransferStock_ok (tx : DB) (f t p qty : Int)
    (h : (TransferStock tx f t p qty).err = none) :
    f ≠ t ∧ 0 < qty ∧
      ∃ src, selectStock (ensureStockRowExists tx t p) f p = some src ∧
        qty ≤ wrap64 (src.quantity - src.reserved) ∧
        (TransferStock tx f t p qty).tx =
          updateQuantityAdd (updateQuantitySub (ensureStockRowExists tx t p) qty f p) qty t p := by
  unfold TransferStock at h ⊢
  by_cases hft : f = t
  · simp [hft] at h
  · by_cases hq : qty ≤ 0
    · simp [hft, hq] at h
    · simp only [if_neg hft, if_neg hq] at h ⊢
      cases hsrc : selectStock (ensureStockRowExists tx t p) f p with
      | none => simp [hsrc] at h
      | some src =>
        simp only [hsrc] at h ⊢
        by_cases hav : wrap64 (src.quantity - src.reserved) < qty
        · simp [hav] at h
        · simp only [if_neg hav] at h ⊢
          cases hdst : selectStock (ensureStockRowExists tx t p) t p with
          | none => simp [hdst] at h
          | some dst =>
            simp only [hdst]
            refine ⟨hft, by omega, src, ?_, by omega, ?_⟩ <;> first | rfl | trivial

theorem consistent_ensure {tx : DB} (w p : Int) (hc : Consistent tx) :
    Consistent (ensureStockRowExists tx w p) := by
  unfold ensureStockRowExists
  by_cases hex : tx.warehouse_stock.any
      (fun r => decide (r.warehouse_id = w) && decide (r.product_id = p)) = true
  · rw [if_pos hex]; exact hc
  · rw [if_neg hex]
    have hno : ∀ r ∈ tx.warehouse_stock, ¬ (r.warehouse_id = w ∧ r.product_id = p) := by
      intro r hr hk
      apply hex
      rw [List.any_eq_true]
      exact ⟨r, hr, by simp [hk.1, hk.2]⟩
    have hout : ∀ w2 p2, outstanding
        { tx with warehouse_stock := tx.warehouse_stock ++
            [{ warehouse_id := w, product_id := p, quantity := 0, reserved := 0 }] } w2 p2 =
        outstanding tx w2 p2 := fun _ _ => rfl
    refine ⟨?_, ?_, hc.nonneg, ?_⟩
    · unfold stockKeyed
      simp only [List.map_append, List.map_cons, List.map_nil]
      rw [List.nodup_append]
      refine ⟨hc.keyed, List.nodup_singleton _, ?_⟩
      intro k hk1 hk2
      rw [List.mem_singleton] at hk2
      subst hk2
      obtain ⟨r, hr, hkr⟩ := List.mem_map.1 hk1
      simp only [Prod.mk.injEq] at hkr
      exact hno r hr hkr
    · intro r hr
      simp only [List.mem_append, List.mem_singleton] at hr
      rw [hout]
      rcases hr with hr | rfl
      · exact hc.bounds r hr
      · simp only
        have hz : outstanding tx w p = 0 := by
          apply itemQty_eq_zero
          intro it hit hk
          obtain ⟨res, hres, rfl⟩ := List.mem_map.1 hit
          obtain ⟨r, hr, h1, h2⟩ := hc.named res hres
          exact hno r hr ⟨by rw [h1]; exact hk.1, by rw [h2]; exact hk.2⟩
        omega
    · intro res hres
      obtain ⟨r, hr, h1, h2⟩ := hc.named res hres
      exact ⟨r, List.mem_append_left _ hr, h1, h2⟩

theorem transferTx_db_ok (db : DB) (f t p qty : Int)
    (h : (TransferStock db f t p qty).err = none) :
    (transferTx db f t p qty).db = (TransferStock db f t p qty).tx := by
  unfold transferTx
  simp [h]

theorem transferTx_db_err (db : DB) (f t p qty : Int)
    (h : (TransferStock db f t p qty).err ≠ none) :
    (transferTx db f t p qty).db = db := by
  unfold transferTx
  cases h2 : (TransferStock db f t p qty).err with
  | none => exact absurd h2 h
  | some e => simp [h2]

theorem consistent_transfer {db : DB} (f t p qty : Int) (hc : Consistent db) :
    Consistent (transferTx db f t p qty).db := by
  cases herr : (TransferStock db f t p qty).err with
  | some e =>
    rw [transferTx_db_err db f t p qty (by rw [herr]; simp)]
    exact hc
  | none =>
    rw [transferTx_db_ok db f t p qty herr]
    obtain ⟨hft, hq, src, hsrc, hav, htx⟩ := TransferStock_ok db f t p qty herr
    rw [htx]
    have hav2 : 0 ≤ src.quantity - src.reserved → qty ≤ src.quantity - src.reserved :=
      fun h0 => le_trans hav (wrap64_le_self _ h0)
    have hc1 := consistent_ensure t p hc
    have hsrcmem : src ∈ (ensureStockRowExists db t p).warehouse_stock :=
      List.mem_of_find?_eq_some hsrc
    have hsrckey : src.warehouse_id = f ∧ src.product_id = p := by
      have := List.find?_some hsrc
      simpa using this
    apply consistent_of_map
      (fun r => (fun r2 : WarehouseStock =>
          if r2.warehouse_id = t ∧ r2.product_id = p
          then { r2 with quantity := r2.quantity + qty } else r2)
        (if r.warehouse_id = f ∧ r.product_id = p
          then { r with quantity := r.quantity - qty } else r)) hc1
    · simp only [updateQuantityAdd, updateQuantitySub, List.map_map]
      rfl
    · intro r
      dsimp only
      by_cases hk : r.warehouse_id = f ∧ r.product_id = p
      · rw [if_pos hk]
        dsimp only
        by_cases hk2 : r.warehouse_id = t ∧ r.product_id = p
        · rw [if_pos hk2]; exact ⟨rfl, rfl⟩
        · rw [if_neg hk2]; exact ⟨rfl, rfl⟩
      · rw [if_neg hk]
        by_cases hk2 : r.warehouse_id = t ∧ r.product_id = p
        · rw [if_pos hk2]; exact ⟨rfl, rfl⟩
        · rw [if_neg hk2]; exact ⟨rfl, rfl⟩
    · intro r hr
      have hb := hc1.bounds r hr
      have hout : outstanding
          (updateQuantityAdd (updateQuantitySub (ensureStockRowExists db t p) qty f p) qty t p)
          r.warehouse_id r.product_id =
          outstanding (ensureStockRowExists db t p) r.warehouse_id r.product_id := rfl
      rw [hout]
      dsimp only
      by_cases hk : r.warehouse_id = f ∧ r.product_id = p
      · have hrr : r = src :=
          stockKeyed_unique _ hc1.keyed r src hr hsrcmem (by rw [hk.1, hsrckey.1])
            (by rw [hk.2, hsrckey.2])
        have hk2 : ¬ (r.warehouse_id = t ∧ r.product_id = p) := by
          intro hh; exact hft (hk.1.symm.trans hh.1)
        subst hrr
        rw [if_pos hk]
        dsimp only
        rw [if_neg hk2]
        dsimp only
        have := hav2 (by omega)
        omega
      · rw [if_neg hk]
        by_cases hk2 : r.warehouse_id = t ∧ r.product_id = p
        · rw [if_pos hk2]
          dsimp only
          omega
        · rw [if_neg hk2]
          omega
    · exact hc1.nonneg
    · exact hc1.named

/-! ## C1: the stock invariant along every run -/

theorem consistent_step {db : DB} (op : Op) (hc : Consistent db) (hp : positiveItems op) :
    Consistent (step db op) := by
  cases op with
  | reserve now orderID items =>
    exact consistent_reserve now orderID items hc (fun it hit => le_of_lt (hp it hit))
  | settle userID orderID => exact consistent_pay userID (some orderID) hc
  | release orderID => exact consistent_release orderID hc
  | transfer f t p qty => exact consistent_transfer f t p qty hc

theorem consistent_run {db : DB} (ops : List Op) (hc : Consistent db)
    (hp : ∀ op ∈ ops, positiveItems op) : Consistent (run db ops) := by
  induction ops generalizing db with
  | nil => exact hc
  | cons op rest ih =>
    simp only [run, List.foldl_cons]
    exact ih (consistent_step op hc (hp op (List.mem_cons_self _ _)))
      (fun o ho => hp o (List.mem_cons_of_mem _ ho))

/-- C1: from a store with no reservation rows whose stock rows all satisfy
`0 ≤ reserved ≤ quantity`, every sequence of reservations (items of positive
quantity), settlements, releases and transfers leads to a store whose stock
rows all satisfy `0 ≤ reserved ≤ quantity`.  The stock table is keyed by
`(warehouse_id, product_id)`. -/
theorem stock_invariant_preserved (db : DB) (ops : List Op)
    (hkey : stockKeyed db) (hinit : stockInvariant db) (hres : db.reservations = [])
    (hpos : ∀ op ∈ ops, positiveItems op) :
    ∀ r ∈ (run db ops).warehouse_stock, 0 ≤ r.reserved ∧ r.reserved ≤ r.quantity :=
  consistent_stockInvariant (consistent_run ops (consistent_of_initial db hkey hinit hres) hpos)

/-- Witness of C1: the run `exampleRun` from `storeW1`. -/
theorem stock_invariant_preserved_witness :
    stockKeyed storeW1 ∧ stockInvariant storeW1 ∧ storeW1.reservations = [] ∧
      stockInvariant (run storeW1 exampleRun) :=
  ⟨by unfold stockKeyed; decide, by unfold stockInvariant; decide, rfl,
   stock_invariant_preserved storeW1 exampleRun
    (by unfold stockKeyed; decide)
    (by unfold stockInvariant; decide)
    rfl
    (by
      intro op hop
      simp only [exampleRun, List.mem_cons, List.mem_singleton, List.mem_nil_iff, or_false]
        at hop
      rcases hop with rfl | rfl | rfl | rfl
      · intro it hit
        simp only [List.mem_singleton] at hit
        subst hit
        decide
      · trivial
      · trivial
      · trivial)⟩

/-! ## Round trips -/

theorem ReserveStockForOrder_single (now : Int) (db : DB) (orderID : Int) (item : CheckoutItem)
    (row : WarehouseStock) (h : selectWarehouse db item.ProductID item.Qty = some row) :
    (ReserveStockForOrder now db orderID [item]).err = none ∧
      (ReserveStockForOrder now db orderID [item]).db =
        insertReservation now
          (updateProductStock (updateReserved db item.Qty row.warehouse_id item.ProductID)
            item.Qty item.ProductID)
          orderID item.ProductID row.warehouse_id item.Qty := by
  have hok : (reserveItems now orderID db [item]).err = none :=
    (reserveItems_single_some now orderID db item row h).1
  rw [ReserveStockForOrder_err, ReserveStockForOrder_db_ok now db orderID [item] hok,
    reserveItems_cons_some now orderID db item [] row h]
  simp [reserveItems]

/-- C9 fails as stated: `storePaid` is the store `storeW1` after order 1 has
reserved 7 units and has been paid, and satisfies `0 ≤ reserved ≤ quantity`; a
reservation of 2 units of product 7 for order 1 succeeds on warehouse 1, whose
`reserved` was 0, but the settlement by the owner that follows is refused
because the order is no longer pending, and the stock row keeps `reserved = 2`
and `quantity = 3`. -/
theorem reserve_settle_round_trip_counterexample :
    run storeW1 [Op.reserve 0 1 [⟨7, 7⟩], Op.settle 42 1] = storePaid ∧
      stockKeyed storePaid ∧ stockInvariant storePaid ∧
      selectWarehouse storePaid 7 2 = some ⟨1, 7, 3, 0⟩ ∧
      (ReserveStockForOrder 0 storePaid 1 [⟨7, 2⟩]).err = none ∧
      (PayHandler (ReserveStockForOrder 0 storePaid 1 [⟨7, 2⟩]).db 42 (some 1)).2 =
        { status := 400, error := some "order cannot be paid" } ∧
      (PayHandler (ReserveStockForOrder 0 storePaid 1 [⟨7, 2⟩]).db 42
        (some 1)).1.warehouse_stock = [⟨1, 7, 3, 2⟩] := by
  refine ⟨by decide, by unfold stockKeyed; decide, by unfold stockInvariant; decide,
    ?_, ?_, ?_, ?_⟩ <;> decide

/-- C9, amended: on a keyed stock table, let the owner's pending order
`orderID` reserve the single item `(p, q)`, the lookup choosing the row `row`
whose `reserved` is 0, and let the reservation rows the order already holds on
that stock row, if any, have total quantity 0.  Then the reservation succeeds,
the settlement that follows succeeds, and afterwards the stock row of the
chosen warehouse for `p` exists with `reserved = 0` and `quantity` reduced by
exactly `q`. -/
theorem reserve_settle_round_trip (now : Int) (db : DB) (userID orderID p q : Int)
    (o : Order) (row : WarehouseStock)
    (hkey : stockKeyed db)
    (h0 : orderID ≠ 0) (hf : findOrder db orderID = some o) (hu : o.user_id = userID)
    (hs : o.status = "pending")
    (hsel : selectWarehouse db p q = some row)
    (hzero : row.reserved = 0)
    (hheld : itemQty (selectReservations db orderID) row.warehouse_id p = 0) :
    (ReserveStockForOrder now db orderID [⟨p, q⟩]).err = none ∧
    (PayHandler (ReserveStockForOrder now db orderID [⟨p, q⟩]).db userID (some orderID)).2 =
      { status := 200, error := none } ∧
    (∃ r ∈ (PayHandler (ReserveStockForOrder now db orderID [⟨p, q⟩]).db userID
        (some orderID)).1.warehouse_stock,
      r.warehouse_id = row.warehouse_id ∧ r.product_id = p) ∧
    (∀ r ∈ (PayHandler (ReserveStockForOrder now db orderID [⟨p, q⟩]).db userID
        (some orderID)).1.warehouse_stock,
      r.warehouse_id = row.warehouse_id → r.product_id = p →
        r.reserved = 0 ∧ r.quantity = row.quantity - q) := by
  obtain ⟨hrow, hprod, _, _⟩ := selectWarehouse_some db p q row hsel
  obtain ⟨hok, hdb1⟩ := ReserveStockForOrder_single now db orderID ⟨p, q⟩ row hsel
  simp only at hdb1
  have hf1 : findOrder (ReserveStockForOrder now db orderID [⟨p, q⟩]).db orderID = some o := by
    rw [hdb1]; exact hf
  have hpay := settle_pay_tables _ userID orderID o h0 hf1 hu hs
  obtain ⟨hreply, hstock⟩ := hpay
  have hitems : itemQty (selectReservations (ReserveStockForOrder now db orderID [⟨p, q⟩]).db
      orderID) row.warehouse_id p = q := by
    rw [hdb1, selectReservations_eq]
    simp only [insertReservation, updateProductStock, updateReserved, List.filter_append,
      List.map_append, itemQty_append]
    have hz : itemQty ((db.reservations.filter
        (fun r => decide (r.order_id = orderID))).map Reservation.toItem) row.warehouse_id p = 0 := by
      rw [← selectReservations_eq]
      exact hheld
    rw [hz]
    simp [itemQty, Reservation.toItem]
  have hcalc : ∀ r ∈ db.warehouse_stock, r.warehouse_id = row.warehouse_id → r.product_id = p →
      (paidRow (selectReservations (ReserveStockForOrder now db orderID [⟨p, q⟩]).db orderID)
        (if r.warehouse_id = row.warehouse_id ∧ r.product_id = p
          then { r with reserved := r.reserved + q } else r)).reserved = 0 ∧
      (paidRow (selectReservations (ReserveStockForOrder now db orderID [⟨p, q⟩]).db orderID)
        (if r.warehouse_id = row.warehouse_id ∧ r.product_id = p
          then { r with reserved := r.reserved + q } else r)).quantity = row.quantity - q := by
    intro r hr hw hp
    have hrr : r = row := stockKeyed_unique db hkey r row hr hrow hw (by rw [hp, hprod])
    subst hrr
    rw [if_pos ⟨rfl, hp⟩]
    simp only [paidRow]
    rw [hp, hitems]
    omega
  have hstock2 : (PayHandler (ReserveStockForOrder now db orderID [⟨p, q⟩]).db userID
      (some orderID)).1.warehouse_stock =
      db.warehouse_stock.map (fun r =>
        paidRow (selectReservations (ReserveStockForOrder now db orderID [⟨p, q⟩]).db orderID)
          (if r.warehouse_id = row.warehouse_id ∧ r.product_id = p
            then { r with reserved := r.reserved + q } else r)) := by
    have hws : (ReserveStockForOrder now db orderID [⟨p, q⟩]).db.warehouse_stock =
        db.warehouse_stock.map (fun r =>
          if r.warehouse_id = row.warehouse_id ∧ r.product_id = p
          then { r with reserved := r.reserved + q } else r) := by
      rw [hdb1]
      rfl
    rw [hstock, hws, List.map_map]
    rfl
  have hkeep : ∀ r : WarehouseStock,
      (paidRow (selectReservations (ReserveStockForOrder now db orderID [⟨p, q⟩]).db orderID)
        (if r.warehouse_id = row.warehouse_id ∧ r.product_id = p
          then { r with reserved := r.reserved + q } else r)).warehouse_id = r.warehouse_id ∧
      (paidRow (selectReservations (ReserveStockForOrder now db orderID [⟨p, q⟩]).db orderID)
        (if r.warehouse_id = row.warehouse_id ∧ r.product_id = p
          then { r with reserved := r.reserved + q } else r)).product_id = r.product_id := by
    intro r
    by_cases hk : r.warehouse_id = row.warehouse_id ∧ r.product_id = p
    · rw [if_pos hk]; exact ⟨rfl, rfl⟩
    · rw [if_neg hk]; exact ⟨rfl, rfl⟩
  refine ⟨hok, hreply, ?_, ?_⟩
  · rw [hstock2]
    refine ⟨_, List.mem_map_of_mem _ hrow, ?_, ?_⟩
    · exact (hkeep row).1
    · rw [(hkeep row).2]; exact hprod
  · intro r2 hr2 hw hp
    rw [hstock2] at hr2
    obtain ⟨r, hr, rfl⟩ := List.mem_map.1 hr2
    rw [(hkeep r).1] at hw
    rw [(hkeep r).2] at hp
    exact hcalc r hr hw hp

/-- Witness of C9 (amended): order 1 reserves 7 units of product 7 on `storeW1`
and is paid; the row `(1, 7)` goes from (10, 0) to (3, 0). -/
theorem reserve_settle_round_trip_witness :
    (ReserveStockForOrder 0 storeW1 1 [⟨7, 7⟩]).err = none ∧
    (PayHandler (ReserveStockForOrder 0 storeW1 1 [⟨7, 7⟩]).db 42 (some 1)).2 =
      { status := 200, error := none } ∧
    (∃ r ∈ (PayHandler (ReserveStockForOrder 0 storeW1 1 [⟨7, 7⟩]).db 42
        (some 1)).1.warehouse_stock,
      r.warehouse_id = 1 ∧ r.product_id = 7) ∧
    (∀ r ∈ (PayHandler (ReserveStockForOrder 0 storeW1 1 [⟨7, 7⟩]).db 42
        (some 1)).1.warehouse_stock,
      r.warehouse_id = 1 → r.product_id = 7 → r.reserved = 0 ∧ r.quantity = 10 - 7) :=
  reserve_settle_round_trip 0 storeW1 42 1 7 7 ⟨1, 42, 490000000, "pending"⟩ ⟨1, 7, 10, 0⟩
    (by unfold stockKeyed; decide) (by decide) (by decide) (by decide) (by decide) (by decide)
    rfl (by decide)

theorem reservationRows_order (now orderID : Int) (items : List CheckoutItem) (ws : List Int) :
    ∀ r ∈ reservationRows now orderID items ws, r.order_id = orderID :=
  fun r hr => (reservationRows_mem now orderID items ws r hr).1

theorem filter_order_all (l : List Reservation) (orderID : Int)
    (h : ∀ r ∈ l, r.order_id = orderID) :
    l.filter (fun r => decide (r.order_id = orderID)) = l ∧
      l.filter (fun r => !decide (r.order_id = orderID)) = [] := by
  constructor
  · rw [List.filter_eq_self]
    intro r hr
    simpa using h r hr
  · rw [List.filter_eq_nil_iff]
    intro r hr
    simpa using h r hr

theorem filter_order_none (l : List Reservation) (orderID : Int)
    (h : ∀ r ∈ l, r.order_id ≠ orderID) :
    l.filter (fun r => decide (r.order_id = orderID)) = [] ∧
      l.filter (fun r => !decide (r.order_id = orderID)) = l := by
  constructor
  · rw [List.filter_eq_nil_iff]
    intro r hr
    simpa using h r hr
  · rw [List.filter_eq_self]
    intro r hr
    simpa using h r hr

/-- C10 fails as stated: on `storeReserved` every stock row has
`reserved ≥ 0` and the reservation of 2 more units for order 1 succeeds, but
the release that follows leaves `reserved = 0` on the row `(1, 7)`, not the 7
it held before the reservation, because order 1 already held a reservation row
of 7 units there. -/
theorem reserve_release_round_trip_counterexample :
    (∀ r ∈ storeReserved.warehouse_stock, 0 ≤ r.reserved) ∧
      storeReserved.warehouse_stock = [⟨1, 7, 10, 7⟩] ∧
      (ReserveStockForOrder 0 storeReserved 1 [⟨7, 2⟩]).err = none ∧
      (ReserveStockForOrder 0 storeReserved 1 [⟨7, 2⟩]).db.warehouse_stock = [⟨1, 7, 10, 9⟩] ∧
      (ReleaseReservationByOrderID (ReserveStockForOrder 0 storeReserved 1 [⟨7, 2⟩]).db
        1).db.warehouse_stock = [⟨1, 7, 10, 0⟩] := by
  refine ⟨by decide, rfl, ?_, ?_, ?_⟩ <;> decide

/-- C10, amended: when every stock row has `reserved ≥ 0`, the items have
positive quantities, the order holds no reservation row before the call and
the reservation succeeds, then the release of the same order that follows
returns no error and restores the whole stock table (every `reserved` back to
its value, every `quantity` unchanged) and the reservation table, which holds
no row of the order. -/
theorem reserve_release_round_trip (now : Int) (db : DB) (orderID : Int)
    (items : List CheckoutItem)
    (hnn : ∀ r ∈ db.warehouse_stock, 0 ≤ r.reserved)
    (hpos : ∀ it ∈ items, 0 < it.Qty)
    (hfresh : ∀ res ∈ db.reservations, res.order_id ≠ orderID)
    (hok : (ReserveStockForOrder now db orderID items).err = none) :
    (ReleaseReservationByOrderID (ReserveStockForOrder now db orderID items).db orderID).err
      = none ∧
    (ReleaseReservationByOrderID (ReserveStockForOrder now db orderID items).db
      orderID).db.warehouse_stock = db.warehouse_stock ∧
    (ReleaseReservationByOrderID (ReserveStockForOrder now db orderID items).db
      orderID).db.reservations = db.reservations ∧
    (∀ res ∈ (ReleaseReservationByOrderID (ReserveStockForOrder now db orderID items).db
      orderID).db.reservations, res.order_id ≠ orderID) := by
  rw [ReserveStockForOrder_err] at hok
  rw [ReserveStockForOrder_db_ok now db orderID items hok]
  obtain ⟨ws, _, hres, hstock, _, _, _⟩ := reserveItems_effect now orderID db items hok
  obtain ⟨hrel, hdel, _, _, _⟩ :=
    Release_tables (reserveItems now orderID db items).tx orderID
  have hrows := filter_order_all (reservationRows now orderID items ws) orderID
    (reservationRows_order now orderID items ws)
  have hold := filter_order_none db.reservations orderID hfresh
  have hsel : selectReservations (reserveItems now orderID db items).tx orderID =
      (reservationRows now orderID items ws).map Reservation.toItem := by
    rw [selectReservations_eq, hres, List.filter_append, hold.1, hrows.1, List.nil_append]
  have hq := reservationRows_items_nonneg now orderID items ws
    (fun it hit => le_of_lt (hpos it hit))
  have hresback : (ReleaseReservationByOrderID (reserveItems now orderID db items).tx
      orderID).db.reservations = db.reservations := by
    rw [hdel, hres, List.filter_append, hold.2, hrows.2, List.append_nil]
  refine ⟨rfl, ?_, hresback, ?_⟩
  · rw [hrel, hsel, hstock, List.map_map]
    have hid : ∀ r ∈ db.warehouse_stock,
        (releasedRow ((reservationRows now orderID items ws).map Reservation.toItem) ∘
          bookedRow ((reservationRows now orderID items ws).map Reservation.toItem)) r = id r := by
      intro r hr
      have h0 := hnn r hr
      simp only [Function.comp, releasedRow, bookedRow, id]
      rw [releasedTo_exact _ _ _ _ hq (by omega)]
      have : r.reserved +
          itemQty ((reservationRows now orderID items ws).map Reservation.toItem)
            r.warehouse_id r.product_id -
          itemQty ((reservationRows now orderID items ws).map Reservation.toItem)
            r.warehouse_id r.product_id = r.reserved := by omega
      rw [this]
    rw [List.map_congr_left hid, List.map_id]
  · rw [hresback]
    exact hfresh

/-- Witness of C10 (amended): order 2 reserves 2 units on `storeReserved`,
where it holds no reservation row, and is released. -/
theorem reserve_release_round_trip_witness :
    (ReleaseReservationByOrderID (ReserveStockForOrder 0 storeReserved 2 [⟨7, 2⟩]).db 2).err
      = none ∧
    (ReleaseReservationByOrderID (ReserveStockForOrder 0 storeReserved 2 [⟨7, 2⟩]).db
      2).db.warehouse_stock = storeReserved.warehouse_stock ∧
    (ReleaseReservationByOrderID (ReserveStockForOrder 0 storeReserved 2 [⟨7, 2⟩]).db
      2).db.reservations = storeReserved.reservations ∧
    (∀ res ∈ (ReleaseReservationByOrderID (ReserveStockForOrder 0 storeReserved 2 [⟨7, 2⟩]).db
      2).db.reservations, res.order_id ≠ 2) :=
  reserve_release_round_trip 0 storeReserved 2 [⟨7, 2⟩] (by decide) (by decide) (by decide)
    (by decide)

/-! ## Claims on `ReleaseReservationByOrderID` -/

theorem releasedTo_nonneg (items : List ReservationItem) (w p r : Int) (hr : 0 ≤ r) :
    0 ≤ releasedTo items w p r := by
  induction items generalizing r with
  | nil => simpa [releasedTo] using hr
  | cons it rest ih =>
    simp only [releasedTo]
    by_cases hk : it.ProductID = p ∧ it.WarehouseID = w
    · rw [if_pos hk]; exact ih _ (le_max_right _ _)
    · rw [if_neg hk]; exact ih _ hr

theorem releasedTo_nonneg_of_named (items : List ReservationItem) (w p r : Int)
    (h : ∃ it ∈ items, it.ProductID = p ∧ it.WarehouseID = w) :
    0 ≤ releasedTo items w p r := by
  induction items generalizing r with
  | nil => obtain ⟨it, hit, _⟩ := h; simp at hit
  | cons it rest ih =>
    simp only [releasedTo]
    by_cases hk : it.ProductID = p ∧ it.WarehouseID = w
    · rw [if_pos hk]; exact releasedTo_nonneg rest w p _ (le_max_right _ _)
    · rw [if_neg hk]
      obtain ⟨it2, hit2, hk2⟩ := h
      rcases List.mem_cons.1 hit2 with rfl | hmem
      · exact absurd hk2 hk
      · exact ih _ ⟨it2, hmem, hk2⟩

theorem selectReservations_nil (db : DB) (orderID : Int)
    (h : ∀ res ∈ db.reservations, res.order_id ≠ orderID) :
    selectReservations db orderID = [] := by
  rw [selectReservations_eq, (filter_order_none db.reservations orderID h).1]
  rfl

/-- Releasing an order that holds no reservation row changes nothing. -/
theorem Release_of_no_rows (db : DB) (orderID : Int)
    (h : ∀ res ∈ db.reservations, res.order_id ≠ orderID) :
    (ReleaseReservationByOrderID db orderID).db = db := by
  simp only [ReleaseReservationByOrderID, selectReservations_nil db orderID h, releaseItems,
    deleteReservations, (filter_order_none db.reservations orderID h).2]

theorem Release_leaves_none (db : DB) (orderID : Int) :
    ∀ res ∈ (ReleaseReservationByOrderID db orderID).db.reservations,
      res.order_id ≠ orderID := by
  intro res hres
  rw [(Release_tables db orderID).2.1] at hres
  simpa using (List.mem_filter.1 hres).2

/-- C11: release is idempotent.  For every store and order id the call returns
no error, a second call right after it returns no error either, and the store
after the second call is the store after the first. -/
theorem release_idempotent (db : DB) (orderID : Int) :
    (ReleaseReservationByOrderID db orderID).err = none ∧
    (ReleaseReservationByOrderID (ReleaseReservationByOrderID db orderID).db orderID).err
      = none ∧
    (ReleaseReservationByOrderID (ReleaseReservationByOrderID db orderID).db orderID).db =
      (ReleaseReservationByOrderID db orderID).db :=
  ⟨rfl, rfl, Release_of_no_rows _ orderID (Release_leaves_none db orderID)⟩

/-- C12: the release lowers `reserved` with a clamp at 0, row by row.  The call
returns no error; each stock row ends with `releasedTo` of the order's items,
which processes the items in order and, for an item that names the row, takes
`reserved` to `max (reserved - qty) 0`; a row named by some item of the order
ends with `reserved ≥ 0`; no `quantity` and no key changes; the reservation
rows of the order are deleted and those of other orders kept; and when the
order holds no reservation row the store is unchanged. -/
theorem release_effect (db : DB) (orderID : Int) :
    (ReleaseReservationByOrderID db orderID).err = none ∧
    (ReleaseReservationByOrderID db orderID).db.warehouse_stock =
      db.warehouse_stock.map (releasedRow (selectReservations db orderID)) ∧
    (∀ (it : ReservationItem) (rest : List ReservationItem) (w p r : Int),
      releasedTo (it :: rest) w p r =
        releasedTo rest w p
          (if it.ProductID = p ∧ it.WarehouseID = w then max (r - it.Qty) 0 else r)) ∧
    (∀ r : WarehouseStock,
      (∃ res ∈ db.reservations, res.order_id = orderID ∧
        res.warehouse_id = r.warehouse_id ∧ res.product_id = r.product_id) →
      0 ≤ (releasedRow (selectReservations db orderID) r).reserved) ∧
    (∀ r : WarehouseStock,
      (releasedRow (selectReservations db orderID) r).quantity = r.quantity ∧
      (releasedRow (selectReservations db orderID) r).warehouse_id = r.warehouse_id ∧
      (releasedRow (selectReservations db orderID) r).product_id = r.product_id) ∧
    (ReleaseReservationByOrderID db orderID).db.reservations =
      db.reservations.filter (fun res => !decide (res.order_id = orderID)) ∧
    (∀ res ∈ (ReleaseReservationByOrderID db orderID).db.reservations,
      res.order_id ≠ orderID) ∧
    ((∀ res ∈ db.reservations, res.order_id ≠ orderID) →
      (ReleaseReservationByOrderID db orderID).db = db) := by
  obtain ⟨hstock, hres, _, _, _⟩ := Release_tables db orderID
  refine ⟨rfl, hstock, fun _ _ _ _ _ => rfl, ?_, fun _ => ⟨rfl, rfl, rfl⟩, hres,
    Release_leaves_none db orderID, Release_of_no_rows db orderID⟩
  intro r ⟨res, hmem, hord, hw, hp⟩
  simp only [releasedRow]
  apply releasedTo_nonneg_of_named
  refine ⟨res.toItem, ?_, hp, hw⟩
  rw [selectReservations_eq]
  exact List.mem_map_of_mem _ (List.mem_filter.2 ⟨hmem, by simpa using hord⟩)

/-- Witness of C12: order 1 is released on `storeReserved`; the row `(1, 7)`
goes from `reserved = 7` to `max (7 - 7) 0 = 0` and keeps `quantity = 10`;
order 2, which holds no row, leaves the store unchanged. -/
theorem release_effect_witness :
    (ReleaseReservationByOrderID storeReserved 1).db.warehouse_stock = [⟨1, 7, 10, 0⟩] ∧
      (ReleaseReservationByOrderID storeReserved 1).db.reservations = [] ∧
      (ReleaseReservationByOrderID storeReserved 2).db = storeReserved := by
  have h1 := release_effect storeReserved 1
  have h2 := release_effect storeReserved 2
  refine ⟨?_, ?_, h2.2.2.2.2.2.2.2 (by decide)⟩
  · rw [h1.2.1]; decide
  · rw [h1.2.2.2.2.2.1]; decide

/-! ## Claims on the transfer -/

theorem selectStock_some (db : DB) (w p : Int) (r : WarehouseStock)
    (h : selectStock db w p = some r) :
    r ∈ db.warehouse_stock ∧ r.warehouse_id = w ∧ r.product_id = p := by
  refine ⟨List.mem_of_find?_eq_some h, ?_⟩
  have := List.find?_some h
  simpa using this

theorem selectStock_none (db : DB) (w p : Int) :
    selectStock db w p = none ↔
      ∀ r ∈ db.warehouse_stock, ¬ (r.warehouse_id = w ∧ r.product_id = p) := by
  unfold selectStock
  rw [List.find?_eq_none]
  simp

theorem ensure_of_present (tx : DB) (w p : Int)
    (h : ∃ r ∈ tx.warehouse_stock, r.warehouse_id = w ∧ r.product_id = p) :
    ensureStockRowExists tx w p = tx := by
  unfold ensureStockRowExists
  rw [if_pos]
  rw [List.any_eq_true]
  obtain ⟨r, hr, h1, h2⟩ := h
  exact ⟨r, hr, by simp [h1, h2]⟩

theorem ensure_of_absent (tx : DB) (w p : Int)
    (h : ∀ r ∈ tx.warehouse_stock, ¬ (r.warehouse_id = w ∧ r.product_id = p)) :
    ensureStockRowExists tx w p =
      { tx with warehouse_stock := tx.warehouse_stock ++
          [{ warehouse_id := w, product_id := p, quantity := 0, reserved := 0 }] } := by
  unfold ensureStockRowExists
  rw [if_neg]
  intro hany
  rw [List.any_eq_true] at hany
  obtain ⟨r, hr, hk⟩ := hany
  simp only [Bool.and_eq_true, decide_eq_true_eq] at hk
  exact h r hr hk

theorem ensure_has_row (tx : DB) (w p : Int) :
    ∃ r ∈ (ensureStockRowExists tx w p).warehouse_stock,
      r.warehouse_id = w ∧ r.product_id = p := by
  by_cases h : ∃ r ∈ tx.warehouse_stock, r.warehouse_id = w ∧ r.product_id = p
  · rw [ensure_of_present tx w p h]; exact h
  · have h2 : ∀ r ∈ tx.warehouse_stock, ¬ (r.warehouse_id = w ∧ r.product_id = p) :=
      fun r hr hk => h ⟨r, hr, hk⟩
    rw [ensure_of_absent tx w p h2]
    exact ⟨⟨w, p, 0, 0⟩, by simp, rfl, rfl⟩

theorem ensure_tables (tx : DB) (w p : Int) :
    (ensureStockRowExists tx w p).warehouses = tx.warehouses ∧
      (ensureStockRowExists tx w p).products = tx.products ∧
      (ensureStockRowExists tx w p).reservations = tx.reservations ∧
      (ensureStockRowExists tx w p).orders = tx.orders := by
  unfold ensureStockRowExists
  split <;> exact ⟨rfl, rfl, rfl, rfl⟩

/-- Ensuring the row of another warehouse does not change what the source
lookup returns. -/
theorem selectStock_ensure_ne (tx : DB) (f t p : Int) (hft : f ≠ t) :
    selectStock (ensureStockRowExists tx t p) f p = selectStock tx f p := by
  by_cases h : ∃ r ∈ tx.warehouse_stock, r.warehouse_id = t ∧ r.product_id = p
  · rw [ensure_of_present tx t p h]
  · have h2 : ∀ r ∈ tx.warehouse_stock, ¬ (r.warehouse_id = t ∧ r.product_id = p) :=
      fun r hr hk => h ⟨r, hr, hk⟩
    rw [ensure_of_absent tx t p h2]
    unfold selectStock
    simp only [List.find?_append]
    cases hfind : tx.warehouse_stock.find?
        (fun r => decide (r.warehouse_id = f) && decide (r.product_id = p)) with
    | some r => simp
    | none =>
      have hne : ¬ t = f := fun hh => hft hh.symm
      simp [List.find?, hne]

theorem selectStock_ensure_self (tx : DB) (t p : Int) :
    ∃ dst, selectStock (ensureStockRowExists tx t p) t p = some dst := by
  cases h : selectStock (ensureStockRowExists tx t p) t p with
  | some dst => exact ⟨dst, rfl⟩
  | none =>
    obtain ⟨r, hr, hk⟩ := ensure_has_row tx t p
    exact absurd hk ((selectStock_none _ t p).1 h r hr)

/-- The outcome of `TransferStock` once both validations have passed, by what
the source lookup returns. -/
theorem TransferStock_valid (tx : DB) (f t p qty : Int) (hft : f ≠ t) (hq : 0 < qty) :
    TransferStock tx f t p qty =
      match selectStock tx f p with
      | none =>
        { tx := ensureStockRowExists tx t p,
          log := [Stmt.insertStockRow t p, Stmt.selectStockForUpdate f p],
          err := some "source_stock_not_found" }
      | some src =>
        if wrap64 (src.quantity - src.reserved) < qty then
          { tx := ensureStockRowExists tx t p,
            log := [Stmt.insertStockRow t p, Stmt.selectStockForUpdate f p],
            err := some (notEnoughError (wrap64 (src.quantity - src.reserved))) }
        else
          { tx := updateQuantityAdd
              (updateQuantitySub (ensureStockRowExists tx t p) qty f p) qty t p,
            log := [Stmt.insertStockRow t p, Stmt.selectStockForUpdate f p,
                    Stmt.selectStockForUpdate t p, Stmt.updateQuantitySub qty f p,
                    Stmt.updateQuantityAdd qty t p],
            err := none } := by
  have hq2 : ¬ qty ≤ 0 := by omega
  obtain ⟨dst, hdst⟩ := selectStock_ensure_self tx t p
  unfold TransferStock
  simp only [if_neg hft, if_neg hq2, selectStock_ensure_ne tx f t p hft]
  cases hsrc : selectStock tx f p with
  | none => rfl
  | some src =>
    simp only
    by_cases hav : wrap64 (src.quantity - src.reserved) < qty
    · simp only [if_pos hav]
    · simp only [if_neg hav, hdst]
      rfl

theorem moved_eq (f t p qty : Int) (hft : f ≠ t) (l : List WarehouseStock) :
    (l.map (fun r => if r.warehouse_id = f ∧ r.product_id = p
        then { r with quantity := r.quantity - qty } else r)).map
      (fun r => if r.warehouse_id = t ∧ r.product_id = p
        then { r with quantity := r.quantity + qty } else r) =
      l.map (movedRow f t p qty) := by
  rw [List.map_map]
  apply List.map_congr_left
  intro r _
  simp only [Function.comp, movedRow]
  by_cases hk : r.warehouse_id = f ∧ r.product_id = p
  · have hk2 : ¬ (r.warehouse_id = t ∧ r.product_id = p) :=
      fun hh => hft (hk.1.symm.trans hh.1)
    rw [if_pos hk, if_pos hk]
    dsimp only
    rw [if_neg hk2]
  · rw [if_neg hk, if_neg hk]

theorem CheckWarehouseActive_true (db : DB) (w : Int) :
    (CheckWarehouseActive db w).1 = true ↔ warehouseActive db w := by
  unfold CheckWarehouseActive warehouseActive
  cases h : db.warehouses.find? (fun x => decide (x.id = w)) with
  | none => simp
  | some wh => simp

/-- Either `TransferHandler` rejects the request and leaves the store as it
was, or every check passed and it committed the transfer. -/
theorem TransferHandler_outcome (db : DB) (req : TransferReq) :
    ((TransferHandler db (some req)).1 = db ∧ (TransferHandler db (some req)).2.status ≠ 200) ∨
    (req.ProductID ≠ 0 ∧ req.FromWarehouse ≠ 0 ∧ req.ToWarehouse ≠ 0 ∧ 0 < req.Quantity ∧
      (CheckWarehouseActive db req.FromWarehouse).1 = true ∧
      (CheckWarehouseActive db req.ToWarehouse).1 = true ∧
      (TransferStock db req.FromWarehouse req.ToWarehouse req.ProductID req.Quantity).err
        = none ∧
      TransferHandler db (some req) =
        ((TransferStock db req.FromWarehouse req.ToWarehouse req.ProductID req.Quantity).tx,
          { status := 200, error := none })) := by
  simp only [TransferHandler]
  by_cases h1 : req.ProductID = 0 ∨ req.FromWarehouse = 0 ∨ req.ToWarehouse = 0 ∨
      req.Quantity ≤ 0
  · left; rw [if_pos h1]; exact ⟨rfl, by simp⟩
  rw [if_neg h1]
  by_cases h2 : (CheckWarehouseActive db req.FromWarehouse).2 ≠ none
  · left; rw [if_pos h2]; exact ⟨rfl, by simp⟩
  rw [if_neg h2]
  by_cases h3 : (CheckWarehouseActive db req.FromWarehouse).1 = false
  · left; rw [if_pos h3]; exact ⟨rfl, by simp⟩
  rw [if_neg h3]
  by_cases h4 : (CheckWarehouseActive db req.ToWarehouse).2 ≠ none
  · left; rw [if_pos h4]; exact ⟨rfl, by simp⟩
  rw [if_neg h4]
  by_cases h5 : (CheckWarehouseActive db req.ToWarehouse).1 = false
  · left; rw [if_pos h5]; exact ⟨rfl, by simp⟩
  rw [if_neg h5]
  by_cases h6 : (GetAvailableStock db req.FromWarehouse req.ProductID).2 ≠ none
  · left; rw [if_pos h6]; exact ⟨rfl, by simp⟩
  rw [if_neg h6]
  by_cases h7 : (GetAvailableStock db req.FromWarehouse req.ProductID).1 < req.Quantity
  · left; rw [if_pos h7]; exact ⟨rfl, by simp⟩
  rw [if_neg h7]
  cases herr : (TransferStock db req.FromWarehouse req.ToWarehouse req.ProductID
      req.Quantity).err with
  | some e => left; exact ⟨rfl, by simp⟩
  | none =>
    right
    simp only [not_or, not_le] at h1
    refine ⟨h1.1, h1.2.1, h1.2.2.1, h1.2.2.2, by simpa using h3, by simpa using h5, rfl, rfl⟩

/-- C14: when `TransferStock` returns no error, a source row `(from, p)` exists;
the stock table is the table with the destination row ensured, in which every
source row has lost exactly `qty` of `quantity`, every destination row has
gained exactly `qty`, and every other row is unchanged; `reserved` is unchanged
on every row; if no destination row existed before the call, the table is the
old one with the source rows lowered, followed by the new row
`(to, p, quantity = qty, reserved = 0)`; the other tables are untouched. -/
theorem transfer_success_effect (tx : DB) (f t p qty : Int)
    (h : (TransferStock tx f t p qty).err = none) :
    (∃ src ∈ tx.warehouse_stock, src.warehouse_id = f ∧ src.product_id = p) ∧
    (TransferStock tx f t p qty).tx.warehouse_stock =
      (ensureStockRowExists tx t p).warehouse_stock.map (movedRow f t p qty) ∧
    (∀ r : WarehouseStock, r.warehouse_id = f → r.product_id = p →
      movedRow f t p qty r = { r with quantity := r.quantity - qty }) ∧
    (∀ r : WarehouseStock, r.warehouse_id = t → r.product_id = p →
      movedRow f t p qty r = { r with quantity := r.quantity + qty }) ∧
    (∀ r : WarehouseStock, ¬ (r.warehouse_id = f ∧ r.product_id = p) →
      ¬ (r.warehouse_id = t ∧ r.product_id = p) → movedRow f t p qty r = r) ∧
    (∀ r : WarehouseStock, (movedRow f t p qty r).reserved = r.reserved) ∧
    ((∃ r ∈ tx.warehouse_stock, r.warehouse_id = t ∧ r.product_id = p) →
      (TransferStock tx f t p qty).tx.warehouse_stock =
        tx.warehouse_stock.map (movedRow f t p qty)) ∧
    ((∀ r ∈ tx.warehouse_stock, ¬ (r.warehouse_id = t ∧ r.product_id = p)) →
      (TransferStock tx f t p qty).tx.warehouse_stock =
        tx.warehouse_stock.map (movedRow f t p qty) ++
          [{ warehouse_id := t, product_id := p, quantity := qty, reserved := 0 }]) ∧
    (TransferStock tx f t p qty).tx.warehouses = tx.warehouses ∧
    (TransferStock tx f t p qty).tx.products = tx.products ∧
    (TransferStock tx f t p qty).tx.reservations = tx.reservations ∧
    (TransferStock tx f t p qty).tx.orders = tx.orders := by
  obtain ⟨hft, hq, src, hsrc, _, htx⟩ := TransferStock_ok tx f t p qty h
  rw [selectStock_ensure_ne tx f t p hft] at hsrc
  obtain ⟨hmem, hw, hp⟩ := selectStock_some tx f p src hsrc
  obtain ⟨e1, e2, e3, e4⟩ := ensure_tables tx t p
  have hstock : (TransferStock tx f t p qty).tx.warehouse_stock =
      (ensureStockRowExists tx t p).warehouse_stock.map (movedRow f t p qty) := by
    rw [htx]
    simp only [updateQuantityAdd, updateQuantitySub]
    exact moved_eq f t p qty hft _
  have hne : ∀ r : WarehouseStock, r.warehouse_id = t → ¬ (r.warehouse_id = f ∧ r.product_id = p) :=
    fun r hr hh => hft (hh.1.symm.trans hr)
  refine ⟨⟨src, hmem, hw, hp⟩, hstock, ?_, ?_, ?_, ?_, ?_, ?_, ?_, ?_, ?_, ?_⟩
  · intro r hw hp
    simp only [movedRow]
    rw [if_pos ⟨hw, hp⟩]
  · intro r hw hp
    simp only [movedRow]
    rw [if_neg (hne r hw), if_pos ⟨hw, hp⟩]
  · intro r h1 h2
    simp only [movedRow]
    rw [if_neg h1, if_neg h2]
  · intro r
    simp only [movedRow]
    split
    · rfl
    · split <;> rfl
  · intro hex
    rw [hstock, ensure_of_present tx t p hex]
  · intro hno
    rw [hstock, ensure_of_absent tx t p hno]
    simp only [List.map_append, List.map_cons, List.map_nil]
    congr 1
    have htf : ¬ t = f := fun hh => hft hh.symm
    simp [movedRow, htf]
  · rw [htx]; exact e1
  · rw [htx]; exact e2
  · rw [htx]; exact e3
  · rw [htx]; exact e4

/-- Witness of C14: one unit of product 7 moves from warehouse 2 to warehouse 1
on `storeTwo`. -/
theorem transfer_success_effect_witness :
    (TransferStock storeTwo 2 1 7 1).tx.warehouse_stock = [⟨1, 7, 11, 8⟩, ⟨2, 7, 3, 0⟩] := by
  have h := transfer_success_effect storeTwo 2 1 7 1 (by decide)
  rw [h.2.1]
  decide

/-- C15: a call of `TransferStock` with `from = to`, or else with `qty ≤ 0`,
returns the validation error named for its case without issuing any statement
and with the transaction untouched; the transaction around it commits nothing,
and `TransferHandler` answers such a request with a rejection and leaves the
store unchanged. -/
theorem transfer_validation (tx : DB) (f t p qty : Int) :
    (f = t → TransferStock tx f t p qty =
      { tx := tx, log := [], err := some "from and to warehouse must be different" }) ∧
    (f ≠ t → qty ≤ 0 → TransferStock tx f t p qty =
      { tx := tx, log := [], err := some "quantity must be > 0" }) ∧
    ((f = t ∨ qty ≤ 0) →
      (transferTx tx f t p qty).db = tx ∧ (transferTx tx f t p qty).log = [] ∧
      (transferTx tx f t p qty).err ≠ none ∧
      (TransferHandler tx (some ⟨p, f, t, qty⟩)).1 = tx ∧
      (TransferHandler tx (some ⟨p, f, t, qty⟩)).2.status ≠ 200) := by
  have h1 : f = t → TransferStock tx f t p qty =
      { tx := tx, log := [], err := some "from and to warehouse must be different" } := by
    intro hft
    unfold TransferStock
    rw [if_pos hft]
  have h2 : f ≠ t → qty ≤ 0 → TransferStock tx f t p qty =
      { tx := tx, log := [], err := some "quantity must be > 0" } := by
    intro hft hq
    unfold TransferStock
    rw [if_neg hft, if_pos hq]
  refine ⟨h1, h2, ?_⟩
  intro hbad
  have herr : (TransferStock tx f t p qty).err ≠ none ∧ (TransferStock tx f t p qty).log = [] := by
    by_cases hft : f = t
    · rw [h1 hft]; exact ⟨by simp, rfl⟩
    · rcases hbad with hft2 | hq
      · exact absurd hft2 hft
      · rw [h2 hft hq]; exact ⟨by simp, rfl⟩
  have hlog : (transferTx tx f t p qty).log = (TransferStock tx f t p qty).log := by
    unfold transferTx
    cases h : (TransferStock tx f t p qty).err <;> simp [h]
  have herr2 : (transferTx tx f t p qty).err = (TransferStock tx f t p qty).err := by
    unfold transferTx
    cases h : (TransferStock tx f t p qty).err <;> simp [h]
  refine ⟨transferTx_db_err tx f t p qty herr.1, by rw [hlog]; exact herr.2,
    by rw [herr2]; exact herr.1, ?_⟩
  rcases TransferHandler_outcome tx ⟨p, f, t, qty⟩ with hrej | hok
  · exact hrej
  · exact absurd hok.2.2.2.2.2.2.1 herr.1

/-- Witness of C15: warehouse 1 to warehouse 1, and a quantity of 0, on
`storeTwo`. -/
theorem transfer_validation_witness :
    TransferStock storeTwo 1 1 7 4 =
      { tx := storeTwo, log := [], err := some "from and to warehouse must be different" } ∧
    TransferStock storeTwo 1 2 7 0 =
      { tx := storeTwo, log := [], err := some "quantity must be > 0" } ∧
    (transferTx storeTwo 1 2 7 0).db = storeTwo :=
  ⟨(transfer_validation storeTwo 1 1 7 4).1 rfl,
   (transfer_validation storeTwo 1 2 7 0).2.1 (by decide) (by decide),
   ((transfer_validation storeTwo 1 2 7 0).2.2 (Or.inr (by decide))).1⟩

theorem transferTx_err (db : DB) (f t p qty : Int) :
    (transferTx db f t p qty).err = (TransferStock db f t p qty).err := by
  unfold transferTx
  cases h : (TransferStock db f t p qty).err <;> simp [h]

theorem CheckWarehouseActive_of_active (db : DB) (w : Int) (h : warehouseActive db w) :
    CheckWarehouseActive db w = (true, none) := by
  obtain ⟨wh, hfind, hact⟩ := h
  unfold CheckWarehouseActive
  rw [hfind, ← hact]

theorem GetAvailableStock_of_row (db : DB) (w p : Int) (r : WarehouseStock)
    (h : selectStock db w p = some r) :
    GetAvailableStock db w p =
      (if wrap64 (r.quantity - r.reserved) < 0 then 0 else wrap64 (r.quantity - r.reserved),
        none) := by
  unfold GetAvailableStock
  rw [h]

/-- C16 fails as stated: on `storeWide` the source row of product 7 holds
`quantity - reserved = 2 ^ 63 ≥ 1`, but the difference is taken on `int` and
wraps to `-2 ^ 63`, so the transfer of one unit fails with the
insufficient-stock error; the source row of product 8 holds
`quantity - reserved = -2 ^ 63 - 1 < 1`, which wraps to `2 ^ 63 - 1`, and the
transfer of one unit returns no error and moves the unit. -/
theorem transfer_insufficient_counterexample :
    selectStock storeWide 1 7 = some ⟨1, 7, 9223372036854775807, -1⟩ ∧
      (1 : Int) ≤ 9223372036854775807 - (-1) ∧
      wrap64 (9223372036854775807 - (-1)) = -9223372036854775808 ∧
      (transferTx storeWide 1 2 7 1).err =
        some (notEnoughError (wrap64 (9223372036854775807 - (-1)))) ∧
      selectStock storeWide 1 8 = some ⟨1, 8, -2, 9223372036854775807⟩ ∧
      (-2 : Int) - 9223372036854775807 < 1 ∧
      (transferTx storeWide 1 2 8 1).err = none ∧
      (transferTx storeWide 1 2 8 1).db.warehouse_stock =
        [⟨1, 7, 9223372036854775807, -1⟩, ⟨1, 8, -3, 9223372036854775807⟩, ⟨2, 8, 1, 0⟩] := by
  refine ⟨by decide, by decide, by decide, ?_, by decide, by decide, by decide, by decide⟩
  rw [transferTx_err, TransferStock_valid storeWide 1 2 7 1 (by decide) (by decide)]
  have hsel : selectStock storeWide 1 7 = some ⟨1, 7, 9223372036854775807, -1⟩ := by decide
  rw [hsel]
  simp only
  rw [if_pos (by decide)]

/-- C16, amended: a transfer with `from ≠ to` and `qty > 0` whose source row
has `quantity - reserved` within the range of `int` and below `qty` fails with
the insufficient-stock error and the committed store is the store before the
call, so no quantity, no `reserved` and no row has changed; `TransferHandler`
rejects the request (with its own insufficient-stock message when both
warehouses are active) and leaves the store unchanged.  With
`quantity - reserved` within the range of `int` and at least `qty` on the
source row the transfer returns no error.  On `storeTwo` (warehouse 1 at
quantity 10, reserved 8) moving 4 units fails and the store is unchanged. -/
theorem transfer_insufficient (db : DB) (f t p qty : Int) (src : WarehouseStock)
    (hft : f ≠ t) (hq : 0 < qty) (hsrc : selectStock db f p = some src)
    (hrange : isInt64 (src.quantity - src.reserved)) :
    (src.quantity - src.reserved < qty →
      (transferTx db f t p qty).err = some (notEnoughError (src.quantity - src.reserved)) ∧
      (transferTx db f t p qty).db = db ∧
      (TransferHandler db (some ⟨p, f, t, qty⟩)).1 = db ∧
      (TransferHandler db (some ⟨p, f, t, qty⟩)).2.status ≠ 200 ∧
      (p ≠ 0 → f ≠ 0 → t ≠ 0 → warehouseActive db f → warehouseActive db t →
        (TransferHandler db (some ⟨p, f, t, qty⟩)).2 =
          { status := 400, error := some "not enough available stock in source warehouse" })) ∧
    (qty ≤ src.quantity - src.reserved → (transferTx db f t p qty).err = none) ∧
    ((transferTx storeTwo 1 2 7 4).err = some (notEnoughError 2) ∧
      (transferTx storeTwo 1 2 7 4).db = storeTwo) := by
  have hwrap := wrap64_of_range _ hrange
  have hvalid := TransferStock_valid db f t p qty hft hq
  rw [hsrc] at hvalid
  simp only [hwrap] at hvalid
  refine ⟨?_, ?_, by decide, by decide⟩
  · intro hlow
    rw [if_pos hlow] at hvalid
    have herr : (TransferStock db f t p qty).err =
        some (notEnoughError (src.quantity - src.reserved)) := by rw [hvalid]
    have hne : (TransferStock db f t p qty).err ≠ none := by rw [herr]; simp
    refine ⟨by rw [transferTx_err]; exact herr, transferTx_db_err db f t p qty hne, ?_⟩
    have hrej : (TransferHandler db (some ⟨p, f, t, qty⟩)).1 = db ∧
        (TransferHandler db (some ⟨p, f, t, qty⟩)).2.status ≠ 200 := by
      rcases TransferHandler_outcome db ⟨p, f, t, qty⟩ with h | h
      · exact h
      · exact absurd h.2.2.2.2.2.2.1 hne
    refine ⟨hrej.1, hrej.2, ?_⟩
    intro hp0 hf0 ht0 haf hat
    have hfields : ¬ (p = 0 ∨ f = 0 ∨ t = 0 ∨ qty ≤ 0) := by
      rintro (h | h | h | h)
      · exact hp0 h
      · exact hf0 h
      · exact ht0 h
      · omega
    have havail : (if src.quantity - src.reserved < 0 then 0
        else src.quantity - src.reserved) < qty := by
      split <;> omega
    simp only [TransferHandler, if_neg hfields, CheckWarehouseActive_of_active db f haf,
      CheckWarehouseActive_of_active db t hat, GetAvailableStock_of_row db f p src hsrc,
      hwrap, ne_eq, not_true_eq_false, if_false, Bool.true_eq_false, if_pos havail]
  · intro hok
    have hnot : ¬ src.quantity - src.reserved < qty := by omega
    rw [if_neg hnot] at hvalid
    rw [transferTx_err, hvalid]

/-- Witness of C16 (amended): the scenario of the specification on `storeTwo`,
through `TransferHandler`. -/
theorem transfer_insufficient_witness :
    (transferTx storeTwo 1 2 7 4).err = some (notEnoughError (10 - 8)) ∧
      (transferTx storeTwo 1 2 7 4).db = storeTwo ∧
      (TransferHandler storeTwo (some ⟨7, 1, 2, 4⟩)).1 = storeTwo ∧
      (TransferHandler storeTwo (some ⟨7, 1, 2, 4⟩)).2.status ≠ 200 :=
  ⟨((transfer_insufficient storeTwo 1 2 7 4 ⟨1, 7, 10, 8⟩ (by decide) (by decide)
      (by decide) (by unfold isInt64; decide)).1 (by decide)).1,
   ((transfer_insufficient storeTwo 1 2 7 4 ⟨1, 7, 10, 8⟩ (by decide) (by decide)
      (by decide) (by unfold isInt64; decide)).1 (by decide)).2.1,
   ((transfer_insufficient storeTwo 1 2 7 4 ⟨1, 7, 10, 8⟩ (by decide) (by decide)
      (by decide) (by unfold isInt64; decide)).1 (by decide)).2.2.1,
   ((transfer_insufficient storeTwo 1 2 7 4 ⟨1, 7, 10, 8⟩ (by decide) (by decide)
      (by decide) (by unfold isInt64; decide)).1 (by decide)).2.2.2.1⟩

/-- C17 fails as stated: moving one unit of product 7 from warehouse 2 to
warehouse 1 on `storeTwo` succeeds and locks the row of warehouse 2 before the
row of warehouse 1, the larger id first. -/
theorem transfer_lock_order_counterexample :
    (TransferStock storeTwo 2 1 7 1).err = none ∧
      lockOrder (TransferStock storeTwo 2 1 7 1).log = [2, 1] ∧
      ¬ (lockOrder (TransferStock storeTwo 2 1 7 1).log = [min 2 1, max 2 1]) := by
  refine ⟨by decide, by decide, by decide⟩

/-- C17, amended: a call of `TransferStock` that passes its validations locks
the source row first; it locks the destination row second, and then only,
when the source row exists and its available stock `quantity - reserved`, taken
on `int`, is at least `qty` (which is `quantity - reserved ≥ qty` whenever the
difference is within the range of `int`), and this is the case of every call
that returns no error.  The two locks are therefore taken in ascending
warehouse id exactly when `from < to`. -/
theorem transfer_lock_order (tx : DB) (f t p qty : Int) (hft : f ≠ t) (hq : 0 < qty) :
    (lockOrder (TransferStock tx f t p qty).log = [f] ∨
      lockOrder (TransferStock tx f t p qty).log = [f, t]) ∧
    ((TransferStock tx f t p qty).err = none →
      lockOrder (TransferStock tx f t p qty).log = [f, t]) ∧
    (lockOrder (TransferStock tx f t p qty).log = [f, t] →
      (lockOrder (TransferStock tx f t p qty).log = [min f t, max f t] ↔ f < t)) ∧
    (lockOrder (TransferStock tx f t p qty).log = [f, t] ↔
      ∃ src, selectStock tx f p = some src ∧ qty ≤ wrap64 (src.quantity - src.reserved)) ∧
    (∀ src, selectStock tx f p = some src → isInt64 (src.quantity - src.reserved) →
      (lockOrder (TransferStock tx f t p qty).log = [f, t] ↔
        qty ≤ src.quantity - src.reserved)) ∧
    ((∀ r ∈ tx.warehouse_stock, ¬ (r.warehouse_id = f ∧ r.product_id = p)) →
      lockOrder (TransferStock tx f t p qty).log = [f]) := by
  have hvalid := TransferStock_valid tx f t p qty hft hq
  have hlast : lockOrder (TransferStock tx f t p qty).log = [f, t] →
      (lockOrder (TransferStock tx f t p qty).log = [min f t, max f t] ↔ f < t) := by
    intro h2
    rw [h2]
    constructor
    · intro heq
      simp only [List.cons.injEq, and_true] at heq
      have h1 : f = min f t := heq.1
      have : f ≤ t := by rw [h1]; exact min_le_right _ _
      omega
    · intro hlt
      rw [min_eq_left (le_of_lt hlt), max_eq_right (le_of_lt hlt)]
  cases hsrc : selectStock tx f p with
  | none =>
    rw [hsrc] at hvalid
    simp only at hvalid
    have h1 : lockOrder (TransferStock tx f t p qty).log = [f] := by rw [hvalid]; rfl
    refine ⟨Or.inl h1, ?_, hlast, ?_, ?_, fun _ => h1⟩
    · intro herr
      rw [hvalid] at herr
      simp at herr
    · rw [h1]
      constructor
      · intro h; simp at h
      · rintro ⟨src, hs, _⟩; simp at hs
    · intro src hs; simp at hs
  | some src =>
    rw [hsrc] at hvalid
    simp only at hvalid
    have hnorow : (∀ r ∈ tx.warehouse_stock, ¬ (r.warehouse_id = f ∧ r.product_id = p)) →
        lockOrder (TransferStock tx f t p qty).log = [f] := by
      intro hno
      rw [(selectStock_none tx f p).2 hno] at hsrc
      simp at hsrc
    by_cases hav : wrap64 (src.quantity - src.reserved) < qty
    · rw [if_pos hav] at hvalid
      have h1 : lockOrder (TransferStock tx f t p qty).log = [f] := by rw [hvalid]; rfl
      refine ⟨Or.inl h1, ?_, hlast, ?_, ?_, hnorow⟩
      · intro herr
        rw [hvalid] at herr
        simp at herr
      · rw [h1]
        constructor
        · intro h; simp at h
        · rintro ⟨src2, hs, hle⟩
          simp only [Option.some.injEq] at hs
          subst hs
          omega
      · intro src2 hs hrange
        simp only [Option.some.injEq] at hs
        subst hs
        rw [wrap64_of_range _ hrange] at hav
        rw [h1]
        constructor
        · intro h; simp at h
        · intro hle; omega
    · rw [if_neg hav] at hvalid
      have h2 : lockOrder (TransferStock tx f t p qty).log = [f, t] := by rw [hvalid]; rfl
      refine ⟨Or.inr h2, fun _ => h2, hlast, ?_, ?_, hnorow⟩
      · constructor
        · intro _; exact ⟨src, rfl, by omega⟩
        · intro _; exact h2
      · intro src2 hs hrange
        simp only [Option.some.injEq] at hs
        subst hs
        rw [wrap64_of_range _ hrange] at hav
        constructor
        · intro _; omega
        · intro _; exact h2

/-- Witness of C17 (amended): the transfer from warehouse 2 to warehouse 1 on
`storeTwo` locks the source row, warehouse 2, first. -/
theorem transfer_lock_order_witness :
    lockOrder (TransferStock storeTwo 2 1 7 1).log = [2, 1] :=
  (transfer_lock_order storeTwo 2 1 7 1 (by decide) (by decide)).2.1 (by decide)

/-- C18: the transfer re-validates the warehouses itself.  `CheckWarehouseActive`
returns `true` exactly when the warehouse exists and is active, and
`(false, warehouse_not_found)` when no warehouse has the id; a request whose
source or destination is not an existing active warehouse is rejected by
`TransferHandler`, which leaves the whole store unchanged. -/
theorem transfer_revalidates_warehouses (db : DB) (req : TransferReq) :
    (∀ w, (CheckWarehouseActive db w).1 = true ↔ warehouseActive db w) ∧
    (∀ w, (∀ wh ∈ db.warehouses, wh.id ≠ w) →
      CheckWarehouseActive db w = (false, some "warehouse_not_found")) ∧
    (∀ w wh, db.warehouses.find? (fun x => decide (x.id = w)) = some wh →
      CheckWarehouseActive db w = (wh.active, none)) ∧
    (¬ (warehouseActive db req.FromWarehouse ∧ warehouseActive db req.ToWarehouse) →
      (TransferHandler db (some req)).1 = db ∧
        (TransferHandler db (some req)).2.status ≠ 200) := by
  refine ⟨CheckWarehouseActive_true db, ?_, ?_, ?_⟩
  · intro w h
    unfold CheckWarehouseActive
    have hf : db.warehouses.find? (fun x => decide (x.id = w)) = none := by
      rw [List.find?_eq_none]
      intro wh hwh
      simpa using h wh hwh
    rw [hf]
  · intro w wh h
    unfold CheckWarehouseActive
    rw [h]
  · intro hnot
    rcases TransferHandler_outcome db req with h | h
    · exact h
    · exact absurd ⟨(CheckWarehouseActive_true db _).1 h.2.2.2.2.1,
        (CheckWarehouseActive_true db _).1 h.2.2.2.2.2.1⟩ hnot

/-- Witness of C18: a transfer to warehouse 3, which does not exist, on
`storeTwo`. -/
theorem transfer_revalidates_warehouses_witness :
    CheckWarehouseActive storeTwo 3 = (false, some "warehouse_not_found") ∧
      (TransferHandler storeTwo (some ⟨7, 2, 3, 1⟩)).1 = storeTwo ∧
      (TransferHandler storeTwo (some ⟨7, 2, 3, 1⟩)).2.status ≠ 200 :=
  ⟨(transfer_revalidates_warehouses storeTwo ⟨7, 2, 3, 1⟩).2.1 3 (by decide),
   (transfer_revalidates_warehouses storeTwo ⟨7, 2, 3, 1⟩).2.2.2
     (by
      rintro ⟨_, wh, hfind, _⟩
      have hnone : storeTwo.warehouses.find? (fun x => decide (x.id = 3)) = none := by decide
      change storeTwo.warehouses.find? (fun x => decide (x.id = 3)) = some wh at hfind
      rw [hnone] at hfind
      exact Option.noConfusion hfind)⟩

/-! ## Concurrent reservations -/

/-- A single-item call is its lookup followed, when a warehouse was found, by
its writes. -/
theorem reserve_call_phases (now : Int) (db : DB) (orderID : Int) (item : CheckoutItem) :
    (∀ w, lookupPhase db item = some w →
      (ReserveStockForOrder now db orderID [item]).err = none ∧
        (ReserveStockForOrder now db orderID [item]).db = writePhase now db orderID item w) ∧
    (lookupPhase db item = none →
      (ReserveStockForOrder now db orderID [item]).err =
        some (noWarehouseError item.ProductID)) := by
  unfold lookupPhase
  cases hs : selectWarehouse db item.ProductID item.Qty with
  | none =>
    refine ⟨fun w hw => by simp at hw, fun _ => ?_⟩
    rw [ReserveStockForOrder_err, reserveItems_cons_none now orderID db item [] hs]
  | some row =>
    refine ⟨fun w hw => ?_, fun h => by simp at h⟩
    simp only [Option.map_some', Option.some.injEq] at hw
    subst hw
    exact ReserveStockForOrder_single now db orderID item row hs

/-- C19 (as the code behaves): on `storeFive`, one active row with
`quantity - reserved = 5`, ten single-unit calls scheduled so that every lookup
runs before the first write all succeed: no call fails and `reserved` ends at
10 on a row of quantity 5.  Run one after the other, the same ten calls give 5
successes, 5 failures and `reserved = 5`. -/
theorem concurrent_reserve_oversells :
    (lookupsThenWrites 0 storeFive tenCalls).succeeded = 10 ∧
    (lookupsThenWrites 0 storeFive tenCalls).failed = 0 ∧
    (lookupsThenWrites 0 storeFive tenCalls).db.warehouse_stock = [⟨1, 7, 5, 10⟩] ∧
    (oneAfterTheOther 0 ⟨storeFive, 0, 0⟩ tenCalls).succeeded = 5 ∧
    (oneAfterTheOther 0 ⟨storeFive, 0, 0⟩ tenCalls).failed = 5 ∧
    (oneAfterTheOther 0 ⟨storeFive, 0, 0⟩ tenCalls).db.warehouse_stock = [⟨1, 7, 5, 5⟩] := by
  refine ⟨by decide, by decide, by decide, by decide, by decide, by decide⟩

/-! ## Order status -/

theorem transferTx_tables (db : DB) (f t p qty : Int) :
    (transferTx db f t p qty).db.warehouses = db.warehouses ∧
      (transferTx db f t p qty).db.products = db.products ∧
      (transferTx db f t p qty).db.reservations = db.reservations ∧
      (transferTx db f t p qty).db.orders = db.orders := by
  cases herr : (TransferStock db f t p qty).err with
  | some e =>
    rw [transferTx_db_err db f t p qty (by rw [herr]; simp)]
    exact ⟨rfl, rfl, rfl, rfl⟩
  | none =>
    rw [transferTx_db_ok db f t p qty herr]
    obtain ⟨_, _, _, _, _, htx⟩ := TransferStock_ok db f t p qty herr
    rw [htx]
    exact ensure_tables db t p

theorem ReserveStockForOrder_orders (now : Int) (db : DB) (orderID : Int)
    (items : List CheckoutItem) :
    (ReserveStockForOrder now db orderID items).db.orders = db.orders := by
  cases h : (reserveItems now orderID db items).err with
  | none =>
    rw [ReserveStockForOrder_db_ok now db orderID items h]
    exact (reserveItems_effect now orderID db items h).choose_spec.2.2.2.2.2
  | some e =>
    rw [ReserveStockForOrder_db_err now db orderID items (by rw [h]; simp)]

theorem findOrder_some (db : DB) (orderID : Int) (o : Order)
    (h : findOrder db orderID = some o) : o ∈ db.orders ∧ o.id = orderID := by
  refine ⟨List.mem_of_find?_eq_some h, ?_⟩
  have := List.find?_some h
  simpa using this

/-- C20: order status changes only from `pending` to `paid`.  `CreateOrder`
appends the order with status `pending`; the reservation, the release and the
transfer (repository call and handler) leave the order table as it is; a
settlement of `orderID` changes, row by row, nothing or the row of that id from
`pending` to `paid` (order ids being unique); and a settlement that fails
leaves the store, hence every status, unchanged. -/
theorem order_status_transitions (db : DB) :
    (∀ newID userID total, (CreateOrder db newID userID total).1.orders =
      db.orders ++ [{ id := newID, user_id := userID, total_amount := total,
                      status := "pending" }]) ∧
    (∀ now orderID items, (ReserveStockForOrder now db orderID items).db.orders = db.orders) ∧
    (∀ orderID, (ReleaseReservationByOrderID db orderID).db.orders = db.orders) ∧
    (∀ f t p qty, (transferTx db f t p qty).db.orders = db.orders) ∧
    (∀ req, (TransferHandler db req).1.orders = db.orders) ∧
    (ordersKeyed db → ∀ userID req orderID, req = some orderID →
      List.Forall₂ (statusStep orderID) db.orders (PayHandler db userID req).1.orders) ∧
    (∀ userID req, (PayHandler db userID req).2.status ≠ 200 →
      (PayHandler db userID req).1 = db) := by
  refine ⟨fun _ _ _ => rfl, fun now => ReserveStockForOrder_orders now db, ?_, ?_, ?_, ?_,
    fun userID req => PayHandler_failed db userID req⟩
  · intro orderID
    exact (Release_tables db orderID).2.2.2.2
  · intro f t p qty
    exact (transferTx_tables db f t p qty).2.2.2
  · intro req
    cases req with
    | none => rfl
    | some req =>
      rcases TransferHandler_outcome db req with h | h
      · rw [h.1]
      · rw [h.2.2.2.2.2.2.2]
        have := transferTx_tables db req.FromWarehouse req.ToWarehouse req.ProductID req.Quantity
        rw [transferTx_db_ok db _ _ _ _ h.2.2.2.2.2.2.1] at this
        exact this.2.2.2
  · intro hkey userID req orderID hreq
    subst hreq
    by_cases hok : (PayHandler db userID (some orderID)).2.status = 200
    · by_cases h0 : orderID = 0
      · subst h0; rw [PayHandler_zero] at hok; simp at hok
      · have hcase := PayHandler_cases db userID orderID h0
        cases hf : findOrder db orderID with
        | none => rw [hf] at hcase; rw [hcase] at hok; simp at hok
        | some o =>
          rw [hf] at hcase
          by_cases hu : o.user_id = userID
          · by_cases hs : o.status = "pending"
            · simp only [hu, hs, ne_eq, not_true_eq_false, if_false] at hcase
              have hord : (PayHandler db userID (some orderID)).1.orders =
                  db.orders.map (fun x =>
                    if x.id = orderID then { x with status := "paid" } else x) := by
                rw [hcase]
                simp only [UpdateOrderPaid, ClearReservation, deleteReservations]
                rw [(ApplyStockPayment_effect db _).2.2.2.2]
              rw [hord, List.forall₂_map_right_iff, List.forall₂_same]
              intro x hx
              by_cases hk : x.id = orderID
              · obtain ⟨ho, hoid⟩ := findOrder_some db orderID o hf
                have hxo : x = o :=
                  List.inj_on_of_nodup_map hkey hx ho (by simp [hk, hoid])
                right
                rw [if_pos hk]
                exact ⟨hk, by rw [hxo]; exact hs, rfl⟩
              · left
                rw [if_neg hk]
            · simp only [hu, hs, ne_eq, not_true_eq_false, not_false_eq_true, if_false,
                if_true] at hcase
              rw [hcase] at hok
              simp at hok
          · simp only [hu, ne_eq, not_false_eq_true, if_true] at hcase
            rw [hcase] at hok
            simp at hok
    · rw [PayHandler_failed db userID (some orderID) hok, List.forall₂_same]
      intro x _
      exact Or.inl rfl

/-- Witness of C20: user 42 pays order 1 on `storeReserved`; the only order row
goes from `pending` to `paid`. -/
theorem order_status_transitions_witness :
    ordersKeyed storeReserved ∧
      List.Forall₂ (statusStep 1) storeReserved.orders
        (PayHandler storeReserved 42 (some 1)).1.orders ∧
      (PayHandler storeReserved 42 (some 1)).1.orders = [⟨1, 42, 490000000, "paid"⟩] :=
  ⟨by unfold ordersKeyed; decide,
   (order_status_transitions storeReserved).2.2.2.2.2.1 (by unfold ordersKeyed; decide)
     42 (some 1) 1 rfl,
   by decide⟩

/-! ## Total quantity of a product -/

theorem quantitySum_map_same (l : List WarehouseStock) (f : WarehouseStock → WarehouseStock)
    (p : Int) (h : ∀ r, (f r).product_id = r.product_id ∧ (f r).quantity = r.quantity) :
    quantitySum (l.map f) p = quantitySum l p := by
  induction l with
  | nil => rfl
  | cons r rs ih =>
    simp only [List.map_cons, quantitySum]
    rw [ih, (h r).1, (h r).2]

theorem quantitySum_append (a b : List WarehouseStock) (p : Int) :
    quantitySum (a ++ b) p = quantitySum a p + quantitySum b p := by
  induction a with
  | nil => simp [quantitySum]
  | cons r rs ih =>
    rw [List.cons_append]
    simp only [quantitySum]
    rw [ih]
    omega

theorem hitSum_none (l : List WarehouseStock) (w p q : Int)
    (h : ∀ r ∈ l, ¬ (r.warehouse_id = w ∧ r.product_id = p)) : hitSum l w p q = 0 := by
  induction l with
  | nil => rfl
  | cons r rs ih =>
    simp only [hitSum]
    rw [if_neg (h r (List.mem_cons_self _ _)),
      ih (fun x hx => h x (List.mem_cons_of_mem _ hx))]
    rfl

/-- On a keyed list, the rows with a given key that exists contribute once. -/
theorem hitSum_unique (l : List WarehouseStock) (w p q : Int)
    (hkey : (l.map (fun r => (r.warehouse_id, r.product_id))).Nodup)
    (hex : ∃ r ∈ l, r.warehouse_id = w ∧ r.product_id = p) : hitSum l w p q = q := by
  induction l with
  | nil => obtain ⟨r, hr, _⟩ := hex; simp at hr
  | cons r rs ih =>
    simp only [List.map_cons, List.nodup_cons] at hkey
    simp only [hitSum]
    by_cases hk : r.warehouse_id = w ∧ r.product_id = p
    · rw [if_pos hk]
      have hno : ∀ x ∈ rs, ¬ (x.warehouse_id = w ∧ x.product_id = p) := by
        intro x hx hxk
        apply hkey.1
        rw [List.mem_map]
        exact ⟨x, hx, by simp [hxk.1, hxk.2, hk.1, hk.2]⟩
      rw [hitSum_none rs w p q hno]
      omega
    · rw [if_neg hk]
      obtain ⟨x, hx, hxk⟩ := hex
      rcases List.mem_cons.1 hx with rfl | hmem
      · exact absurd hxk hk
      · rw [ih hkey.2 ⟨x, hmem, hxk⟩]
        omega

theorem hitSum_map_keys (l : List WarehouseStock) (f : WarehouseStock → WarehouseStock)
    (w p q : Int)
    (h : ∀ r, (f r).warehouse_id = r.warehouse_id ∧ (f r).product_id = r.product_id) :
    hitSum (l.map f) w p q = hitSum l w p q := by
  induction l with
  | nil => rfl
  | cons r rs ih =>
    simp only [List.map_cons, hitSum]
    rw [ih, (h r).1, (h r).2]

theorem quantitySum_paid (l : List WarehouseStock) (items : List ReservationItem) (p : Int) :
    quantitySum (l.map (paidRow items)) p = quantitySum l p - namedQty l items p := by
  induction l with
  | nil => rfl
  | cons r rs ih =>
    simp only [List.map_cons, quantitySum, namedQty, paidRow]
    rw [show quantitySum (List.map (paidRow items) rs) p =
      quantitySum rs p - namedQty rs items p from ih]
    split <;> omega

theorem namedQty_nil (l : List WarehouseStock) (p : Int) : namedQty l [] p = 0 := by
  induction l with
  | nil => rfl
  | cons r rs ih =>
    simp only [namedQty, itemQty]
    rw [ih]
    split <;> rfl

theorem namedQty_cons (l : List WarehouseStock) (it : ReservationItem)
    (rest : List ReservationItem) (p : Int) :
    namedQty l (it :: rest) p =
      (if it.ProductID = p then hitSum l it.WarehouseID it.ProductID it.Qty else 0) +
        namedQty l rest p := by
  induction l with
  | nil => simp [namedQty, hitSum]
  | cons r rs ih =>
    simp only [namedQty, hitSum, itemQty]
    rw [ih]
    by_cases hp : r.product_id = p
    · by_cases hk : it.WarehouseID = r.warehouse_id ∧ it.ProductID = r.product_id
      · have hk2 : r.warehouse_id = it.WarehouseID ∧ r.product_id = it.ProductID :=
          ⟨hk.1.symm, hk.2.symm⟩
        have hip : it.ProductID = p := by rw [hk.2, hp]
        rw [if_pos hp, if_pos hk, if_pos hk2, if_pos hip]
        omega
      · have hk2 : ¬ (r.warehouse_id = it.WarehouseID ∧ r.product_id = it.ProductID) :=
          fun hh => hk ⟨hh.1.symm, hh.2.symm⟩
        rw [if_pos hp, if_neg hk, if_neg hk2]
        split <;> omega
    · by_cases hk2 : r.warehouse_id = it.WarehouseID ∧ r.product_id = it.ProductID
      · have hip : ¬ it.ProductID = p := fun hh => hp (by rw [hk2.2, hh])
        rw [if_neg hp, if_pos hk2, if_neg hip, if_neg hip]
        omega
      · rw [if_neg hp, if_neg hk2]
        split <;> omega

/-- On a keyed table in which every item names a row, the quantity the rows of
product `p` lose is the total quantity of the items for `p`. -/
theorem namedQty_eq_itemTotal (l : List WarehouseStock) (items : List ReservationItem) (p : Int)
    (hkey : (l.map (fun r => (r.warehouse_id, r.product_id))).Nodup)
    (hnamed : ∀ it ∈ items, ∃ r ∈ l, r.warehouse_id = it.WarehouseID ∧
      r.product_id = it.ProductID) :
    namedQty l items p = itemTotal items p := by
  induction items with
  | nil => rw [namedQty_nil]; rfl
  | cons it rest ih =>
    rw [namedQty_cons, ih (fun x hx => hnamed x (List.mem_cons_of_mem _ hx)),
      hitSum_unique l _ _ _ hkey (hnamed it (List.mem_cons_self _ _))]
    rfl

theorem itemTotal_nonneg (items : List ReservationItem) (p : Int)
    (h : ∀ it ∈ items, 0 ≤ it.Qty) : 0 ≤ itemTotal items p := by
  induction items with
  | nil => simp [itemTotal]
  | cons x xs ih =>
    have hx := h x (List.mem_cons_self _ _)
    have hxs := ih (fun it hit => h it (List.mem_cons_of_mem _ hit))
    simp only [itemTotal]
    split <;> omega

theorem quantitySum_add (l : List WarehouseStock) (w p d p2 : Int) :
    quantitySum (l.map (fun r => if r.warehouse_id = w ∧ r.product_id = p
        then { r with quantity := r.quantity + d } else r)) p2 =
      quantitySum l p2 + (if p = p2 then hitSum l w p d else 0) := by
  induction l with
  | nil => simp [quantitySum, hitSum]
  | cons r rs ih =>
    simp only [List.map_cons, quantitySum, hitSum]
    rw [ih]
    by_cases hk : r.warehouse_id = w ∧ r.product_id = p
    · rw [if_pos hk, if_pos hk]
      dsimp only
      by_cases hp : p = p2
      · rw [if_pos hp, if_pos hp, if_pos (hk.2.trans hp)]
        omega
      · have hp2 : ¬ r.product_id = p2 := fun hh => hp (hk.2.symm.trans hh)
        rw [if_neg hp, if_neg hp, if_neg hp2]
        omega
    · rw [if_neg hk, if_neg hk]
      split <;> split <;> omega

theorem quantitySum_sub (l : List WarehouseStock) (w p d p2 : Int) :
    quantitySum (l.map (fun r => if r.warehouse_id = w ∧ r.product_id = p
        then { r with quantity := r.quantity - d } else r)) p2 =
      quantitySum l p2 - (if p = p2 then hitSum l w p d else 0) := by
  induction l with
  | nil => simp [quantitySum, hitSum]
  | cons r rs ih =>
    simp only [List.map_cons, quantitySum, hitSum]
    rw [ih]
    by_cases hk : r.warehouse_id = w ∧ r.product_id = p
    · rw [if_pos hk, if_pos hk]
      dsimp only
      by_cases hp : p = p2
      · rw [if_pos hp, if_pos hp, if_pos (hk.2.trans hp)]
        omega
      · have hp2 : ¬ r.product_id = p2 := fun hh => hp (hk.2.symm.trans hh)
        rw [if_neg hp, if_neg hp, if_neg hp2]
        omega
    · rw [if_neg hk, if_neg hk]
      split <;> split <;> omega

/-! ## Reservation rows name stock rows -/

theorem wellNamed_of_map {db db2 : DB} (f : WarehouseStock → WarehouseStock)
    (hw : wellNamed db)
    (hstock : db2.warehouse_stock = db.warehouse_stock.map f)
    (hkey : ∀ r, (f r).warehouse_id = r.warehouse_id ∧ (f r).product_id = r.product_id)
    (hnamed : ∀ res ∈ db2.reservations, ∃ r ∈ db.warehouse_stock,
      r.warehouse_id = res.warehouse_id ∧ r.product_id = res.product_id) :
    wellNamed db2 := by
  constructor
  · unfold stockKeyed
    rw [hstock, List.map_map]
    have : ((fun r : WarehouseStock => (r.warehouse_id, r.product_id)) ∘ f) =
        (fun r : WarehouseStock => (r.warehouse_id, r.product_id)) := by
      funext r
      simp [Function.comp, (hkey r).1, (hkey r).2]
    rw [this]
    exact hw.1
  · intro res hres
    obtain ⟨r, hr, h1, h2⟩ := hnamed res hres
    refine ⟨f r, ?_, ?_, ?_⟩
    · rw [hstock]; exact List.mem_map_of_mem f hr
    · rw [(hkey r).1, h1]
    · rw [(hkey r).2, h2]

theorem wellNamed_reserveItems (now orderID : Int) {tx : DB} (items : List CheckoutItem)
    (hw : wellNamed tx) : wellNamed (reserveItems now orderID tx items).tx := by
  induction items generalizing tx with
  | nil => exact hw
  | cons item rest ih =>
    cases hs : selectWarehouse tx item.ProductID item.Qty with
    | none =>
      rw [reserveItems_cons_none now orderID tx item rest hs]
      exact hw
    | some row =>
      rw [reserveItems_cons_some now orderID tx item rest row hs]
      apply ih
      obtain ⟨hrow, hprod, _, _⟩ := selectWarehouse_some tx _ _ row hs
      apply wellNamed_of_map
        (fun r => if r.warehouse_id = row.warehouse_id ∧ r.product_id = item.ProductID
          then { r with reserved := r.reserved + item.Qty } else r) hw
      · rfl
      · intro r
        by_cases hk : r.warehouse_id = row.warehouse_id ∧ r.product_id = item.ProductID
        · rw [if_pos hk]; exact ⟨rfl, rfl⟩
        · rw [if_neg hk]; exact ⟨rfl, rfl⟩
      · intro res hres
        simp only [insertReservation, updateProductStock, updateReserved, List.mem_append,
          List.mem_singleton] at hres
        rcases hres with hres | rfl
        · exact hw.2 res hres
        · exact ⟨row, hrow, rfl, hprod⟩

theorem wellNamed_reserve (now orderID : Int) {db : DB} (items : List CheckoutItem)
    (hw : wellNamed db) : wellNamed (ReserveStockForOrder now db orderID items).db := by
  cases h : (reserveItems now orderID db items).err with
  | none =>
    rw [ReserveStockForOrder_db_ok now db orderID items h]
    exact wellNamed_reserveItems now orderID items hw
  | some e =>
    rw [ReserveStockForOrder_db_err now db orderID items (by rw [h]; simp)]
    exact hw

/-- Either the settlement fails and leaves the store, or the order was pending
and owned and the stock and reservation tables are the closed forms. -/
theorem PayHandler_outcome (db : DB) (userID : Int) (req : Option Int) :
    ((PayHandler db userID req).2.status ≠ 200 ∧ (PayHandler db userID req).1 = db) ∨
    (∃ orderID, req = some orderID ∧ (PayHandler db userID req).2.status = 200 ∧
      (PayHandler db userID req).1.warehouse_stock =
        db.warehouse_stock.map (paidRow (selectReservations db orderID)) ∧
      (PayHandler db userID req).1.reservations =
        db.reservations.filter (fun r => !decide (r.order_id = orderID))) := by
  by_cases hok : (PayHandler db userID req).2.status = 200
  · right
    cases req with
    | none => simp [PayHandler] at hok
    | some orderID =>
      by_cases h0 : orderID = 0
      · subst h0; rw [PayHandler_zero] at hok; simp at hok
      · have hcase := PayHandler_cases db userID orderID h0
        cases hf : findOrder db orderID with
        | none => rw [hf] at hcase; rw [hcase] at hok; simp at hok
        | some o =>
          by_cases hu : o.user_id = userID
          · by_cases hs : o.status = "pending"
            · obtain ⟨h1, h2⟩ := PayHandler_success_tables db userID orderID o h0 hf hu hs
              exact ⟨orderID, rfl, hok, h1, h2⟩
            · rw [hf] at hcase
              simp only [hu, hs, ne_eq, not_true_eq_false, not_false_eq_true, if_false,
                if_true] at hcase
              rw [hcase] at hok
              simp at hok
          · rw [hf] at hcase
            simp only [hu, ne_eq, not_false_eq_true, if_true] at hcase
            rw [hcase] at hok
            simp at hok
  · left
    exact ⟨hok, PayHandler_failed db userID req hok⟩

theorem wellNamed_pay {db : DB} (userID : Int) (req : Option Int) (hw : wellNamed db) :
    wellNamed (PayHandler db userID req).1 := by
  rcases PayHandler_outcome db userID req with h | ⟨orderID, _, _, hstock, hres⟩
  · rw [h.2]; exact hw
  · apply wellNamed_of_map (paidRow (selectReservations db orderID)) hw hstock
    · intro r; exact ⟨rfl, rfl⟩
    · intro res hmem
      rw [hres] at hmem
      exact hw.2 res (List.mem_filter.1 hmem).1

theorem wellNamed_release {db : DB} (orderID : Int) (hw : wellNamed db) :
    wellNamed (ReleaseReservationByOrderID db orderID).db := by
  obtain ⟨hstock, hres, _, _, _⟩ := Release_tables db orderID
  apply wellNamed_of_map (releasedRow (selectReservations db orderID)) hw hstock
  · intro r; exact ⟨rfl, rfl⟩
  · intro res hmem
    rw [hres] at hmem
    exact hw.2 res (List.mem_filter.1 hmem).1

theorem wellNamed_ensure {tx : DB} (w p : Int) (hw : wellNamed tx) :
    wellNamed (ensureStockRowExists tx w p) := by
  by_cases h : ∃ r ∈ tx.warehouse_stock, r.warehouse_id = w ∧ r.product_id = p
  · rw [ensure_of_present tx w p h]; exact hw
  · have hno : ∀ r ∈ tx.warehouse_stock, ¬ (r.warehouse_id = w ∧ r.product_id = p) :=
      fun r hr hk => h ⟨r, hr, hk⟩
    rw [ensure_of_absent tx w p hno]
    constructor
    · unfold stockKeyed
      simp only [List.map_append, List.map_cons, List.map_nil]
      rw [List.nodup_append]
      refine ⟨hw.1, List.nodup_singleton _, ?_⟩
      intro k hk1 hk2
      rw [List.mem_singleton] at hk2
      subst hk2
      obtain ⟨r, hr, hkr⟩ := List.mem_map.1 hk1
      simp only [Prod.mk.injEq] at hkr
      exact hno r hr hkr
    · intro res hres
      obtain ⟨r, hr, h1, h2⟩ := hw.2 res hres
      exact ⟨r, List.mem_append_left _ hr, h1, h2⟩

theorem wellNamed_transfer {db : DB} (f t p qty : Int) (hw : wellNamed db) :
    wellNamed (transferTx db f t p qty).db := by
  cases herr : (TransferStock db f t p qty).err with
  | some e =>
    rw [transferTx_db_err db f t p qty (by rw [herr]; simp)]
    exact hw
  | none =>
    rw [transferTx_db_ok db f t p qty herr]
    obtain ⟨hft, _, _, _, _, htx⟩ := TransferStock_ok db f t p qty herr
    rw [htx]
    have hw1 := wellNamed_ensure t p hw
    apply wellNamed_of_map (movedRow f t p qty) hw1
    · simp only [updateQuantityAdd, updateQuantitySub]
      exact moved_eq f t p qty hft _
    · intro r
      simp only [movedRow]
      split
      · exact ⟨rfl, rfl⟩
      · split <;> exact ⟨rfl, rfl⟩
    · exact hw1.2

/-- Every store reached from a keyed store without reservation rows, by any
sequence of operations, is keyed and has every reservation row naming a stock
row. -/
theorem wellNamed_run {db : DB} (ops : List Op) (hw : wellNamed db) :
    wellNamed (run db ops) := by
  induction ops generalizing db with
  | nil => exact hw
  | cons op rest ih =>
    simp only [run, List.foldl_cons]
    apply ih
    cases op with
    | reserve now orderID items => exact wellNamed_reserve now orderID items hw
    | settle userID orderID => exact wellNamed_pay userID (some orderID) hw
    | release orderID => exact wellNamed_release orderID hw
    | transfer f t p qty => exact wellNamed_transfer f t p qty hw

/-! ## C13: what changes the total quantity of a product -/

theorem totalQuantity_ensure (tx : DB) (w p2 p : Int) :
    totalQuantity (ensureStockRowExists tx w p2) p = totalQuantity tx p := by
  by_cases h : ∃ r ∈ tx.warehouse_stock, r.warehouse_id = w ∧ r.product_id = p2
  · rw [ensure_of_present tx w p2 h]
  · have hno : ∀ r ∈ tx.warehouse_stock, ¬ (r.warehouse_id = w ∧ r.product_id = p2) :=
      fun r hr hk => h ⟨r, hr, hk⟩
    rw [ensure_of_absent tx w p2 hno]
    simp only [totalQuantity, quantitySum_append, quantitySum]
    split <;> omega

theorem totalQuantity_transfer (db : DB) (f t p2 qty p : Int) (hw : wellNamed db) :
    totalQuantity (transferTx db f t p2 qty).db p = totalQuantity db p := by
  cases herr : (TransferStock db f t p2 qty).err with
  | some e => rw [transferTx_db_err db f t p2 qty (by rw [herr]; simp)]
  | none =>
    rw [transferTx_db_ok db f t p2 qty herr]
    obtain ⟨hft, _, src, hsrc, _, htx⟩ := TransferStock_ok db f t p2 qty herr
    obtain ⟨hsrcmem, hsw, hsp⟩ := selectStock_some _ f p2 src hsrc
    have hw1 := wellNamed_ensure t p2 hw
    have hkey1 : ((ensureStockRowExists db t p2).warehouse_stock.map
        (fun r => (r.warehouse_id, r.product_id))).Nodup := hw1.1
    have hsub : hitSum (ensureStockRowExists db t p2).warehouse_stock f p2 qty = qty :=
      hitSum_unique _ f p2 qty hkey1 ⟨src, hsrcmem, hsw, hsp⟩
    have hadd : hitSum ((ensureStockRowExists db t p2).warehouse_stock.map
        (fun r => if r.warehouse_id = f ∧ r.product_id = p2
          then { r with quantity := r.quantity - qty } else r)) t p2 qty = qty := by
      rw [hitSum_map_keys]
      · exact hitSum_unique _ t p2 qty hkey1 (ensure_has_row db t p2)
      · intro r
        split <;> exact ⟨rfl, rfl⟩
    rw [htx, ← totalQuantity_ensure db t p2 p]
    simp only [totalQuantity, updateQuantityAdd, updateQuantitySub]
    rw [quantitySum_add, quantitySum_sub, hadd, hsub]
    split <;> omega

/-- C13 (as the code behaves): on a keyed stock table whose reservation rows
each name a stock row, the total quantity of a product over all warehouses is
unchanged by every reservation, every release and every transfer; a settlement
that succeeds lowers it by exactly the total quantity of the order's
reservation rows for the product; and when the reservation rows have
non-negative quantities no settlement raises it.  A quantity that is not
positive is not refused on the way in: on `storeW1` the checkout of `-3` units
of product 7 is accepted as order 2, and the settlement of that order raises
the total quantity of product 7 from 10 to 13. -/
theorem quantity_sum_changes (db : DB) (p : Int) (hw : wellNamed db) :
    (∀ now orderID items,
      totalQuantity (ReserveStockForOrder now db orderID items).db p = totalQuantity db p) ∧
    (∀ orderID,
      totalQuantity (ReleaseReservationByOrderID db orderID).db p = totalQuantity db p) ∧
    (∀ f t p2 qty, totalQuantity (transferTx db f t p2 qty).db p = totalQuantity db p) ∧
    (∀ userID orderID, (PayHandler db userID (some orderID)).2.status = 200 →
      totalQuantity (PayHandler db userID (some orderID)).1 p =
        totalQuantity db p - itemTotal (selectReservations db orderID) p) ∧
    ((∀ res ∈ db.reservations, 0 ≤ res.quantity) → ∀ userID req,
      totalQuantity (PayHandler db userID req).1 p ≤ totalQuantity db p) ∧
    ((CheckoutHandler 0 storeW1 42 2 (some [⟨7, -3⟩])).reply = { status := 201, error := none } ∧
      totalQuantity (CheckoutHandler 0 storeW1 42 2 (some [⟨7, -3⟩])).db 7 = 10 ∧
      (PayHandler (CheckoutHandler 0 storeW1 42 2 (some [⟨7, -3⟩])).db 42 (some 2)).2 =
        { status := 200, error := none } ∧
      totalQuantity (PayHandler (CheckoutHandler 0 storeW1 42 2 (some [⟨7, -3⟩])).db 42
        (some 2)).1 7 = 13) := by
  have hpay : ∀ userID req orderID, req = some orderID →
      (PayHandler db userID req).1.warehouse_stock =
        db.warehouse_stock.map (paidRow (selectReservations db orderID)) →
      totalQuantity (PayHandler db userID req).1 p =
        totalQuantity db p - itemTotal (selectReservations db orderID) p := by
    intro userID req orderID _ hstock
    simp only [totalQuantity]
    rw [hstock, quantitySum_paid, namedQty_eq_itemTotal _ _ p hw.1]
    intro it hit
    obtain ⟨res, hmem, _, rfl⟩ := mem_selectReservations db orderID it hit
    exact hw.2 res hmem
  refine ⟨?_, ?_, fun f t p2 qty => totalQuantity_transfer db f t p2 qty p hw, ?_, ?_,
    ⟨by decide, by decide, by decide, by decide⟩⟩
  · intro now orderID items
    cases h : (reserveItems now orderID db items).err with
    | some e => rw [ReserveStockForOrder_db_err now db orderID items (by rw [h]; simp)]
    | none =>
      rw [ReserveStockForOrder_db_ok now db orderID items h]
      obtain ⟨ws, _, _, hstock, _, _, _⟩ := reserveItems_effect now orderID db items h
      simp only [totalQuantity]
      rw [hstock]
      exact quantitySum_map_same _ _ p (fun r => ⟨rfl, rfl⟩)
  · intro orderID
    simp only [totalQuantity]
    rw [(Release_tables db orderID).1]
    exact quantitySum_map_same _ _ p (fun r => ⟨rfl, rfl⟩)
  · intro userID orderID hok
    rcases PayHandler_outcome db userID (some orderID) with h | ⟨o2, hreq, _, hstock, _⟩
    · exact absurd hok h.1
    · simp only [Option.some.injEq] at hreq
      subst hreq
      exact hpay userID (some orderID) orderID rfl hstock
  · intro hnn userID req
    rcases PayHandler_outcome db userID req with h | ⟨orderID, hreq, _, hstock, _⟩
    · rw [h.2]
    · rw [hpay userID req orderID hreq hstock]
      have := itemTotal_nonneg (selectReservations db orderID) p
        (selectReservations_nonneg db orderID hnn)
      omega

/-- Witness of C13: on `storeReserved` the settlement of order 1
lowers the total quantity of product 7 from 10 by the 7 units reserved, to 3. -/
theorem quantity_sum_changes_witness :
    wellNamed storeReserved ∧
      totalQuantity (PayHandler storeReserved 42 (some 1)).1 7 =
        totalQuantity storeReserved 7 - itemTotal (selectReservations storeReserved 1) 7 ∧
      totalQuantity (PayHandler storeReserved 42 (some 1)).1 7 = 3 := by
  have hw : wellNamed storeReserved := by
    constructor
    · unfold stockKeyed; decide
    · unfold reservationsNamed; decide
  exact ⟨hw, (quantity_sum_changes storeReserved 7 hw).2.2.2.1 42 1 (by decide), by decide⟩

/-! ## Claims on reads, prices and warehouse status -/

/-- C21 fails as stated: on `storeWide` the row of product 7 holds
`quantity = 2 ^ 63 - 1` and `reserved = -1`, so `max (quantity - reserved) 0` is
`2 ^ 63`; the difference is taken on `int`, wraps to `-2 ^ 63` and is clamped:
`GetAvailableStock` returns 0.  The row of product 8 holds `quantity = -2` and
`reserved = 2 ^ 63 - 1`, the maximum is 0 and the function returns
`2 ^ 63 - 1`. -/
theorem available_stock_clamped_counterexample :
    selectStock storeWide 1 7 = some ⟨1, 7, 9223372036854775807, -1⟩ ∧
      max ((9223372036854775807 : Int) - (-1)) 0 = 9223372036854775808 ∧
      GetAvailableStock storeWide 1 7 = (0, none) ∧
      selectStock storeWide 1 8 = some ⟨1, 8, -2, 9223372036854775807⟩ ∧
      max ((-2 : Int) - 9223372036854775807) 0 = 0 ∧
      GetAvailableStock storeWide 1 8 = (9223372036854775807, none) := by
  refine ⟨by decide, by decide, by decide, by decide, by decide, by decide⟩

/-- C21, amended: for a stock row with values `(quantity, reserved)` whose
difference `quantity - reserved` is within the range of `int`,
`GetAvailableStock` returns `max (quantity - reserved) 0` and no error, so 10
and 3 give 7 and 5 and 10 give 0; for every row the result is never negative
and no error is returned; without a row for the pair it returns 0 and the
error `stock_not_found`. -/
theorem available_stock_clamped (db : DB) (w p : Int) :
    (∀ r, selectStock db w p = some r → isInt64 (r.quantity - r.reserved) →
      GetAvailableStock db w p = (max (r.quantity - r.reserved) 0, none)) ∧
    (∀ r, selectStock db w p = some r → r.quantity = 10 → r.reserved = 3 →
      GetAvailableStock db w p = (7, none)) ∧
    (∀ r, selectStock db w p = some r → r.quantity = 5 → r.reserved = 10 →
      GetAvailableStock db w p = (0, none)) ∧
    0 ≤ (GetAvailableStock db w p).1 ∧
    ((∀ r ∈ db.warehouse_stock, ¬ (r.warehouse_id = w ∧ r.product_id = p)) →
      GetAvailableStock db w p = (0, some "stock_not_found")) ∧
    (∀ r, selectStock db w p = some r → (GetAvailableStock db w p).2 = none) := by
  have hmain : ∀ r, selectStock db w p = some r → isInt64 (r.quantity - r.reserved) →
      GetAvailableStock db w p = (max (r.quantity - r.reserved) 0, none) := by
    intro r hr hrange
    rw [GetAvailableStock_of_row db w p r hr, wrap64_of_range _ hrange]
    by_cases hneg : r.quantity - r.reserved < 0
    · rw [if_pos hneg, max_eq_right (by omega)]
    · rw [if_neg hneg, max_eq_left (by omega)]
  refine ⟨hmain, ?_, ?_, ?_, ?_, ?_⟩
  · intro r hr hq hres
    rw [hmain r hr (by rw [hq, hres]; unfold isInt64; decide), hq, hres]
    rfl
  · intro r hr hq hres
    rw [hmain r hr (by rw [hq, hres]; unfold isInt64; decide), hq, hres]
    rfl
  · cases hsel : selectStock db w p with
    | none => simp [GetAvailableStock, hsel]
    | some r =>
      rw [GetAvailableStock_of_row db w p r hsel]
      dsimp only
      split <;> omega
  · intro hno
    have hsel := (selectStock_none db w p).2 hno
    simp [GetAvailableStock, hsel]
  · intro r hr
    rw [GetAvailableStock_of_row db w p r hr]

/-- Witness of C21 (amended): warehouse 1 of `storeTwo` holds 10 units of
product 7, 8 reserved; warehouse 3 holds no row. -/
theorem available_stock_clamped_witness :
    GetAvailableStock storeTwo 1 7 = (max (10 - 8) 0, none) ∧
      GetAvailableStock storeTwo 3 7 = (0, some "stock_not_found") :=
  ⟨(available_stock_clamped storeTwo 1 7).1 ⟨1, 7, 10, 8⟩ (by decide)
    (by unfold isInt64; decide),
   (available_stock_clamped storeTwo 3 7).2.2.2.2.1 (by decide)⟩

/-- C23 (as the code behaves): for the product of `storeTest`, whose stored
price is the integer 2999, `GetProductPrice` returns 299900, a hundred times
the stored integer, and no error; for a product id without a row it returns 0
and the error `product_not_found`. -/
theorem product_price_in_cents :
    GetProductPrice storeTest 101 = (299900, none) ∧
    (∀ (db : DB) (productID : Int), (∀ p ∈ db.products, p.id ≠ productID) →
      GetProductPrice db productID = (0, some PriceError.productNotFound)) ∧
    PriceError.productNotFound.message = "product_not_found" := by
  refine ⟨by decide, ?_, rfl⟩
  intro db productID h
  have hf : db.products.find? (fun p => decide (p.id = productID)) = none := by
    rw [List.find?_eq_none]
    intro x hx
    simpa using h x hx
  simp only [GetProductPrice, hf]

/-- C24 (as the code behaves): `CheckoutHandler` rejects an empty item list
before it creates anything, but it does not look at the quantities: on
`storeW1` a request for `-3` units of product 7 creates order 2, calls
`ReserveStockForOrder` with the quantity `-3`, which succeeds and leaves
`reserved = -3`, and is answered 201. -/
theorem checkout_quantity_unchecked :
    (∀ (now : Int) (db : DB) (userID newID : Int),
      CheckoutHandler now db userID newID (some []) =
        { db := db, orderItems := [], reserveCall := none, notification := none,
          created := none, reply := { status := 400, error := some "items cannot be empty" } }) ∧
    (CheckoutHandler 0 storeW1 42 2 (some [⟨7, -3⟩])).created = some 2 ∧
    (CheckoutHandler 0 storeW1 42 2 (some [⟨7, -3⟩])).reserveCall = some (2, [⟨7, -3⟩]) ∧
    (CheckoutHandler 0 storeW1 42 2 (some [⟨7, -3⟩])).reply = { status := 201, error := none } ∧
    (CheckoutHandler 0 storeW1 42 2 (some [⟨7, -3⟩])).db.warehouse_stock = [⟨1, 7, 10, -3⟩] ∧
    (CheckoutHandler 0 storeW1 42 2 (some [⟨7, 0⟩])).reserveCall = some (2, [⟨7, 0⟩]) := by
  refine ⟨fun _ _ _ _ => rfl, by decide, by decide, by decide, by decide, by decide⟩

/-- C25: `UpdateWarehouseStatus` accepts exactly `active` and `deactive`.  Any
other status returns `invalid_status` with no statement issued and the store
untouched; `active` issues the one update with `true`, `deactive` with `false`,
which sets the flag on the rows of the given id and on no other row; and for an
accepted status the error is `warehouse_not_found` exactly when the update
affected zero rows, that is when no warehouse has the id. -/
theorem warehouse_status_update (db : DB) (warehouseID : Int) (status : String) :
    (status ≠ "active" → status ≠ "deactive" →
      UpdateWarehouseStatus db warehouseID status =
        { db := db, log := [], err := some "invalid_status" }) ∧
    ((UpdateWarehouseStatus db warehouseID "active").log =
        [Stmt.updateWarehouseActive true warehouseID] ∧
      (UpdateWarehouseStatus db warehouseID "active").db =
        updateWarehouseActive db true warehouseID) ∧
    ((UpdateWarehouseStatus db warehouseID "deactive").log =
        [Stmt.updateWarehouseActive false warehouseID] ∧
      (UpdateWarehouseStatus db warehouseID "deactive").db =
        updateWarehouseActive db false warehouseID) ∧
    (∀ (a : Bool), (updateWarehouseActive db a warehouseID).warehouses =
      db.warehouses.map (fun w => if w.id = warehouseID then { w with active := a } else w)) ∧
    ((status = "active" ∨ status = "deactive") →
      ((UpdateWarehouseStatus db warehouseID status).err = some "warehouse_not_found" ↔
        rowsAffected db warehouseID = 0) ∧
      ((UpdateWarehouseStatus db warehouseID status).err = none ↔
        rowsAffected db warehouseID ≠ 0)) ∧
    (rowsAffected db warehouseID = 0 ↔ ∀ w ∈ db.warehouses, w.id ≠ warehouseID) := by
  refine ⟨?_, ?_, ?_, fun _ => rfl, ?_, ?_⟩
  · intro h1 h2
    simp [UpdateWarehouseStatus, h1, h2]
  · unfold UpdateWarehouseStatus
    by_cases h0 : rowsAffected db warehouseID = 0 <;> simp [h0]
  · unfold UpdateWarehouseStatus
    by_cases h0 : rowsAffected db warehouseID = 0 <;> simp [h0]
  · intro hvalid
    unfold UpdateWarehouseStatus
    rw [if_pos hvalid]
    by_cases h0 : rowsAffected db warehouseID = 0 <;> simp [h0]
  · unfold rowsAffected
    rw [List.length_eq_zero, List.filter_eq_nil_iff]
    constructor
    · intro h w hw
      simpa using h w hw
    · intro h w hw
      simpa using h w hw

/-- Witness of C25: on `storeTwo` the status `WRONG` is refused, and warehouse
50, which does not exist, is reported not found. -/
theorem warehouse_status_update_witness :
    UpdateWarehouseStatus storeTwo 1 "WRONG" =
        { db := storeTwo, log := [], err := some "invalid_status" } ∧
      (UpdateWarehouseStatus storeTwo 50 "deactive").err = some "warehouse_not_found" :=
  ⟨(warehouse_status_update storeTwo 1 "WRONG").1 (by decide) (by decide),
   (((warehouse_status_update storeTwo 50 "deactive").2.2.2.2.1 (Or.inr rfl)).1).2
     (by decide)⟩

/-- C29: settlement after release still succeeds.  When a pending order holds
no reservation row, the pay request of its owner is answered 200, the order
reads `paid`, and the stock table and the reservation table are exactly what
they were: nothing is deducted. -/
theorem settle_after_release (db : DB) (userID orderID : Int) (o : Order)
    (h0 : orderID ≠ 0) (hf : findOrder db orderID = some o) (hu : o.user_id = userID)
    (hs : o.status = "pending")
    (hnone : ∀ res ∈ db.reservations, res.order_id ≠ orderID) :
    (PayHandler db userID (some orderID)).2 = { status := 200, error := none } ∧
    findOrder (PayHandler db userID (some orderID)).1 orderID =
      some { o with status := "paid" } ∧
    (PayHandler db userID (some orderID)).1.warehouse_stock = db.warehouse_stock ∧
    (PayHandler db userID (some orderID)).1.reservations = db.reservations := by
  obtain ⟨hreply, hstock⟩ := settle_pay_tables db userID orderID o h0 hf hu hs
  have hres := (PayHandler_success_tables db userID orderID o h0 hf hu hs).2
  have hcase := PayHandler_cases db userID orderID h0
  rw [hf] at hcase
  simp only [hu, hs, ne_eq, not_true_eq_false, if_false] at hcase
  refine ⟨hreply, ?_, ?_, ?_⟩
  · rw [hcase]
    simp only
    rw [findOrder_settled, hf]
    rfl
  · rw [hstock, selectReservations_nil db orderID hnone]
    have : ∀ r ∈ db.warehouse_stock, paidRow [] r = r := by
      intro r _; simp [paidRow, itemQty]
    rw [List.map_congr_left this]
    simp
  · rw [hres, (filter_order_none db.reservations orderID hnone).2]

/-- Witness of C29: order 1 of `storeReserved` is released, then paid by user
42; the stock row stays at (10, 0). -/
theorem settle_after_release_witness :
    (PayHandler (ReleaseReservationByOrderID storeReserved 1).db 42 (some 1)).2 =
        { status := 200, error := none } ∧
      (PayHandler (ReleaseReservationByOrderID storeReserved 1).db 42
        (some 1)).1.warehouse_stock = [⟨1, 7, 10, 0⟩] := by
  have h := settle_after_release (ReleaseReservationByOrderID storeReserved 1).db 42 1
    ⟨1, 42, 490000000, "pending"⟩ (by decide) (by decide) (by decide) (by decide) (by decide)
  refine ⟨h.1, ?_⟩
  rw [h.2.2.1]
  decide

/-- C30 (as the code behaves): `convertPriceToCents` truncates the fraction to
two characters before it parses it, and parses it with a sign allowed: the
malformed prices `12.34abc`, `12.+5` and `12.-5` are accepted as 1234, 1205 and
1195 cents.  More than one `.`, an empty or non-numeric whole part, and a
non-digit among the first two characters of the fraction are rejected with 0
and an error. -/
theorem malformed_price_accepted :
    convertPriceToCents "12.34abc" = (1234, none) ∧
    convertPriceToCents "12.+5" = (1205, none) ∧
    convertPriceToCents "12.-5" = (1195, none) ∧
    convertPriceToCents "1.2.3" = (0, some PriceError.invalidPriceFormat) ∧
    convertPriceToCents ".5" =
      (0, some (PriceError.invalidDollarsPart NumError.invalidSyntax)) ∧
    convertPriceToCents "invalid" =
      (0, some (PriceError.invalidDollarsPart NumError.invalidSyntax)) ∧
    convertPriceToCents "12.3x" =
      (0, some (PriceError.invalidCentsPart NumError.invalidSyntax)) := by
  refine ⟨by decide, by decide, by decide, by decide, by decide, by decide, by decide⟩

/-! ## Decimal strings -/

theorem digitVal_of_digit (c : Char) (h : isDecimalDigit c = true) :
    digitVal c = some (c.toNat - 48) ∧ c.toNat - 48 < 10 ∧ c ≠ '+' ∧ c ≠ '-' ∧ c ≠ '.' ∧
      isSpace c = false := by
  unfold isDecimalDigit at h
  simp only [decide_eq_true_eq] at h
  have h2 : c = '0' ∨ c = '1' ∨ c = '2' ∨ c = '3' ∨ c = '4' ∨ c = '5' ∨ c = '6' ∨ c = '7' ∨
      c = '8' ∨ c = '9' := by
    simpa using h
  rcases h2 with h | h | h | h | h | h | h | h | h | h <;> subst h <;> decide

theorem digitChar_digit (d : Nat) (h : d < 10) :
    isDecimalDigit (digitChar d) = true ∧ (digitChar d).toNat - 48 = d := by
  interval_cases d <;> decide

theorem decimalValueFrom_ge (ds : List Char) (acc : Nat) : acc ≤ decimalValueFrom acc ds := by
  induction ds generalizing acc with
  | nil => exact le_refl _
  | cons c cs ih =>
    have := ih (acc * 10 + (c.toNat - 48))
    simp only [decimalValueFrom, List.foldl_cons] at this ⊢
    omega

/-- On a string of digits the loop of `ParseUint` returns the number the
string denotes, when that number fits in 64 bits. -/
theorem parseUintLoop_digits (ds : List Char) (acc : Nat)
    (hd : ∀ c ∈ ds, isDecimalDigit c = true) (hlt : decimalValueFrom acc ds < 2 ^ 64) :
    parseUintLoop acc ds = .ok (decimalValueFrom acc ds) := by
  induction ds generalizing acc with
  | nil => rfl
  | cons c cs ih =>
    have hc := (digitVal_of_digit c (hd c (List.mem_cons_self _ _))).1
    have hstep : decimalValueFrom acc (c :: cs) =
        decimalValueFrom (acc * 10 + (c.toNat - 48)) cs := rfl
    rw [hstep] at hlt ⊢
    have hge := decimalValueFrom_ge cs (acc * 10 + (c.toNat - 48))
    have hnot : ¬ (2 ^ 64 ≤ acc * 10 + (c.toNat - 48)) := by omega
    simp only [parseUintLoop, hc, if_neg hnot]
    exact ih _ (fun x hx => hd x (List.mem_cons_of_mem _ hx)) hlt

/-- A string the loop of `ParseUint` accepts is made of digits. -/
theorem parseUintLoop_ok_digits (s : List Char) (acc v : Nat)
    (h : parseUintLoop acc s = .ok v) : s.all isDecimalDigit = true := by
  induction s generalizing acc with
  | nil => rfl
  | cons c cs ih =>
    unfold parseUintLoop at h
    cases hc : digitVal c with
    | none => rw [hc] at h; simp at h
    | some d =>
      rw [hc] at h
      simp only at h
      by_cases hov : 2 ^ 64 ≤ acc * 10 + d
      · rw [if_pos hov] at h; simp at h
      · rw [if_neg hov] at h
        have hrest := ih _ h
        have hcd : isDecimalDigit c = true := by
          unfold digitVal at hc
          by_cases hr : 48 ≤ c.toNat ∧ c.toNat ≤ 57
          · have hcc : c = Char.ofNat c.toNat := by simp
            obtain ⟨h1, h2⟩ := hr
            rw [hcc]
            generalize c.toNat = n at h1 h2
            interval_cases n <;> decide
          · rw [if_neg hr] at hc; simp at hc
        simp only [List.all_cons, hcd, hrest, Bool.and_self]

/-- On a non-empty string of digits `ParseInt` returns the number the string
denotes, when that number fits in `int64`. -/
theorem ParseInt_digits (ds : List Char) (hne : ds ≠ [])
    (hd : ∀ c ∈ ds, isDecimalDigit c = true) (hlt : decimalValue ds < 2 ^ 63) :
    ParseInt ds = .ok (decimalValue ds : Int) := by
  cases ds with
  | nil => exact absurd rfl hne
  | cons c cs =>
    obtain ⟨_, _, hp, hm, _, _⟩ := digitVal_of_digit c (hd c (List.mem_cons_self _ _))
    have hloop := parseUintLoop_digits (c :: cs) 0 hd (by unfold decimalValue at hlt; omega)
    have hsign : ¬ (c = '+' ∨ c = '-') := by
      rintro (h | h)
      · exact hp h
      · exact hm h
    unfold ParseInt
    simp only [if_neg hsign, hloop, decide_eq_false hm]
    unfold decimalValue at hlt ⊢
    have h1 : ¬ (2 ^ 63 ≤ decimalValueFrom 0 (c :: cs)) := by omega
    simp only [h1, and_false, if_false, Bool.false_eq_true, false_and]

/-- After a minus sign `ParseInt` returns the negated number. -/
theorem ParseInt_minus (ds : List Char) (hne : ds ≠ [])
    (hd : ∀ c ∈ ds, isDecimalDigit c = true) (hlt : decimalValue ds ≤ 2 ^ 63) :
    ParseInt ('-' :: ds) = .ok (-(decimalValue ds : Int)) := by
  cases ds with
  | nil => exact absurd rfl hne
  | cons c cs =>
    have hloop := parseUintLoop_digits (c :: cs) 0 hd (by unfold decimalValue at hlt; omega)
    unfold ParseInt
    unfold decimalValue at hlt ⊢
    simp [hloop]
    omega

/-- A string `ParseInt` accepts is a decimal integer. -/
theorem ParseInt_ok_decimal (s : List Char) (v : Int) (h : ParseInt s = .ok v) :
    isDecimalInteger s = true := by
  cases s with
  | nil => simp [ParseInt] at h
  | cons c rest =>
    unfold ParseInt at h
    unfold isDecimalInteger
    by_cases hsign : c = '+' ∨ c = '-'
    · simp only [if_pos hsign] at h ⊢
      cases rest with
      | nil => simp at h
      | cons d ds =>
        simp only at h
        cases hl : parseUintLoop 0 (d :: ds) with
        | error e => rw [hl] at h; simp at h
        | ok un =>
          have := parseUintLoop_ok_digits _ _ _ hl
          simp [this]
    · simp only [if_neg hsign] at h ⊢
      cases hl : parseUintLoop 0 (c :: rest) with
      | error e => rw [hl] at h; simp at h
      | ok un => exact parseUintLoop_ok_digits _ _ _ hl

/-- The digit loop writes the decimal digits of the number, most significant
first, in front of what was already produced. -/
theorem formatNatLoop_eq (fuel n : Nat) (acc : List Char) (h : n < fuel) :
    formatNatLoop fuel n acc =
      (if n = 0 then ['0'] else (Nat.digits 10 n).reverse.map digitChar) ++ acc := by
  induction fuel generalizing n acc with
  | zero => omega
  | succ k ih =>
    unfold formatNatLoop
    by_cases h10 : n < 10
    · rw [if_pos h10]
      by_cases h0 : n = 0
      · subst h0
        rfl
      · rw [if_neg h0, Nat.digits_of_lt 10 n h0 h10]
        rfl
    · rw [if_neg h10]
      have hdiv : n / 10 < k := by omega
      have hne : n / 10 ≠ 0 := by omega
      have hn0 : n ≠ 0 := by omega
      rw [ih (n / 10) _ hdiv, if_neg hne, if_neg hn0,
        Nat.digits_def' (by norm_num : 1 < 10) (by omega : 0 < n)]
      simp

theorem formatNat_eq (n : Nat) :
    formatNat n = if n = 0 then ['0'] else (Nat.digits 10 n).reverse.map digitChar := by
  unfold formatNat
  rw [formatNatLoop_eq (n + 1) n [] (by omega), List.append_nil]

theorem formatNat_digits (m : Nat) :
    formatNat m ≠ [] ∧ (∀ c ∈ formatNat m, isDecimalDigit c = true) ∧
      decimalValue (formatNat m) = m := by
  rw [formatNat_eq]
  by_cases h0 : m = 0
  · subst h0
    refine ⟨by simp, by decide, by decide⟩
  · simp only [if_neg h0]
    refine ⟨?_, ?_, ?_⟩
    · simp [Nat.digits_ne_nil_iff_ne_zero, h0]
    · intro c hc
      obtain ⟨d, hd, rfl⟩ := List.mem_map.1 hc
      exact (digitChar_digit d (Nat.digits_lt_base (by norm_num) (List.mem_reverse.1 hd))).1
    · have hgen : ∀ L : List Nat, (∀ d ∈ L, d < 10) →
          decimalValueFrom 0 (L.reverse.map digitChar) = Nat.ofDigits 10 L := by
        intro L hL
        induction L with
        | nil => rfl
        | cons d ds ih =>
          have hd := (digitChar_digit d (hL d (List.mem_cons_self _ _))).2
          have ih2 := ih (fun x hx => hL x (List.mem_cons_of_mem _ hx))
          simp only [decimalValueFrom] at ih2 ⊢
          rw [List.reverse_cons, List.map_append, List.foldl_append, ih2, Nat.ofDigits_cons]
          simp only [List.map_cons, List.map_nil, List.foldl_cons, List.foldl_nil, hd]
          omega
      unfold decimalValue
      rw [hgen _ (fun d hd => Nat.digits_lt_base (by norm_num) hd), Nat.ofDigits_digits]

/-- Parsing the decimal rendering of an `int` gives the `int` back. -/
theorem Atoi_formatInt (n : Int) (h : isInt64 n) : Atoi (formatInt n) = .ok n := by
  obtain ⟨hne, hd, hv⟩ := formatNat_digits n.natAbs
  obtain ⟨hlo, hhi⟩ := h
  unfold Atoi formatInt
  by_cases hneg : n < 0
  · rw [if_pos hneg, ParseInt_minus _ hne hd (by rw [hv]; omega), hv]
    congr 1
    omega
  · rw [if_neg hneg, ParseInt_digits _ hne hd (by rw [hv]; omega), hv]
    congr 1
    omega

theorem startsWith_append (pre s : List Char) : startsWith pre (pre ++ s) = true := by
  simp [startsWith]

theorem dropStart_append (pre s : List Char) : dropStart pre (pre ++ s) = s := by
  simp [dropStart, startsWith]

/-- C26: the notification key round-trips the order id.  For every order id `n`
of Go's `int`, every checkout that is answered 201 for the order `n` arms the
key `reservation:` followed by the decimal rendering of `n`, with the value `n`
and a time to live of 300 seconds, and no checkout arms any other key; the key
has the prefix the worker looks for, the worker parses `n` from it and calls
`ReleaseReservationByOrderID` with exactly `n`; a payload without the prefix,
or whose remainder is not a decimal integer, triggers no release and leaves the
store. -/
theorem notification_key_round_trip (db : DB) (n : Int) (h : isInt64 n) :
    (∀ (now : Int) (db0 : DB) (userID : Int) (req : Option (List CheckoutItem)),
      (CheckoutHandler now db0 userID n req).reply.status = 201 →
      (CheckoutHandler now db0 userID n req).notification =
        some { key := keyPrefix ++ formatInt n, value := n, ttl := 300 } ∧
      (CheckoutHandler now db0 userID n req).created = some n) ∧
    (∀ (now : Int) (db0 : DB) (userID : Int) (items : List CheckoutItem) (total : Int),
      items ≠ [] → checkoutTotal db0 0 items = some total →
      (ReserveStockForOrder now (CreateOrder db0 n userID total).1 n items).err = none →
      (CheckoutHandler now db0 userID n (some items)).reply = { status := 201, error := none }) ∧
    (∀ (now : Int) (db0 : DB) (userID : Int) (req : Option (List CheckoutItem))
      (nt : Notification), (CheckoutHandler now db0 userID n req).notification = some nt →
      nt.key = keyPrefix ++ formatInt n ∧ nt.value = n) ∧
    startsWith keyPrefix (keyPrefix ++ formatInt n) = true ∧
    Atoi (dropStart keyPrefix (keyPrefix ++ formatInt n)) = .ok n ∧
    workerHandle db (keyPrefix ++ formatInt n) =
      { db := (ReleaseReservationByOrderID db n).db, released := some n } ∧
    (∀ key, startsWith keyPrefix key = false →
      workerHandle db key = { db := db, released := none }) ∧
    (∀ rest, isDecimalInteger rest = false →
      workerHandle db (keyPrefix ++ rest) = { db := db, released := none }) := by
  have hparse : Atoi (dropStart keyPrefix (keyPrefix ++ formatInt n)) = .ok n := by
    rw [dropStart_append]; exact Atoi_formatInt n h
  refine ⟨?_, ?_, ?_, startsWith_append _ _, hparse, ?_, ?_, ?_⟩
  · intro now db0 userID req hst
    cases req with
    | none => simp [CheckoutHandler] at hst
    | some items =>
      by_cases hlen : items.length = 0
      · simp [CheckoutHandler, hlen] at hst
      · cases ht : checkoutTotal db0 0 items with
        | none => simp [CheckoutHandler, hlen, ht] at hst
        | some total =>
          cases he : (ReserveStockForOrder now (CreateOrder db0 n userID total).1
              (CreateOrder db0 n userID total).2 items).err with
          | some e => simp [CheckoutHandler, hlen, ht, he] at hst
          | none =>
            simp only [CheckoutHandler, if_neg hlen, ht, he]
            exact ⟨rfl, rfl⟩
  · intro now db0 userID items total hne htotal hok
    have hlen : ¬ items.length = 0 := by
      intro hl; exact hne (List.length_eq_zero.1 hl)
    have hok2 : (ReserveStockForOrder now (CreateOrder db0 n userID total).1
        (CreateOrder db0 n userID total).2 items).err = none := hok
    unfold CheckoutHandler
    simp only [if_neg hlen, htotal, hok2]
  · intro now db0 userID req nt hnt
    unfold CheckoutHandler at hnt
    split at hnt
    · simp at hnt
    · split at hnt
      · simp at hnt
      · split at hnt
        · simp at hnt
        · simp only at hnt
          split at hnt
          · simp at hnt
          · simp only [Option.some.injEq] at hnt
            subst hnt
            exact ⟨rfl, rfl⟩
  · unfold workerHandle
    rw [if_pos (startsWith_append _ _)]
    simp only [hparse]
  · intro key hkey
    unfold workerHandle
    rw [hkey]
    simp
  · intro rest hrest
    unfold workerHandle
    rw [if_pos (startsWith_append _ _)]
    simp only [dropStart_append]
    cases hp : Atoi rest with
    | error e => rfl
    | ok v =>
      have := ParseInt_ok_decimal rest v hp
      rw [this] at hrest
      exact absurd hrest (by simp)

/-- Witness of C26: on `storeW1` the checkout of 3 units of product 7 creates
order 2 and arms the key `reservation:2`; the worker, given that key, releases
order 2, which takes `reserved` back to 0. -/
theorem notification_key_round_trip_witness :
    isInt64 2 ∧
      (CheckoutHandler 0 storeW1 42 2 (some [⟨7, 3⟩])).reply.status = 201 ∧
      (CheckoutHandler 0 storeW1 42 2 (some [⟨7, 3⟩])).notification =
        some { key := keyPrefix ++ formatInt 2, value := 2, ttl := 300 } ∧
      keyPrefix ++ formatInt 2 = "reservation:2".toList ∧
      (CheckoutHandler 0 storeW1 42 2 (some [⟨7, 3⟩])).db.warehouse_stock = [⟨1, 7, 10, 3⟩] ∧
      workerHandle (CheckoutHandler 0 storeW1 42 2 (some [⟨7, 3⟩])).db
          (keyPrefix ++ formatInt 2) =
        { db := (ReleaseReservationByOrderID
            (CheckoutHandler 0 storeW1 42 2 (some [⟨7, 3⟩])).db 2).db,
          released := some 2 } ∧
      (ReleaseReservationByOrderID (CheckoutHandler 0 storeW1 42 2 (some [⟨7, 3⟩])).db
        2).db.warehouse_stock = [⟨1, 7, 10, 0⟩] :=
  ⟨by unfold isInt64; decide, by decide,
   ((notification_key_round_trip storeW1 2 (by unfold isInt64; decide)).1 0 storeW1 42
      (some [⟨7, 3⟩]) (by decide)).1,
   by decide, by decide,
   (notification_key_round_trip (CheckoutHandler 0 storeW1 42 2 (some [⟨7, 3⟩])).db 2
      (by unfold isInt64; decide)).2.2.2.2.2.1,
   by decide⟩

/-! ## Prices -/

theorem dropWhile_spaces_append (pre l : List Char) (h : ∀ c ∈ pre, isSpace c = true) :
    (pre ++ l).dropWhile isSpace = l.dropWhile isSpace := by
  induction pre with
  | nil => rfl
  | cons c cs ih =>
    rw [List.cons_append, List.dropWhile_cons_of_pos (h c (List.mem_cons_self _ _))]
    exact ih (fun x hx => h x (List.mem_cons_of_mem _ hx))

theorem dropWhile_body_append (body l : List Char) (hne : body ≠ [])
    (h : ∀ c ∈ body, isSpace c = false) :
    (body ++ l).dropWhile isSpace = body ++ l := by
  cases body with
  | nil => exact absurd rfl hne
  | cons c cs =>
    rw [List.cons_append, List.dropWhile_cons_of_neg]
    rw [h c (List.mem_cons_self _ _)]
    simp

/-- Trimming removes the white space around a body without white space. -/
theorem trimSpace_body (pre body post : List Char) (hne : body ≠ [])
    (hpre : ∀ c ∈ pre, isSpace c = true) (hpost : ∀ c ∈ post, isSpace c = true)
    (hbody : ∀ c ∈ body, isSpace c = false) :
    trimSpace (pre ++ body ++ post) = body := by
  unfold trimSpace
  rw [List.append_assoc, dropWhile_spaces_append pre _ hpre,
    dropWhile_body_append body post hne hbody, List.reverse_append,
    dropWhile_spaces_append post.reverse _ (fun c hc => hpost c (List.mem_reverse.1 hc))]
  have := dropWhile_body_append body.reverse [] (by simpa using hne)
    (fun c hc => hbody c (List.mem_reverse.1 hc))
  rw [List.append_nil] at this
  rw [this, List.reverse_reverse]

theorem splitOn_none (sep : Char) (s : List Char) (h : ∀ c ∈ s, c ≠ sep) :
    splitOn sep s = [s] := by
  induction s with
  | nil => rfl
  | cons c cs ih =>
    have hc := h c (List.mem_cons_self _ _)
    simp only [splitOn, if_neg hc, ih (fun x hx => h x (List.mem_cons_of_mem _ hx))]

theorem splitOn_once (sep : Char) (ds fs : List Char) (h : ∀ c ∈ ds, c ≠ sep) :
    splitOn sep (ds ++ sep :: fs) = ds :: splitOn sep fs := by
  induction ds with
  | nil => simp [splitOn]
  | cons c cs ih =>
    have hc := h c (List.mem_cons_self _ _)
    rw [List.cons_append]
    simp only [splitOn, if_neg hc, ih (fun x hx => h x (List.mem_cons_of_mem _ hx))]

theorem padOrTruncate_eq (fs : List Char) :
    padOrTruncate fs = (fs ++ ['0', '0']).take 2 := by
  unfold padOrTruncate
  match fs with
  | [] => rfl
  | [a] => rfl
  | [a, b] => rfl
  | a :: b :: c :: rest => simp

theorem cents_digits (fs : List Char) (h : ∀ c ∈ fs, isDecimalDigit c = true) :
    (fs ++ ['0', '0']).take 2 ≠ [] ∧
      (∀ c ∈ (fs ++ ['0', '0']).take 2, isDecimalDigit c = true) ∧ centsOf fs < 100 := by
  have two : ∀ a b : Char, isDecimalDigit a = true → isDecimalDigit b = true →
      decimalValue [a, b] < 100 := by
    intro a b ha hb
    have h1 := (digitVal_of_digit a ha).2.1
    have h2 := (digitVal_of_digit b hb).2.1
    simp only [decimalValue, decimalValueFrom, List.foldl_cons, List.foldl_nil]
    omega
  have hz : isDecimalDigit '0' = true := by decide
  unfold centsOf
  match fs, h with
  | [], _ => exact ⟨by simp, by decide, by decide⟩
  | [a], h =>
    have ha := h a (List.mem_cons_self _ _)
    refine ⟨by simp, ?_, two a '0' ha hz⟩
    intro c hc
    simp at hc
    rcases hc with rfl | rfl
    · exact ha
    · exact hz
  | a :: b :: rest, h =>
    have ha := h a (List.mem_cons_self _ _)
    have hb := h b (List.mem_cons_of_mem _ (List.mem_cons_self _ _))
    refine ⟨by simp, ?_, ?_⟩
    · intro c hc
      simp at hc
      rcases hc with rfl | rfl
      · exact ha
      · exact hb
    · simpa using two a b ha hb

/-- C22 fails as stated: the whole part `92233720368547758` is within int64
range and the fraction `08` is made of digits, but `100 * W + C` is `2 ^ 63`,
which is not; the multiplication and the sum wrap around and the function
returns `-2 ^ 63` with no error. -/
theorem price_to_cents_counterexample :
    (∀ c ∈ "92233720368547758".toList, isDecimalDigit c = true) ∧
      decimalValue "92233720368547758".toList = 92233720368547758 ∧
      (92233720368547758 : Int) < 2 ^ 63 ∧
      (∀ c ∈ "08".toList, isDecimalDigit c = true) ∧
      centsOf "08".toList = 8 ∧
      convertPriceToCents "92233720368547758.08" = (-9223372036854775808, none) ∧
      convertPriceToCents "92233720368547758.08" ≠
        (((100 * decimalValue "92233720368547758".toList + centsOf "08".toList : Nat) : Int),
          none) := by
  refine ⟨by decide, by decide, by decide, by decide, by decide, by decide, by decide⟩

/-- C22, amended: for every string made of a non-empty string `ds` of decimal
digits denoting `W`, optionally followed by `.` and a string `fs` of decimal
digits, and optionally surrounded by white space, when `100 * W + C` is within
int64 range `convertPriceToCents` returns `100 * W + C` with no error, where `C`
is the number formed by the first two digits of `fs` padded on the right with
zeros; without a fraction it returns `100 * W`; and `700000.00` gives
70000000. -/
theorem price_to_cents (pre post ds fs : List Char)
    (hpre : ∀ c ∈ pre, isSpace c = true) (hpost : ∀ c ∈ post, isSpace c = true)
    (hne : ds ≠ []) (hds : ∀ c ∈ ds, isDecimalDigit c = true)
    (hfs : ∀ c ∈ fs, isDecimalDigit c = true)
    (hrange : 100 * decimalValue ds + centsOf fs < 2 ^ 63) :
    convertPriceToCents (String.mk (pre ++ (ds ++ '.' :: fs) ++ post)) =
      (((100 * decimalValue ds + centsOf fs : Nat) : Int), none) ∧
    convertPriceToCents (String.mk (pre ++ ds ++ post)) =
      (((100 * decimalValue ds : Nat) : Int), none) ∧
    convertPriceToCents "700000.00" = (70000000, none) := by
  obtain ⟨hcne, hcd, hc100⟩ := cents_digits fs hfs
  have hdollars := ParseInt_digits ds hne hds (by omega)
  have hcents : ParseInt (padOrTruncate fs) = .ok (centsOf fs : Int) := by
    rw [padOrTruncate_eq]
    exact ParseInt_digits _ hcne hcd (by unfold centsOf at hc100; omega)
  have hdot : ∀ c ∈ ds, c ≠ '.' := fun c hc => (digitVal_of_digit c (hds c hc)).2.2.2.2.1
  have hfdot : ∀ c ∈ fs, c ≠ '.' := fun c hc => (digitVal_of_digit c (hfs c hc)).2.2.2.2.1
  have hsp : ∀ c ∈ ds, isSpace c = false := fun c hc => (digitVal_of_digit c (hds c hc)).2.2.2.2.2
  have hfsp : ∀ c ∈ fs, isSpace c = false :=
    fun c hc => (digitVal_of_digit c (hfs c hc)).2.2.2.2.2
  have hw1 : wrap64 ((decimalValue ds : Int) * 100) = (decimalValue ds : Int) * 100 :=
    wrap64_of_range _ ⟨by omega, by omega⟩
  refine ⟨?_, ?_, by decide⟩
  · have htrim : trimSpace (pre ++ (ds ++ '.' :: fs) ++ post) = ds ++ '.' :: fs := by
      apply trimSpace_body _ _ _ (by simp) hpre hpost
      intro c hc
      rcases List.mem_append.1 hc with h | h
      · exact hsp c h
      · rcases List.mem_cons.1 h with rfl | h
        · decide
        · exact hfsp c h
    have hsplit : splitOn '.' (ds ++ '.' :: fs) = [ds, fs] := by
      rw [splitOn_once '.' ds fs hdot, splitOn_none '.' fs hfdot]
    have hw2 : wrap64 ((decimalValue ds : Int) * 100 + (centsOf fs : Int)) =
        (decimalValue ds : Int) * 100 + (centsOf fs : Int) :=
      wrap64_of_range _ ⟨by omega, by omega⟩
    unfold convertPriceToCents
    simp only [String.toList, htrim, hsplit, List.length_cons, List.length_nil,
      List.getD_cons_zero, List.getD_cons_succ, hdollars, hcents, hw1, hw2]
    have e : ((100 * decimalValue ds + centsOf fs : Nat) : Int) =
        (decimalValue ds : Int) * 100 + (centsOf fs : Int) := by
      push_cast
      ring
    rw [if_neg (by decide), if_pos trivial, e]
  · have htrim : trimSpace (pre ++ ds ++ post) = ds := trimSpace_body _ _ _ hne hpre hpost hsp
    have hsplit : splitOn '.' ds = [ds] := splitOn_none '.' ds hdot
    have hw2 : wrap64 ((decimalValue ds : Int) * 100 + 0) = (decimalValue ds : Int) * 100 := by
      rw [add_zero]; exact hw1
    unfold convertPriceToCents
    simp only [String.toList, htrim, hsplit, List.length_cons, List.length_nil,
      List.getD_cons_zero, hdollars, hw1, hw2]
    have e : ((100 * decimalValue ds : Nat) : Int) = (decimalValue ds : Int) * 100 := by
      push_cast
      ring
    rw [if_neg (by decide), if_neg (by decide), e]

/-- Witness of C22 (amended): the price ` 12.5 ` with a space on either side. -/
theorem price_to_cents_witness :
    convertPriceToCents (String.mk ([' '] ++ (['1', '2'] ++ '.' :: ['5']) ++ [' '])) =
      (((100 * decimalValue ['1', '2'] + centsOf ['5'] : Nat) : Int), none) ∧
    (100 * decimalValue ['1', '2'] + centsOf ['5'] = 1250) :=
  ⟨(price_to_cents [' '] [' '] ['1', '2'] ['5'] (by decide) (by decide) (by decide) (by decide)
    (by decide) (by decide)).1, by decide⟩

/-! ## The product counter after a release -/

/-- C27 fails as stated: on `storeReserved` the reservation of 3 more units of
product 7 for order 1 succeeds and the release that follows leaves the product
counter 3 lower than before, but `reserved` on the row `(1, 7)` ends at 0, not
at the 7 it held before the reservation, because the release also frees the
row order 1 already held. -/
theorem release_keeps_product_counter_counterexample :
    storeReserved.warehouse_stock = [⟨1, 7, 10, 7⟩] ∧
      storeReserved.products = [⟨7, "700000.00", 3⟩] ∧
      (ReserveStockForOrder 0 storeReserved 1 [⟨7, 3⟩]).err = none ∧
      (ReleaseReservationByOrderID (ReserveStockForOrder 0 storeReserved 1 [⟨7, 3⟩]).db
        1).db.products = [⟨7, "700000.00", 0⟩] ∧
      (ReleaseReservationByOrderID (ReserveStockForOrder 0 storeReserved 1 [⟨7, 3⟩]).db
        1).db.warehouse_stock = [⟨1, 7, 10, 0⟩] := by
  refine ⟨rfl, rfl, ?_, ?_, ?_⟩ <;> decide

/-- C27, amended: when every stock row has `reserved ≥ 0`, the items have
positive quantities, the order holds no reservation row before the call and the
reservation succeeds, then after the reservation and the release of the same
order every product counter is lower than before by exactly the quantity
ordered of that product (the release restores nothing of it), while the stock
table, and with it `reserved` on every row, is what it was before the
reservation. -/
theorem release_keeps_product_counter (now : Int) (db : DB) (orderID : Int)
    (items : List CheckoutItem)
    (hnn : ∀ r ∈ db.warehouse_stock, 0 ≤ r.reserved)
    (hpos : ∀ it ∈ items, 0 < it.Qty)
    (hfresh : ∀ res ∈ db.reservations, res.order_id ≠ orderID)
    (hok : (ReserveStockForOrder now db orderID items).err = none) :
    (ReleaseReservationByOrderID (ReserveStockForOrder now db orderID items).db
      orderID).db.products = db.products.map (orderedProduct items) ∧
    (∀ pr : Product, (orderedProduct items pr).stock = pr.stock - orderedQty items pr.id) ∧
    (ReleaseReservationByOrderID (ReserveStockForOrder now db orderID items).db
      orderID).db.warehouse_stock = db.warehouse_stock := by
  rw [ReserveStockForOrder_err] at hok
  rw [ReserveStockForOrder_db_ok now db orderID items hok]
  obtain ⟨ws, _, hres, hstock, hprod, _, _⟩ := reserveItems_effect now orderID db items hok
  obtain ⟨hrel, _, _, hrelprod, _⟩ :=
    Release_tables (reserveItems now orderID db items).tx orderID
  have hrows := filter_order_all (reservationRows now orderID items ws) orderID
    (reservationRows_order now orderID items ws)
  have hold := filter_order_none db.reservations orderID hfresh
  have hsel : selectReservations (reserveItems now orderID db items).tx orderID =
      (reservationRows now orderID items ws).map Reservation.toItem := by
    rw [selectReservations_eq, hres, List.filter_append, hold.1, hrows.1, List.nil_append]
  have hq := reservationRows_items_nonneg now orderID items ws
    (fun it hit => le_of_lt (hpos it hit))
  refine ⟨by rw [hrelprod, hprod], fun _ => rfl, ?_⟩
  rw [hrel, hsel, hstock, List.map_map]
  have hid : ∀ r ∈ db.warehouse_stock,
      (releasedRow ((reservationRows now orderID items ws).map Reservation.toItem) ∘
        bookedRow ((reservationRows now orderID items ws).map Reservation.toItem)) r = id r := by
    intro r hr
    have h0 := hnn r hr
    simp only [Function.comp, releasedRow, bookedRow, id]
    rw [releasedTo_exact _ _ _ _ hq (by omega)]
    have : r.reserved +
        itemQty ((reservationRows now orderID items ws).map Reservation.toItem)
          r.warehouse_id r.product_id -
        itemQty ((reservationRows now orderID items ws).map Reservation.toItem)
          r.warehouse_id r.product_id = r.reserved := by omega
    rw [this]
  rw [List.map_congr_left hid, List.map_id]

/-- Witness of C27 (amended): order 2 reserves 3 units on `storeW1` and is
released; the product counter went from 10 to 7. -/
theorem release_keeps_product_counter_witness :
    (ReleaseReservationByOrderID (ReserveStockForOrder 0 storeW1 2 [⟨7, 3⟩]).db
        2).db.products = storeW1.products.map (orderedProduct [⟨7, 3⟩]) ∧
      storeW1.products.map (orderedProduct [⟨7, 3⟩]) = [⟨7, "700000.00", 7⟩] ∧
      (ReleaseReservationByOrderID (ReserveStockForOrder 0 storeW1 2 [⟨7, 3⟩]).db
        2).db.warehouse_stock = storeW1.warehouse_stock := by
  have h := release_keeps_product_counter 0 storeW1 2 [⟨7, 3⟩] (by decide) (by decide)
    (by decide) (by decide)
  exact ⟨h.1, by decide, h.2.2⟩

/-! ## C28: `reserved` is the outstanding quantity -/

theorem exact_of_map {db db2 : DB} (f : WarehouseStock → WarehouseStock)
    (hstock : db2.warehouse_stock = db.warehouse_stock.map f)
    (hkey : ∀ r, (f r).warehouse_id = r.warehouse_id ∧ (f r).product_id = r.product_id)
    (hbal : ∀ r ∈ db.warehouse_stock,
      (f r).reserved = outstanding db2 r.warehouse_id r.product_id)
    (hnn : ∀ res ∈ db2.reservations, 0 ≤ res.quantity)
    (hnamed : ∀ res ∈ db2.reservations, ∃ r ∈ db.warehouse_stock,
      r.warehouse_id = res.warehouse_id ∧ r.product_id = res.product_id) :
    Exact db2 := by
  refine ⟨?_, hnn, ?_⟩
  · intro r2 hr2
    rw [hstock] at hr2
    obtain ⟨r, hr, rfl⟩ := List.mem_map.1 hr2
    rw [(hkey r).1, (hkey r).2]
    exact hbal r hr
  · intro res hres
    obtain ⟨r, hr, h1, h2⟩ := hnamed res hres
    refine ⟨f r, ?_, ?_, ?_⟩
    · rw [hstock]; exact List.mem_map_of_mem f hr
    · rw [(hkey r).1, h1]
    · rw [(hkey r).2, h2]

theorem exact_of_initial (db : DB) (hres : db.reservations = [])
    (hzero : ∀ r ∈ db.warehouse_stock, r.reserved = 0) : Exact db := by
  refine ⟨?_, ?_, ?_⟩
  · intro r hr
    rw [hzero r hr]
    simp [outstanding, hres, itemQty]
  · intro res h; rw [hres] at h; simp at h
  · intro res h; rw [hres] at h; simp at h

theorem exact_reserveItems (now orderID : Int) {tx : DB} (items : List CheckoutItem)
    (hq : ∀ it ∈ items, 0 ≤ it.Qty) (he : Exact tx) :
    Exact (reserveItems now orderID tx items).tx := by
  induction items generalizing tx with
  | nil => exact he
  | cons item rest ih =>
    have hrest : ∀ it ∈ rest, 0 ≤ it.Qty := fun it hit => hq it (List.mem_cons_of_mem _ hit)
    cases hs : selectWarehouse tx item.ProductID item.Qty with
    | none =>
      rw [reserveItems_cons_none now orderID tx item rest hs]
      exact he
    | some row =>
      rw [reserveItems_cons_some now orderID tx item rest row hs]
      apply ih hrest
      obtain ⟨hrow, hprod, _, _⟩ := selectWarehouse_some tx _ _ row hs
      apply exact_of_map
        (fun r => if r.warehouse_id = row.warehouse_id ∧ r.product_id = item.ProductID
          then { r with reserved := r.reserved + item.Qty } else r)
      · rfl
      · intro r
        by_cases hk : r.warehouse_id = row.warehouse_id ∧ r.product_id = item.ProductID
        · rw [if_pos hk]; exact ⟨rfl, rfl⟩
        · rw [if_neg hk]; exact ⟨rfl, rfl⟩
      · intro r hr
        have hb := he.balance r hr
        have hout : outstanding (insertReservation now
            (updateProductStock (updateReserved tx item.Qty row.warehouse_id item.ProductID)
              item.Qty item.ProductID) orderID item.ProductID row.warehouse_id item.Qty)
            r.warehouse_id r.product_id =
            outstanding tx r.warehouse_id r.product_id +
              (if row.warehouse_id = r.warehouse_id ∧ item.ProductID = r.product_id
                then item.Qty else 0) := by
          simp only [outstanding, insertReservation, updateProductStock, updateReserved,
            List.map_append, itemQty_append, List.map_cons, List.map_nil, itemQty,
            Reservation.toItem, add_zero]
        rw [hout]
        by_cases hk : r.warehouse_id = row.warehouse_id ∧ r.product_id = item.ProductID
        · have hk2 : row.warehouse_id = r.warehouse_id ∧ item.ProductID = r.product_id :=
            ⟨hk.1.symm, hk.2.symm⟩
          rw [if_pos hk, if_pos hk2]
          show r.reserved + item.Qty = _
          rw [hb]
        · have hk2 : ¬ (row.warehouse_id = r.warehouse_id ∧ item.ProductID = r.product_id) :=
            fun hh => hk ⟨hh.1.symm, hh.2.symm⟩
          rw [if_neg hk, if_neg hk2, hb]
          simp
      · intro res hres
        simp only [insertReservation, updateProductStock, updateReserved, List.mem_append,
          List.mem_singleton] at hres
        rcases hres with hres | rfl
        · exact he.nonneg res hres
        · exact hq item (List.mem_cons_self _ _)
      · intro res hres
        simp only [insertReservation, updateProductStock, updateReserved, List.mem_append,
          List.mem_singleton] at hres
        rcases hres with hres | rfl
        · exact he.named res hres
        · exact ⟨row, hrow, rfl, hprod⟩

theorem exact_reserve (now orderID : Int) {db : DB} (items : List CheckoutItem)
    (hq : ∀ it ∈ items, 0 ≤ it.Qty) (he : Exact db) :
    Exact (ReserveStockForOrder now db orderID items).db := by
  cases h : (reserveItems now orderID db items).err with
  | none =>
    rw [ReserveStockForOrder_db_ok now db orderID items h]
    exact exact_reserveItems now orderID items hq he
  | some e =>
    rw [ReserveStockForOrder_db_err now db orderID items (by rw [h]; simp)]
    exact he

theorem exact_pay {db : DB} (userID : Int) (req : Option Int) (he : Exact db) :
    Exact (PayHandler db userID req).1 := by
  rcases PayHandler_outcome db userID req with h | ⟨orderID, _, _, hstock, hres⟩
  · rw [h.2]; exact he
  · apply exact_of_map (paidRow (selectReservations db orderID)) hstock
    · intro r; exact ⟨rfl, rfl⟩
    · intro r hr
      rw [outstanding_after_delete db _ orderID _ _ hres, ← he.balance r hr]
      rfl
    · intro res hmem
      rw [hres] at hmem
      exact he.nonneg res (List.mem_filter.1 hmem).1
    · intro res hmem
      rw [hres] at hmem
      exact he.named res (List.mem_filter.1 hmem).1

/-- In an exact ledger a stock row with `reserved = 0` has no quantity held
against it by any order. -/
theorem exact_held_zero {db : DB} (he : Exact db) (orderID : Int) (r : WarehouseStock)
    (hr : r ∈ db.warehouse_stock) (hz : r.reserved = 0) :
    itemQty (selectReservations db orderID) r.warehouse_id r.product_id = 0 := by
  have h1 : itemQty (selectReservations db orderID) r.warehouse_id r.product_id ≤ r.reserved := by
    rw [he.balance r hr]
    unfold outstanding
    rw [itemQty_split_order db.reservations orderID, selectReservations_eq]
    have : 0 ≤ itemQty ((db.reservations.filter
        (fun x => !decide (x.order_id = orderID))).map Reservation.toItem)
        r.warehouse_id r.product_id := by
      apply itemQty_nonneg
      intro it hit
      obtain ⟨res, hres, rfl⟩ := List.mem_map.1 hit
      exact he.nonneg res (List.mem_filter.1 hres).1
    omega
  have h2 := itemQty_nonneg (selectReservations db orderID) r.warehouse_id r.product_id
    (selectReservations_nonneg db orderID he.nonneg)
  omega

/-- In an exact ledger the rows of one order never exceed `reserved`. -/
theorem exact_covers {db : DB} (he : Exact db) (orderID : Int) (r : WarehouseStock)
    (hr : r ∈ db.warehouse_stock) :
    itemQty (selectReservations db orderID) r.warehouse_id r.product_id ≤ r.reserved := by
  rw [he.balance r hr]
  unfold outstanding
  rw [itemQty_split_order db.reservations orderID, selectReservations_eq]
  have : 0 ≤ itemQty ((db.reservations.filter
      (fun x => !decide (x.order_id = orderID))).map Reservation.toItem)
      r.warehouse_id r.product_id := by
    apply itemQty_nonneg
    intro it hit
    obtain ⟨res, hres, rfl⟩ := List.mem_map.1 hit
    exact he.nonneg res (List.mem_filter.1 hres).1
  omega

theorem exact_release {db : DB} (orderID : Int) (he : Exact db) :
    Exact (ReleaseReservationByOrderID db orderID).db := by
  obtain ⟨hstock, hres, _, _, _⟩ := Release_tables db orderID
  apply exact_of_map (releasedRow (selectReservations db orderID)) hstock
  · intro r; exact ⟨rfl, rfl⟩
  · intro r hr
    rw [outstanding_after_delete db _ orderID _ _ hres, ← he.balance r hr]
    exact releasedTo_exact _ _ _ _ (selectReservations_nonneg db orderID he.nonneg)
      (exact_covers he orderID r hr)
  · intro res hmem
    rw [hres] at hmem
    exact he.nonneg res (List.mem_filter.1 hmem).1
  · intro res hmem
    rw [hres] at hmem
    exact he.named res (List.mem_filter.1 hmem).1

theorem exact_ensure {tx : DB} (w p : Int) (he : Exact tx) :
    Exact (ensureStockRowExists tx w p) := by
  by_cases h : ∃ r ∈ tx.warehouse_stock, r.warehouse_id = w ∧ r.product_id = p
  · rw [ensure_of_present tx w p h]; exact he
  · have hno : ∀ r ∈ tx.warehouse_stock, ¬ (r.warehouse_id = w ∧ r.product_id = p) :=
      fun r hr hk => h ⟨r, hr, hk⟩
    rw [ensure_of_absent tx w p hno]
    refine ⟨?_, he.nonneg, ?_⟩
    · intro r hr
      simp only [List.mem_append, List.mem_singleton] at hr
      rcases hr with hr | rfl
      · exact he.balance r hr
      · show (0 : Int) = itemQty (tx.reservations.map Reservation.toItem) w p
        rw [itemQty_eq_zero]
        intro it hit hk
        obtain ⟨res, hres, rfl⟩ := List.mem_map.1 hit
        obtain ⟨r, hr, h1, h2⟩ := he.named res hres
        exact hno r hr ⟨h1.trans hk.1, h2.trans hk.2⟩
    · intro res hres
      obtain ⟨r, hr, h1, h2⟩ := he.named res hres
      exact ⟨r, List.mem_append_left _ hr, h1, h2⟩

theorem exact_transfer {db : DB} (f t p qty : Int) (he : Exact db) :
    Exact (transferTx db f t p qty).db := by
  cases herr : (TransferStock db f t p qty).err with
  | some e =>
    rw [transferTx_db_err db f t p qty (by rw [herr]; simp)]
    exact he
  | none =>
    rw [transferTx_db_ok db f t p qty herr]
    obtain ⟨hft, _, _, _, _, htx⟩ := TransferStock_ok db f t p qty herr
    rw [htx]
    have he1 := exact_ensure t p he
    apply exact_of_map (movedRow f t p qty)
    · simp only [updateQuantityAdd, updateQuantitySub]
      exact moved_eq f t p qty hft _
    · intro r
      simp only [movedRow]
      split
      · exact ⟨rfl, rfl⟩
      · split <;> exact ⟨rfl, rfl⟩
    · intro r hr
      have hb := he1.balance r hr
      have hrv : (movedRow f t p qty r).reserved = r.reserved := by
        simp only [movedRow]
        split
        · rfl
        · split <;> rfl
      rw [hrv, hb]
      rfl
    · exact he1.nonneg
    · exact he1.named

theorem exact_run {db : DB} (ops : List Op) (he : Exact db)
    (hops : ∀ op ∈ ops, nonnegItems op) : Exact (run db ops) := by
  induction ops generalizing db with
  | nil => exact he
  | cons op rest ih =>
    simp only [run, List.foldl_cons]
    apply ih _ (fun o ho => hops o (List.mem_cons_of_mem _ ho))
    have hop := hops op (List.mem_cons_self _ _)
    cases op with
    | reserve now orderID items => exact exact_reserve now orderID items hop he
    | settle userID orderID => exact exact_pay userID (some orderID) he
    | release orderID => exact exact_release orderID he
    | transfer f t p qty => exact exact_transfer f t p qty he

theorem clampIdle_of_covered (items : List ReservationItem) (w p r : Int)
    (hq : ∀ it ∈ items, 0 ≤ it.Qty) (hr : itemQty items w p ≤ r) :
    clampIdle items w p r := by
  induction items generalizing r with
  | nil => trivial
  | cons it rest ih =>
    have hrest : ∀ x ∈ rest, 0 ≤ x.Qty := fun x hx => hq x (List.mem_cons_of_mem _ hx)
    have hnn := itemQty_nonneg rest w p hrest
    simp only [itemQty] at hr
    unfold clampIdle
    by_cases hk : it.ProductID = p ∧ it.WarehouseID = w
    · have hk2 : it.WarehouseID = w ∧ it.ProductID = p := ⟨hk.2, hk.1⟩
      rw [if_pos hk2] at hr
      rw [if_pos hk]
      exact ⟨by omega, ih _ hrest (by omega)⟩
    · have hk2 : ¬ (it.WarehouseID = w ∧ it.ProductID = p) := fun hh => hk ⟨hh.2, hh.1⟩
      rw [if_neg hk2] at hr
      rw [if_neg hk]
      exact ih _ hrest (by omega)

/-- C28: in every state reached from a store without reservation rows and with
`reserved = 0` on every stock row, by any sequence of reservations with
non-negative quantities, settlements, releases and transfers, `reserved` on
every stock row equals the total quantity of the outstanding reservation rows
that name the row; hence in such a state the clamp of a release is idle at
every statement and the release subtracts exactly, and no settlement leaves a
negative `reserved`. -/
theorem reserved_equals_outstanding (db : DB) (ops : List Op)
    (hres : db.reservations = []) (hzero : ∀ r ∈ db.warehouse_stock, r.reserved = 0)
    (hops : ∀ op ∈ ops, nonnegItems op) :
    balanced (run db ops) ∧ releaseUnclamped (run db ops) ∧ settleKeepsNonneg (run db ops) := by
  have he := exact_run ops (exact_of_initial db hres hzero) hops
  refine ⟨he.balance, ?_, ?_⟩
  · intro orderID
    have hq := selectReservations_nonneg (run db ops) orderID he.nonneg
    refine ⟨fun r hr => clampIdle_of_covered _ _ _ _ hq (exact_covers he orderID r hr), ?_⟩
    rw [(Release_tables (run db ops) orderID).1]
    apply List.map_congr_left
    intro r hr
    simp only [releasedRow, unclampedRow]
    rw [releasedTo_exact _ _ _ _ hq (exact_covers he orderID r hr)]
  · intro userID orderID r hr
    have he2 := exact_pay userID (some orderID) he
    rw [he2.balance r hr]
    exact outstanding_nonneg _ _ _ he2.nonneg

/-- Witness of C28: the run `exampleRun` on `storeW1`. -/
theorem reserved_equals_outstanding_witness :
    storeW1.reservations = [] ∧ balanced (run storeW1 exampleRun) ∧
      releaseUnclamped (run storeW1 exampleRun) ∧ settleKeepsNonneg (run storeW1 exampleRun) :=
  ⟨rfl, reserved_equals_outstanding storeW1 exampleRun rfl (by decide) (by
    intro op hop
    simp only [exampleRun, List.mem_cons, List.mem_singleton, List.not_mem_nil, or_false] at hop
    rcases hop with rfl | rfl | rfl | rfl
    · intro it hit
      simp only [List.mem_singleton] at hit
      subst hit
      decide
    · trivial
    · trivial
    · trivial)⟩

end OrderService
